import Mathlib

/-!
RedisCluster: the keyed command dispatcher and the node iteration of
`redis_cluster.hpp`.

A shallow embedding of `RedisCluster::_command(Cmd, const StringView &key, Args...)`
(the retry / redirect loop every keyed command goes through), of
`RedisCluster::for_each`, and of the entry points that choose the routing key of
a range (`command`, the scripting commands, the stream reads), together with the
collaborators they call.  The collaborators (`ShardsPool`, `ConnectionPool`,
`Connection`, the error classes) are declared in headers outside
`redis_cluster.hpp`; they are taken as an arbitrary deterministic environment
`Env σ` over an arbitrary state type `σ`, each operation of which either returns
or throws and may change the state either way.

Every call the dispatcher makes to a collaborator is recorded, in order, in the
`log` of the `World`; the theorems read the number of sends, refreshes and
leases off that log.

The dispatcher forwards its argument pack, `std::forward<Args>(args)...`, at every
call of the command callable: in each iteration of the loop and once more for the
resend after `ASKING`.  A callable is therefore given by the argument list each
of its calls puts on the wire (`Cmd`): a callable that took over an rvalue
argument at its first call sends something else at the next one.  The entry
points of `redis_cluster.hpp` that pass lvalues only (the generic range form, the
scripting commands, the stream reads) go through `reads`.
-/

namespace RedisCluster

/-! Data. -/

/-- The text of a `StringView` / `std::string`. -/
abbrev StringView := String

/-- Identity of a `ConnectionPool` (the target of a `ConnectionPoolSPtr`). -/
abbrev Pool := Nat

/-- Identity of a `Connection`. -/
abbrev Conn := Nat

/-- What one call of `cmd(connection, args...)` puts on the wire: the argument list of one command. -/
abbrev CmdArgs := List String

/-- A callable `cmd` together with the argument pack `args...` it is called on, by
what its calls put on the wire: `cmd i` is the argument list sent by the call
`cmd(connection, std::forward<Args>(args)...)` that finds the pack as `i` earlier
calls left it.  The dispatcher forwards the same pack at every call, so an
argument passed as an rvalue and taken over by the callable is found moved-from
by the next call; a callable that only reads its arguments sends the same list
at every call. -/
abbrev Cmd := Nat → CmdArgs

/-- A callable that only reads its arguments (lvalues, or arguments taken by
reference to `const`, or values a move leaves unchanged): every call sends `args`. -/
def reads (args : CmdArgs) : Cmd := fun _ => args

/-- A node address, as carried by a redirection error (`err.node()`). -/
structure Node where
  host : String
  port : Nat
deriving DecidableEq, Repr

/-- The content of a `ReplyUPtr` handed back by `Connection::recv`. -/
inductive Reply where
  | nil
  | status (text : String)
  | integer (value : Int)
  | str (text : String)
  | array (items : List Reply)

/-- Exception objects, by the class the `catch` clauses of the dispatcher tell apart.
`IoError`, `ClosedError`, `MovedError` and `AskError` stand for any object the
clause of that name catches (the four classes are pairwise unrelated); `Error` is
an object of the base class itself, as thrown by the dispatcher; `Other` is an
object of any remaining class (a `ReplyError` for a server-reported application
error, a `ProtoError`, ...), none of which the dispatcher catches. -/
inductive Exn where
  | IoError (what : String)
  | ClosedError (what : String)
  | MovedError (slot : Nat) (node : Node)
  | AskError (slot : Nat) (node : Node)
  | Error (what : String)
  | Other (cls : String) (what : String)

/-- One call from the dispatcher to a collaborator. -/
inductive Event where
  /-- A call of `_pool->fetch(key)`. -/
  | fetch (key : StringView)
  /-- A call of `_pool->fetch(err.node())`. -/
  | fetchNode (node : Node)
  /-- A call of `_pool->update()`. -/
  | update
  /-- The constructor of `SafeConnection` on a pool: `some c` when it leased `c`, `none` when it threw. -/
  | lease (pool : Pool) (conn : Option Conn)
  /-- The destructor of `SafeConnection`: the connection goes back to its pool. -/
  | release (pool : Pool) (conn : Conn)
  /-- A call of `cmd(connection, args...)`. -/
  | send (conn : Conn) (args : CmdArgs)
  /-- A call of `connection.recv()`. -/
  | recv (conn : Conn)
  /-- A call of `_asking(connection)`. -/
  | asking (conn : Conn)
  /-- A call of `_pool->pools()`. -/
  | pools
  /-- The constructor of `GuardedConnection` on a pool: `some c` when it leased `c`, `none` when it threw. -/
  | guard (pool : Pool) (conn : Option Conn)
  /-- The destructor of `GuardedConnection`: the connection goes back to its pool. -/
  | unguard (pool : Pool) (conn : Conn)
  /-- A call `cb(r)` of the callback of `for_each`, with the `Redis` object on the guarded connection. -/
  | callback (pool : Pool) (conn : Conn)

/-- The collaborators of the dispatcher, as a deterministic environment over a
state `σ`.  Every operation but `release` returns either a value or an
exception, and the state after the call. -/
structure Env (σ : Type) where
  /-- The method `ShardsPool::fetch(const StringView &key)`. -/
  fetch : StringView → σ → Except Exn Pool × σ
  /-- The method `ShardsPool::fetch(const Node &node)`. -/
  fetchNode : Node → σ → Except Exn Pool × σ
  /-- The method `ShardsPool::update()`. -/
  update : σ → Except Exn Unit × σ
  /-- The constructor `SafeConnection::SafeConnection(ConnectionPool &)`. -/
  acquire : Pool → σ → Except Exn Conn × σ
  /-- The destructor `SafeConnection::~SafeConnection()`; a destructor does not throw. -/
  release : Pool → Conn → σ → σ
  /-- The call `cmd(connection, args...)`. -/
  send : Conn → CmdArgs → σ → Except Exn Unit × σ
  /-- The method `Connection::recv()`. -/
  recv : Conn → σ → Except Exn Reply × σ
  /-- The method `RedisCluster::_asking(Connection &)`. -/
  asking : Conn → σ → Except Exn Unit × σ
  /-- The method `ShardsPool::pools()`. -/
  pools : σ → Except Exn (List Pool) × σ
  /-- The constructor `GuardedConnection::GuardedConnection(const ConnectionPoolSPtr &)`. -/
  guard : Pool → σ → Except Exn Conn × σ
  /-- The destructor `GuardedConnection::~GuardedConnection()`; a destructor does not throw. -/
  unguard : Pool → Conn → σ → σ

/-- The state of the collaborators and the calls made so far. -/
structure World (σ : Type) where
  st : σ
  log : List Event

/-- The world before the dispatcher is called: nothing logged yet. -/
def World.init {σ : Type} (s : σ) : World σ := ⟨s, []⟩

/-- The outcome of a computation: a value or a thrown exception, and the world after it. -/
abbrev Res (σ : Type) (α : Type) := Except Exn α × World σ

/-! Logged calls. -/

section Calls
variable {σ : Type}

/-- Calls `_pool->fetch(key)`. -/
def fetch (env : Env σ) (key : StringView) (w : World σ) : Res σ Pool :=
  ((env.fetch key w.st).1, ⟨(env.fetch key w.st).2, w.log ++ [Event.fetch key]⟩)

/-- Calls `_pool->fetch(node)`. -/
def fetchNode (env : Env σ) (node : Node) (w : World σ) : Res σ Pool :=
  ((env.fetchNode node w.st).1, ⟨(env.fetchNode node w.st).2, w.log ++ [Event.fetchNode node]⟩)

/-- Calls `_pool->update()`. -/
def update (env : Env σ) (w : World σ) : Res σ Unit :=
  ((env.update w.st).1, ⟨(env.update w.st).2, w.log ++ [Event.update]⟩)

/-- Constructs a `SafeConnection` on `pool`. -/
def acquire (env : Env σ) (pool : Pool) (w : World σ) : Res σ Conn :=
  ((env.acquire pool w.st).1,
   ⟨(env.acquire pool w.st).2, w.log ++ [Event.lease pool (env.acquire pool w.st).1.toOption]⟩)

/-- Destroys the `SafeConnection` holding `conn` of `pool`. -/
def release (env : Env σ) (pool : Pool) (conn : Conn) (w : World σ) : World σ :=
  ⟨env.release pool conn w.st, w.log ++ [Event.release pool conn]⟩

/-- Calls `cmd(connection, args...)`, which puts the argument list `args` on the wire. -/
def send (env : Env σ) (conn : Conn) (args : CmdArgs) (w : World σ) : Res σ Unit :=
  ((env.send conn args w.st).1, ⟨(env.send conn args w.st).2, w.log ++ [Event.send conn args]⟩)

/-- Calls `connection.recv()`. -/
def recv (env : Env σ) (conn : Conn) (w : World σ) : Res σ Reply :=
  ((env.recv conn w.st).1, ⟨(env.recv conn w.st).2, w.log ++ [Event.recv conn]⟩)

/-- Calls `_asking(connection)`. -/
def _asking (env : Env σ) (conn : Conn) (w : World σ) : Res σ Unit :=
  ((env.asking conn w.st).1, ⟨(env.asking conn w.st).2, w.log ++ [Event.asking conn]⟩)

/-! The dispatcher. -/

/-- Whether the event is a call of `cmd(connection, args...)`. -/
def Event.isSend : Event → Bool
  | .send _ _ => true
  | _ => false

/-- How many times `cmd(connection, args...)` was called: how many times a command
was put on the wire. -/
def sends (log : List Event) : Nat := log.countP Event.isSend

/-- The overload `_command(Cmd cmd, Connection &connection, Args &&...args)`:
`cmd(connection, std::forward<Args>(args)...); return connection.recv();`.  The
`assert(!connection.broken())` ahead of the two calls is taken to hold.  The call
of `cmd` finds the pack as the earlier calls left it: every earlier call is a
`send` event of the log, so this call sends `cmd (sends w.log)`. -/
def _command_connection (env : Env σ) (cmd : Cmd) (conn : Conn) (w : World σ) : Res σ Reply :=
  match send env conn (cmd (sends w.log)) w with
  | (.error e, w1) => (.error e, w1)
  | (.ok _, w1) => recv env conn w1

/-- The scope of a local `SafeConnection safe_connection(*pool)`: the constructor
leases a connection; when the scope is left, by `return` or by an exception, the
destructor gives the connection back.  If the constructor throws there is no
object and no destructor call. -/
def SafeConnection {α : Type} (env : Env σ) (pool : Pool)
    (scope : Conn → World σ → Res σ α) (w : World σ) : Res σ α :=
  match acquire env pool w with
  | (.error e, w1) => (.error e, w1)
  | (.ok conn, w1) => ((scope conn w1).1, release env pool conn (scope conn w1).2)

/-- The `try` block of one iteration of the loop of the keyed `_command`:
```
auto pool = _pool->fetch(key);
SafeConnection safe_connection(*pool);
return _command(cmd, safe_connection.connection(), std::forward<Args>(args)...);
```
The `assert(pool)` is taken to hold: `fetch` yields a pool or throws.  An exception
thrown anywhere in the block, by `fetch` and by the constructor too, is what the
`catch` clauses see; the connection, once leased, is released before they run.
The pack `args...` is forwarded to the call of `cmd` in every iteration. -/
def attempt (env : Env σ) (cmd : Cmd) (key : StringView) (w : World σ) : Res σ Reply :=
  match fetch env key w with
  | (.error e, w1) => (.error e, w1)
  | (.ok pool, w1) => SafeConnection env pool (fun conn => _command_connection env cmd conn) w1

/-- The inner `try` of the `AskError` clause:
`return _command(cmd, connection, std::forward<Args>(args)...);`, one more call of
`cmd` on the pack as the failed attempt left it; a `MovedError` is replaced by a
fresh `Error`, anything else passes. -/
def resend (env : Env σ) (cmd : Cmd) (conn : Conn) (w : World σ) : Res σ Reply :=
  match _command_connection env cmd conn w with
  | (.error (.MovedError _ _), w1) =>
      (.error (.Error "Slot migrating... ASKING node hasn't been set to IMPORTING state"), w1)
  | r => r

/-- The body of `catch (const AskError &err)` with `node = err.node()`:
```
auto pool = _pool->fetch(err.node());
SafeConnection safe_connection(*pool);
auto &connection = safe_connection.connection();
_asking(connection);
try { return _command(cmd, connection, std::forward<Args>(args)...); }
catch (const MovedError &) { throw Error(...); }
```
The pack is forwarded once more: the resend is a further call of `cmd`, after the
call of the attempt that raised the `AskError`. -/
def askClause (env : Env σ) (cmd : Cmd) (node : Node) (w : World σ) : Res σ Reply :=
  match fetchNode env node w with
  | (.error e, w1) => (.error e, w1)
  | (.ok pool, w1) =>
      SafeConnection env pool
        (fun conn w2 =>
          match _asking env conn w2 with
          | (.error e, w3) => (.error e, w3)
          | (.ok _, w3) => resend env cmd conn w3)
        w1

/-- The body shared by the clauses for `IoError`, `ClosedError` and `MovedError`:
`_pool->update();`, after which the clause ends (`none`: the loop goes on). -/
def updateClause (env : Env σ) (w : World σ) : Res σ (Option Reply) :=
  match update env w with
  | (.error e, w1) => (.error e, w1)
  | (.ok _, w1) => (.ok none, w1)

/-- The `catch` clauses of the loop, applied to the exception `e` that left the
`try` block.  `ok none`: the clause ran to its end and the loop continues;
`ok (some r)`: the clause returned `r`; `error`: an exception leaves `_command`. -/
def catchClauses (env : Env σ) (cmd : Cmd) (e : Exn) (w : World σ) : Res σ (Option Reply) :=
  match e with
  | .IoError _ => updateClause env w
  | .ClosedError _ => updateClause env w
  | .MovedError _ _ => updateClause env w
  | .AskError _ node =>
      match askClause env cmd node w with
      | (.ok r, w1) => (.ok (some r), w1)
      | (.error e1, w1) => (.error e1, w1)
  | other => (.error other, w)

/-- The loop `for (auto idx = 0; idx < 2; ++idx) { try {...} catch ... }` followed by
the final `throw Error("Failed to send command with key: " + std::string(key.data(), key.size()))`,
with `n = 2 - idx` iterations still to run: a `return` or an exception leaving a
`catch` clause ends `_command`; a clause that runs to its end lets the loop go on.
Every iteration forwards the same pack `args...` to `cmd`; the calls of `cmd` are
numbered by the `send` events of the log. -/
def _command_loop (env : Env σ) (cmd : Cmd) (key : StringView) :
    Nat → World σ → Res σ Reply
  | 0, w => (.error (.Error ("Failed to send command with key: " ++ key)), w)
  | n + 1, w =>
      match attempt env cmd key w with
      | (.ok r, w1) => (.ok r, w1)
      | (.error e, w1) =>
          match catchClauses env cmd e w1 with
          | (.ok (some r), w2) => (.ok r, w2)
          | (.ok none, w2) => _command_loop env cmd key n w2
          | (.error e2, w2) => (.error e2, w2)

/-- The keyed dispatcher `RedisCluster::_command(Cmd cmd, const StringView &key, Args &&...args)`.
The pack is fresh when `_command` is entered: the calls of `cmd` are counted from
the `send` events the log holds at that moment. -/
def _command (env : Env σ) (cmd : Cmd) (key : StringView) (w : World σ) : Res σ Reply :=
  _command_loop env (fun i => cmd (i - sends w.log)) key 2 w

/-! Reading the outcome and the log. -/

/-- Whether the exception is caught by one of the three clauses whose body is
`_pool->update()`: those for `IoError`, `ClosedError` and `MovedError`. -/
def Exn.refreshing : Exn → Bool
  | .IoError _ => true
  | .ClosedError _ => true
  | .MovedError _ _ => true
  | _ => false

/-- Whether the exception is caught by one of the four `catch` clauses of the loop. -/
def Exn.caught : Exn → Bool
  | .AskError _ _ => true
  | e => e.refreshing

/-- Whether the event is a call of `_pool->update()`. -/
def Event.isUpdate : Event → Bool
  | .update => true
  | _ => false

/-- How many topology refreshes were started. -/
def refreshes (log : List Event) : Nat := log.countP Event.isUpdate

/-- The world `w` is one in which an outer attempt of `_command`, called in state
`s0`, starts: the first attempt starts in the initial world; the second one in the
world left by the `catch` clause that caught the failure of the first attempt and
ran to its end. -/
def AttemptStart (env : Env σ) (cmd : Cmd) (key : StringView) (s0 : σ) (w : World σ) : Prop :=
  w = World.init s0 ∨
    ∃ e w1, attempt env cmd key (World.init s0) = (.error e, w1) ∧
      catchClauses env cmd e w1 = (.ok none, w)

/-! The node iteration. -/

/-- The callback handed to `for_each`: called with the `Redis` object made on the
guarded connection of a pool, it may do anything to the state, and return or
throw. -/
abbrev Callback (σ : Type) := Pool → Conn → σ → Except Exn Unit × σ

/-- Calls `_pool->pools()`. -/
def pools (env : Env σ) (w : World σ) : Res σ (List Pool) :=
  ((env.pools w.st).1, ⟨(env.pools w.st).2, w.log ++ [Event.pools]⟩)

/-- Constructs a `GuardedConnection` on `pool`. -/
def guard (env : Env σ) (pool : Pool) (w : World σ) : Res σ Conn :=
  ((env.guard pool w.st).1,
   ⟨(env.guard pool w.st).2, w.log ++ [Event.guard pool (env.guard pool w.st).1.toOption]⟩)

/-- Destroys the `GuardedConnection` holding `conn` of `pool`. -/
def unguard (env : Env σ) (pool : Pool) (conn : Conn) (w : World σ) : World σ :=
  ⟨env.unguard pool conn w.st, w.log ++ [Event.unguard pool conn]⟩

/-- Calls `cb(r)` with `r = Redis(connection)`. -/
def callback (cb : Callback σ) (pool : Pool) (conn : Conn) (w : World σ) : Res σ Unit :=
  ((cb pool conn w.st).1, ⟨(cb pool conn w.st).2, w.log ++ [Event.callback pool conn]⟩)

/-- The loop of `for_each` over the pools still to visit:
```
for (auto &pool : pools) {
    auto connection = std::make_shared<GuardedConnection>(pool);
    auto r = Redis(connection);
    cb(r);
}
```
There is no `try` around the body: an exception of the constructor or of the
callback leaves the loop and `for_each`.  The guard is owned by `connection`
and `r`, both local to the body, so it is destroyed when the iteration ends,
by its end or by an exception (the callback is taken not to keep a copy of `r`). -/
def for_each_loop (env : Env σ) (cb : Callback σ) : List Pool → World σ → Res σ Unit
  | [], w => (.ok (), w)
  | pool :: rest, w =>
      match guard env pool w with
      | (.error e, w1) => (.error e, w1)
      | (.ok conn, w1) =>
          match callback cb pool conn w1 with
          | (.error e, w2) => (.error e, unguard env pool conn w2)
          | (.ok _, w2) => for_each_loop env cb rest (unguard env pool conn w2)

/-- The method `RedisCluster::for_each(Callback &&cb)`:
`_pool->update(); auto pools = _pool->pools();` and the loop over `pools`. -/
def for_each (env : Env σ) (cb : Callback σ) (w : World σ) : Res σ Unit :=
  match update env w with
  | (.error e, w1) => (.error e, w1)
  | (.ok _, w1) =>
      match pools env w1 with
      | (.error e, w2) => (.error e, w2)
      | (.ok ps, w2) => for_each_loop env cb ps w2

/-! More readings of the log. -/

/-- Whether the event is a call of `_pool->fetch(key)`, with which every outer
attempt of the dispatcher begins. -/
def Event.isFetch : Event → Bool
  | .fetch _ => true
  | _ => false

/-- How many outer attempts were started. -/
def attempts (log : List Event) : Nat := log.countP Event.isFetch

/-- The leases a `SafeConnection` acquired, in order. -/
def leased (log : List Event) : List (Pool × Conn) :=
  log.filterMap fun
    | .lease p (some c) => some (p, c)
    | _ => none

/-- The leases a `SafeConnection` gave back, in order. -/
def released (log : List Event) : List (Pool × Conn) :=
  log.filterMap fun
    | .release p c => some (p, c)
    | _ => none

/-- One step of the walk of `holds`: `held` is the lease outstanding before the
event.  `none` as a result: the event breaks the scoping of leases, by a lease
(tried or acquired) or a refresh while a lease is outstanding, or by a release
of anything but the outstanding lease. -/
def holdsStep (held : Option (Pool × Conn)) (ev : Event) : Option (Option (Pool × Conn)) :=
  match ev, held with
  | .lease p (some c), none => some (some (p, c))
  | .lease _ none, none => some none
  | .lease _ _, some _ => none
  | .release p c, some h => if h = (p, c) then some none else none
  | .release _ _, none => none
  | .update, some _ => none
  | _, h => some h

/-- Walks the log from the outstanding lease `held`: the lease outstanding after
the log when every event respects the scoping, `none` otherwise. -/
def holds (held : Option (Pool × Conn)) : List Event → Option (Option (Pool × Conn))
  | [] => some held
  | ev :: rest =>
      match holdsStep held ev with
      | none => none
      | some h => holds h rest

/-- The events keep the leases scoped and give back every lease: walked from no
outstanding lease they end with none, and the leases given back are the leases
acquired, in the same order. -/
def Tidy (evs : List Event) : Prop :=
  holds none evs = some none ∧ leased evs = released evs

/-- The pools for which the callback of `for_each` was called, in order. -/
def visited (log : List Event) : List Pool :=
  log.filterMap fun
    | .callback p _ => some p
    | _ => none

/-- Whether `text` contains `part` as a run of consecutive characters. -/
def mentions (text part : String) : Bool :=
  decide (part.data <:+: text.data)

/-- How many outer attempts of a run of the loop, with `n` iterations to run from
the world `w`, end in an exception of a refreshing class (`IoError`,
`ClosedError`, `MovedError`).  It follows the loop: an attempt is made; when it
fails, it counts if its exception is of such a class; a next attempt is made
only when the `catch` clause ran to its end. -/
def refreshingAttempts (env : Env σ) (cmd : Cmd) (key : StringView) : Nat → World σ → Nat
  | 0, _ => 0
  | n + 1, w =>
      match attempt env cmd key w with
      | (.ok _, _) => 0
      | (.error e, w1) =>
          (if e.refreshing then 1 else 0) +
            match catchClauses env cmd e w1 with
            | (.ok none, w2) => refreshingAttempts env cmd key n w2
            | _ => 0

/-- Where an iteration of `for_each` stands: between iterations, with a guard made
and the callback not yet called, or with the callback called and the guard not
yet destroyed. -/
inductive GuardState where
  | idle
  | guarded (pool : Pool) (conn : Conn)
  | called (pool : Pool) (conn : Conn)
deriving DecidableEq

/-- The guard outstanding in a state of an iteration, if any. -/
def GuardState.owed : GuardState → List (Pool × Conn)
  | .idle => []
  | .guarded p c => [(p, c)]
  | .called p c => [(p, c)]

/-- One step of the walk of `guardWalk`.  Between iterations a guard may be made
(or its constructor throw) and the pool list be refreshed and read; on a guard
just made only the callback on that guard may follow; after the callback only
the destruction of that guard.  `none`: the event does not fit. -/
def guardStep (st : GuardState) (ev : Event) : Option GuardState :=
  match st, ev with
  | .idle, .guard p (some c) => some (.guarded p c)
  | .idle, .guard _ none => some .idle
  | .idle, .update => some .idle
  | .idle, .pools => some .idle
  | .guarded p c, .callback q d => if p = q ∧ c = d then some (.called p c) else none
  | .called p c, .unguard q d => if p = q ∧ c = d then some .idle else none
  | _, _ => none

/-- Walks the log from the state `st`: the state after the log when every event
fits, `none` otherwise. -/
def guardWalk (st : GuardState) : List Event → Option GuardState
  | [] => some st
  | ev :: rest =>
      match guardStep st ev with
      | none => none
      | some st1 => guardWalk st1 rest

/-- The guards `for_each` made, in order. -/
def guardsMade (log : List Event) : List (Pool × Conn) :=
  log.filterMap fun
    | .guard p (some c) => some (p, c)
    | _ => none

/-- The guards `for_each` destroyed, in order. -/
def guardsDropped (log : List Event) : List (Pool × Conn) :=
  log.filterMap fun
    | .unguard p c => some (p, c)
    | _ => none

/-! The entry points on ranges: `command`, the scripting and the stream reads. -/

/-- The keys `_pool->fetch(key)` was called with, in order. -/
def fetched (log : List Event) : List StringView :=
  log.filterMap fun
    | .fetch k => some k
    | _ => none

/-- The argument lists put on the wire by `cmd(connection, args...)`, in order. -/
def sent (log : List Event) : List CmdArgs :=
  log.filterMap fun
    | .send _ a => some a
    | _ => none

/-- The events resolve no key but `key` and send no argument list but those of
calls of `cmd`. -/
def Routed (key : StringView) (cmd : Cmd) (evs : List Event) : Prop :=
  (∀ k ∈ fetched evs, k = key) ∧ (∀ a ∈ sent evs, ∃ i, a = cmd i)

/-- The log of a run started in the state `s0` is routed by `key`: no key but `key`
is resolved in it, and when `key` resolves to a pool in `s0`, the log begins with
the `fetch` of `key` and the lease tried on that pool. -/
def RoutedBy (env : Env σ) (key : StringView) (s0 : σ) (log : List Event) : Prop :=
  (∀ k ∈ fetched log, k = key) ∧
    ∀ p s1, env.fetch key s0 = (.ok p, s1) →
      ∃ c more, log = Event.fetch key :: Event.lease p c :: more

/-- The overload `_command(Cmd cmd, std::true_type, const StringView &key, Args &&...args)`,
reached from `command(cmd, key, args...)` when the key converts to a `StringView`:
`return _command(cmd, key, key, std::forward<Args>(args)...);`.  The callable is
given by what its calls send for the key (the further arguments fixed). -/
def _command_true (env : Env σ) (cmd : StringView → Cmd) (key : StringView)
    (w : World σ) : Res σ Reply :=
  _command env (cmd key) key w

/-- The overload `_range_command(Cmd cmd, std::true_type, Input input, Args &&...args)`,
for a range of elements that convert to a `StringView`:
`return _command(cmd, *input, input, std::forward<Args>(args)...);`.  The range
from `input` to its end is `input :: rest`: `*input` is read, so it is not empty
(the callers run `range_check` first).  The callable is given by what its calls
send for the range. -/
def _range_command_true (env : Env σ) (cmd : List StringView → Cmd) (input : StringView)
    (rest : List StringView) (w : World σ) : Res σ Reply :=
  _command env (cmd (input :: rest)) input w

/-- The overload `_range_command(Cmd cmd, std::false_type, Input input, Args &&...args)`,
for a range of pairs or tuples:
`return _command(cmd, std::get<0>(*input), input, std::forward<Args>(args)...);`. -/
def _range_command_false {β : Type} (env : Env σ) (cmd : List (StringView × β) → Cmd)
    (input : StringView × β) (rest : List (StringView × β)) (w : World σ) : Res σ Reply :=
  _command env (cmd (input :: rest)) input.1 w

/-- The call `command(cmd, key, args...)` of
`RedisCluster::command(Cmd cmd, Key &&key, Args &&...args)` with a key that converts
to a `StringView`: the tag is `std::true_type`. -/
def command_key (env : Env σ) (cmd : StringView → Cmd) (key : StringView)
    (w : World σ) : Res σ Reply :=
  _command_true env cmd key w

/-- The call `command(cmd, first, last, args...)` of
`RedisCluster::command(Cmd cmd, Key &&key, Args &&...args)` with iterators over
elements that convert to a `StringView`: the tag is `std::false_type`, and
`_command(cmd, std::false_type, first, args...)` passes on to `_range_command` with
the tag `std::true_type`. -/
def command_strings (env : Env σ) (cmd : List StringView → Cmd) (first : StringView)
    (rest : List StringView) (w : World σ) : Res σ Reply :=
  _range_command_true env cmd first rest w

/-- The call `command(cmd, first, last, args...)` with iterators over pairs or
tuples: `_command(cmd, std::false_type, first, args...)` passes on to
`_range_command` with the tag `std::false_type`. -/
def command_pairs {β : Type} (env : Env σ) (cmd : List (StringView × β) → Cmd)
    (first : StringView × β) (rest : List (StringView × β)) (w : World σ) : Res σ Reply :=
  _range_command_false env cmd first rest w

/-- The loop `while (start != stop) { cmd_args.append(*start); ++start; }` of the
callable built by `command(Input first, Input last)`, on the arguments `acc`
appended so far. -/
def append_range (acc : CmdArgs) : List StringView → CmdArgs
  | [] => acc
  | x :: rest => append_range (acc ++ [x]) rest

/-- The callable built by `command(Input first, Input last)`, as the argument list
it sends: `cmd_args.append(key)` with the first element of the range (the command
name, which the source calls `key`), then the loop over the range from `start`. -/
def generic_cmd (name : StringView) (range : List StringView) : CmdArgs :=
  append_range [name] range

/-- The generic range form `RedisCluster::command(Input first, Input last)`:
```
if (first == last || std::next(first) == last) { throw Error("command: invalid range"); }
const auto &key = *first;
++first;
auto cmd = [&key](Connection &connection, Input start, Input stop) { ... };
return command(cmd, first, last);
```
The callable reads `key` through a reference and takes `start` and `stop` as
copies of the iterators `first` and `last`, which are forwarded as lvalues: every
call sends the same list. -/
def command_first_last (env : Env σ) (range : List StringView) (w : World σ) : Res σ Reply :=
  match range with
  | [] => (.error (.Error "command: invalid range"), w)
  | [_] => (.error (.Error "command: invalid range"), w)
  | name :: second :: rest =>
      command_strings env (fun range => reads (generic_cmd name range)) second rest w

/-- A computation that writes to an output iterator: its outcome, the world after
it, and the items written. -/
abbrev Out (σ : Type) (β : Type) := Res σ Unit × List β

/-- The callables `cmd::eval`, `cmd::evalsha`, `cmd::fcall` and `cmd::fcall_ro` (of
`command.h`), each as the argument list it sends for a script or function name,
the keys and the arguments.  The entry points pass them the script or function
name and the four iterators, all of them named parameters and so lvalues: every
call sends the same list. -/
structure ScriptCmds where
  eval : StringView → List StringView → List StringView → CmdArgs
  evalsha : StringView → List StringView → List StringView → CmdArgs
  fcall : StringView → List StringView → List StringView → CmdArgs
  fcall_ro : StringView → List StringView → List StringView → CmdArgs

/-- What follows the dispatch in a result-returning entry point:
`return reply::parse<Result>(*reply);`. -/
def parsed {ρ : Type} (parse : Reply → Except Exn ρ) (r : Res σ Reply) : Res σ ρ :=
  match r with
  | (.error e, w1) => (.error e, w1)
  | (.ok reply, w1) => (parse reply, w1)

/-- What follows the dispatch in an output-iterator entry point:
`reply::to_array(*reply, output);`, which writes items and returns or throws. -/
def written {β : Type} (to_array : Reply → Except Exn Unit × List β) (r : Res σ Reply) :
    Out σ β :=
  match r with
  | (.error e, w1) => ((.error e, w1), [])
  | (.ok reply, w1) => (((to_array reply).1, w1), (to_array reply).2)

/-- The result-returning `RedisCluster::eval(script, keys_first, keys_last, args_first, args_last)`. -/
def eval {ρ : Type} (env : Env σ) (cmds : ScriptCmds) (parse : Reply → Except Exn ρ)
    (script : StringView) (keys args : List StringView) (w : World σ) : Res σ ρ :=
  match keys with
  | [] => (.error (.Error "DO NOT support Lua script without key"), w)
  | key :: _ => parsed parse (_command env (reads (cmds.eval script keys args)) key w)

/-- The output-iterator `RedisCluster::eval(script, keys_first, keys_last, args_first, args_last, output)`. -/
def eval_output {β : Type} (env : Env σ) (cmds : ScriptCmds)
    (to_array : Reply → Except Exn Unit × List β)
    (script : StringView) (keys args : List StringView) (w : World σ) : Out σ β :=
  match keys with
  | [] => ((.error (.Error "DO NOT support Lua script without key"), w), [])
  | key :: _ => written to_array (_command env (reads (cmds.eval script keys args)) key w)

/-- The result-returning `RedisCluster::evalsha`. -/
def evalsha {ρ : Type} (env : Env σ) (cmds : ScriptCmds) (parse : Reply → Except Exn ρ)
    (script : StringView) (keys args : List StringView) (w : World σ) : Res σ ρ :=
  match keys with
  | [] => (.error (.Error "DO NOT support Lua script without key"), w)
  | key :: _ => parsed parse (_command env (reads (cmds.evalsha script keys args)) key w)

/-- The output-iterator `RedisCluster::evalsha`. -/
def evalsha_output {β : Type} (env : Env σ) (cmds : ScriptCmds)
    (to_array : Reply → Except Exn Unit × List β)
    (script : StringView) (keys args : List StringView) (w : World σ) : Out σ β :=
  match keys with
  | [] => ((.error (.Error "DO NOT support Lua script without key"), w), [])
  | key :: _ => written to_array (_command env (reads (cmds.evalsha script keys args)) key w)

/-- The result-returning `RedisCluster::fcall`. -/
def fcall {ρ : Type} (env : Env σ) (cmds : ScriptCmds) (parse : Reply → Except Exn ρ)
    (func : StringView) (keys args : List StringView) (w : World σ) : Res σ ρ :=
  match keys with
  | [] => (.error (.Error "DO NOT support function without key"), w)
  | key :: _ => parsed parse (_command env (reads (cmds.fcall func keys args)) key w)

/-- The output-iterator `RedisCluster::fcall`. -/
def fcall_output {β : Type} (env : Env σ) (cmds : ScriptCmds)
    (to_array : Reply → Except Exn Unit × List β)
    (func : StringView) (keys args : List StringView) (w : World σ) : Out σ β :=
  match keys with
  | [] => ((.error (.Error "DO NOT support function without key"), w), [])
  | key :: _ => written to_array (_command env (reads (cmds.fcall func keys args)) key w)

/-- The result-returning `RedisCluster::fcall_ro`. -/
def fcall_ro {ρ : Type} (env : Env σ) (cmds : ScriptCmds) (parse : Reply → Except Exn ρ)
    (func : StringView) (keys args : List StringView) (w : World σ) : Res σ ρ :=
  match keys with
  | [] => (.error (.Error "DO NOT support function without key"), w)
  | key :: _ => parsed parse (_command env (reads (cmds.fcall_ro func keys args)) key w)

/-- The output-iterator `RedisCluster::fcall_ro`. -/
def fcall_ro_output {β : Type} (env : Env σ) (cmds : ScriptCmds)
    (to_array : Reply → Except Exn Unit × List β)
    (func : StringView) (keys args : List StringView) (w : World σ) : Out σ β :=
  match keys with
  | [] => ((.error (.Error "DO NOT support function without key"), w), [])
  | key :: _ => written to_array (_command env (reads (cmds.fcall_ro func keys args)) key w)

/-- The callables of `command.h` the stream reads send, each as the argument list it
sends: for one stream (`key`, `id`) or a range of (`key`, `id`) pairs, with a
count, a blocking timeout in milliseconds, and for `XREADGROUP` the group, the
consumer and the `NOACK` flag.  The stream reads pass them named parameters
(lvalues) and numbers: every call sends the same list. -/
structure StreamCmds where
  xread : StringView → StringView → Int → CmdArgs
  xread_range : List (StringView × StringView) → Int → CmdArgs
  xread_block : StringView → StringView → Int → Int → CmdArgs
  xread_block_range : List (StringView × StringView) → Int → Int → CmdArgs
  xreadgroup : StringView → StringView → StringView → StringView → Int → Bool → CmdArgs
  xreadgroup_range :
    StringView → StringView → List (StringView × StringView) → Int → Bool → CmdArgs
  xreadgroup_block :
    StringView → StringView → StringView → StringView → Int → Int → Bool → CmdArgs
  xreadgroup_block_range :
    StringView → StringView → List (StringView × StringView) → Int → Int → Bool → CmdArgs

/-- What follows the dispatch in every `xread` and `xreadgroup` overload:
`if (!reply::is_nil(*reply)) { reply::to_array(*reply, output); }`. -/
def written_unless_nil {β : Type} (is_nil : Reply → Bool)
    (to_array : Reply → Except Exn Unit × List β) (r : Res σ Reply) : Out σ β :=
  match r with
  | (.error e, w1) => ((.error e, w1), [])
  | (.ok reply, w1) =>
      if is_nil reply then ((.ok (), w1), [])
      else (((to_array reply).1, w1), (to_array reply).2)

/-- The overload `xread(key, id, count, output)`:
`auto reply = command(cmd::xread, key, id, count);`. -/
def xread {β : Type} (env : Env σ) (cmds : StreamCmds) (is_nil : Reply → Bool)
    (to_array : Reply → Except Exn Unit × List β) (key id : StringView) (count : Int)
    (w : World σ) : Out σ β :=
  written_unless_nil is_nil to_array (command_key env (fun k => reads (cmds.xread k id count)) key w)

/-- The overload `xread(first, last, count, output)`, past its `range_check`: the
range is `first :: rest`;
`auto reply = command(cmd::xread_range<Input>, first, last, count);`. -/
def xread_range {β : Type} (env : Env σ) (cmds : StreamCmds) (is_nil : Reply → Bool)
    (to_array : Reply → Except Exn Unit × List β) (first : StringView × StringView)
    (rest : List (StringView × StringView)) (count : Int) (w : World σ) : Out σ β :=
  written_unless_nil is_nil to_array
    (command_pairs env (fun range => reads (cmds.xread_range range count)) first rest w)

/-- The overload `xread(key, id, timeout, count, output)`:
`auto reply = command(cmd::xread_block, key, id, timeout.count(), count);`. -/
def xread_block {β : Type} (env : Env σ) (cmds : StreamCmds) (is_nil : Reply → Bool)
    (to_array : Reply → Except Exn Unit × List β) (key id : StringView) (timeout count : Int)
    (w : World σ) : Out σ β :=
  written_unless_nil is_nil to_array
    (command_key env (fun k => reads (cmds.xread_block k id timeout count)) key w)

/-- The overload `xread(first, last, timeout, count, output)`, past its
`range_check`:
`auto reply = command(cmd::xread_block_range<Input>, first, last, timeout.count(), count);`. -/
def xread_block_range {β : Type} (env : Env σ) (cmds : StreamCmds) (is_nil : Reply → Bool)
    (to_array : Reply → Except Exn Unit × List β) (first : StringView × StringView)
    (rest : List (StringView × StringView)) (timeout count : Int) (w : World σ) : Out σ β :=
  written_unless_nil is_nil to_array
    (command_pairs env (fun range => reads (cmds.xread_block_range range timeout count))
      first rest w)

/-- The overload `xreadgroup(group, consumer, key, id, count, noack, output)`:
`auto reply = _command(cmd::xreadgroup, key, group, consumer, key, id, count, noack);`. -/
def xreadgroup {β : Type} (env : Env σ) (cmds : StreamCmds) (is_nil : Reply → Bool)
    (to_array : Reply → Except Exn Unit × List β) (group consumer key id : StringView)
    (count : Int) (noack : Bool) (w : World σ) : Out σ β :=
  written_unless_nil is_nil to_array
    (_command env (reads (cmds.xreadgroup group consumer key id count noack)) key w)

/-- The overload `xreadgroup(group, consumer, first, last, count, noack, output)`,
past its `range_check`:
`auto reply = _command(cmd::xreadgroup_range<Input>, first->first, group, consumer, first, last, count, noack);`. -/
def xreadgroup_range {β : Type} (env : Env σ) (cmds : StreamCmds) (is_nil : Reply → Bool)
    (to_array : Reply → Except Exn Unit × List β) (group consumer : StringView)
    (first : StringView × StringView) (rest : List (StringView × StringView))
    (count : Int) (noack : Bool) (w : World σ) : Out σ β :=
  written_unless_nil is_nil to_array
    (_command env (reads (cmds.xreadgroup_range group consumer (first :: rest) count noack))
      first.1 w)

/-- The overload `xreadgroup(group, consumer, key, id, timeout, count, noack, output)`:
`auto reply = _command(cmd::xreadgroup_block, key, group, consumer, key, id, timeout.count(), count, noack);`. -/
def xreadgroup_block {β : Type} (env : Env σ) (cmds : StreamCmds) (is_nil : Reply → Bool)
    (to_array : Reply → Except Exn Unit × List β) (group consumer key id : StringView)
    (timeout count : Int) (noack : Bool) (w : World σ) : Out σ β :=
  written_unless_nil is_nil to_array
    (_command env (reads (cmds.xreadgroup_block group consumer key id timeout count noack))
      key w)

/-- The overload `xreadgroup(group, consumer, first, last, timeout, count, noack, output)`,
past its `range_check`:
`auto reply = _command(cmd::xreadgroup_block_range<Input>, first->first, group, consumer, first, last, timeout.count(), count, noack);`. -/
def xreadgroup_block_range {β : Type} (env : Env σ) (cmds : StreamCmds)
    (is_nil : Reply → Bool) (to_array : Reply → Except Exn Unit × List β)
    (group consumer : StringView) (first : StringView × StringView)
    (rest : List (StringView × StringView)) (timeout count : Int) (noack : Bool)
    (w : World σ) : Out σ β :=
  written_unless_nil is_nil to_array
    (_command env
      (reads (cmds.xreadgroup_block_range group consumer (first :: rest) timeout count noack))
      first.1 w)

/-- An entry point with outcome `out` treats the reply of its dispatch `dispatch`
as a stream read does: when the dispatch returns a reply, a nil reply makes the
entry point return with nothing written, and any other reply makes it do what
`to_array` does with it, writing what `to_array` writes. -/
def NilSafe {β : Type} (is_nil : Reply → Bool) (to_array : Reply → Except Exn Unit × List β)
    (dispatch : Res σ Reply) (out : Out σ β) : Prop :=
  ∀ (reply : Reply) (w1 : World σ), dispatch = (.ok reply, w1) →
    (is_nil reply = true → out = ((.ok (), w1), [])) ∧
      (is_nil reply = false → out = (((to_array reply).1, w1), (to_array reply).2))

end Calls

/-! A concrete cluster, on which the dispatcher can be run. -/

/-- A cluster whose state is the number of refreshes done so far (the epoch of
the slot map).  At epoch `s` every key resolves to pool `s`; a node resolves to
the pool numbered by its port; a pool leases the connection of its own number;
`answer c s` is what `recv` yields on connection `c` at epoch `s`; every other
call returns normally.  The nodes are the pools 7000, 7001 and 7002, each of
which hands its guard the connection of its own number. -/
def cluster (answer : Conn → Nat → Except Exn Reply) : Env Nat where
  fetch := fun _ s => (.ok s, s)
  fetchNode := fun node s => (.ok node.port, s)
  update := fun s => (.ok (), s + 1)
  acquire := fun pool s => (.ok pool, s)
  release := fun _ _ s => s
  send := fun _ _ s => (.ok (), s)
  recv := fun c s => (answer c s, s)
  asking := fun _ s => (.ok (), s)
  pools := fun s => (.ok [7000, 7001, 7002], s)
  guard := fun pool s => (.ok pool, s)
  unguard := fun _ _ s => s

/-- The command `GET foo`. -/
def getFoo : CmdArgs := ["GET", "foo"]

/-- The command `SET foo bar` sent through a callable that takes the value by value,
`[](Connection &c, const StringView &key, std::string val) { ... }`, with the value
passed as an rvalue, `command(cmd, "foo", std::string("bar"))`: the first call moves
the string out of the pack, so every later call finds it empty. -/
def setFooBar : Cmd :=
  fun i => if i = 0 then ["SET", "foo", "bar"] else ["SET", "foo", ""]

/-- The node `10.0.0.2:7001`. -/
def nodeB : Node := ⟨"10.0.0.2", 7001⟩

/-- The node `10.0.0.3:7002`. -/
def nodeC : Node := ⟨"10.0.0.3", 7002⟩

/-- Every connection answers `bar`. -/
def healthy : Conn → Nat → Except Exn Reply :=
  fun _ _ => .ok (.str "bar")

/-- The connection of the pool of epoch 0 fails with `e`; every other one answers `bar`. -/
def failsFirst (e : Exn) : Conn → Nat → Except Exn Reply :=
  fun c _ => if c = 0 then .error e else .ok (.str "bar")

/-- Every connection fails with `e`. -/
def failsAlways (e : Exn) : Conn → Nat → Except Exn Reply :=
  fun _ _ => .error e

/-- The connection of the pool of epoch 0 fails with `e1`, every other one with `e2`. -/
def failsTwice (e1 e2 : Exn) : Conn → Nat → Except Exn Reply :=
  fun c _ => if c = 0 then .error e1 else .error e2

/-- The connection of the pool of epoch 0 redirects with `ASK 42 10.0.0.3:7002`;
the connection of that node yields `r`; every other one answers `bar`. -/
def asksThen (r : Except Exn Reply) : Conn → Nat → Except Exn Reply :=
  fun c _ => if c = 0 then .error (.AskError 42 nodeC) else if c = 7002 then r else .ok (.str "bar")

/-- The connection of the pool of epoch 0 fails with `e`; the connection of the
pool of epoch 1 redirects with `ASK 42 10.0.0.3:7002`; every other one answers `bar`. -/
def failsThenAsks (e : Exn) : Conn → Nat → Except Exn Reply :=
  fun c _ => if c = 0 then .error e else if c = 1 then .error (.AskError 42 nodeC)
    else .ok (.str "bar")

/-- The cluster `cluster answer` with no node reachable for a refresh: `update` throws `e`. -/
def unreachable (e : Exn) (answer : Conn → Nat → Except Exn Reply) : Env Nat :=
  { cluster answer with update := fun s => (.error e, s) }

/-- The cluster `cluster healthy` whose pools lease nothing: the constructor of
`SafeConnection` throws `e`. -/
def exhausted (e : Exn) : Env Nat :=
  { cluster healthy with acquire := fun _ s => (.error e, s) }

/-- The cluster `cluster healthy` whose pools lease nothing before the first
refresh: at epoch 0 the constructor of `SafeConnection` throws `e`. -/
def connectsLate (e : Exn) : Env Nat :=
  { cluster healthy with
    acquire := fun pool s => if s = 0 then (.error e, s) else (.ok pool, s) }

/-- The cluster `cluster healthy` in which no guard can be made on pool 7001:
the constructor of `GuardedConnection` throws `e` there. -/
def unguarded (e : Exn) : Env Nat :=
  { cluster healthy with
    guard := fun pool s => if pool = 7001 then (.error e, s) else (.ok pool, s) }

/-- A callback that counts its calls in the state and returns. -/
def counting : Callback Nat :=
  fun _ _ s => (.ok (), s + 1)

/-- A callback that throws `e` at pool 7001 and returns at every other pool. -/
def raisingAt7001 (e : Exn) : Callback Nat :=
  fun pool _ s => if pool = 7001 then (.error e, s) else (.ok (), s)

/-- Every connection answers with a nil reply, as a blocking read that timed out. -/
def answersNil : Conn → Nat → Except Exn Reply :=
  fun _ _ => .ok .nil

/-- Whether a reply is the nil reply. -/
def isNil : Reply → Bool
  | .nil => true
  | _ => false

/-- A conversion of a reply to an array of texts: the texts of the items of an
array reply are written; any other reply makes it throw. -/
def toTexts : Reply → Except Exn Unit × List String
  | .array items => (.ok (), items.filterMap fun
      | .str t => some t
      | _ => none)
  | _ => (.error (.Other "ProtoError" "Expect ARRAY reply"), [])

/-- Stream callables that send `XREAD` or `XREADGROUP` with the keys they are given
(the other arguments left out). -/
def streamCmds : StreamCmds where
  xread := fun key id _ => ["XREAD", "STREAMS", key, id]
  xread_range := fun range _ => ["XREAD", "STREAMS"] ++ range.map Prod.fst ++ range.map Prod.snd
  xread_block := fun key id _ _ => ["XREAD", "BLOCK", "STREAMS", key, id]
  xread_block_range := fun range _ _ =>
    ["XREAD", "BLOCK", "STREAMS"] ++ range.map Prod.fst ++ range.map Prod.snd
  xreadgroup := fun group consumer key id _ _ =>
    ["XREADGROUP", "GROUP", group, consumer, "STREAMS", key, id]
  xreadgroup_range := fun group consumer range _ _ =>
    ["XREADGROUP", "GROUP", group, consumer, "STREAMS"] ++ range.map Prod.fst ++
      range.map Prod.snd
  xreadgroup_block := fun group consumer key id _ _ _ =>
    ["XREADGROUP", "GROUP", group, consumer, "BLOCK", "STREAMS", key, id]
  xreadgroup_block_range := fun group consumer range _ _ _ =>
    ["XREADGROUP", "GROUP", group, consumer, "BLOCK", "STREAMS"] ++ range.map Prod.fst ++
      range.map Prod.snd

/-- Script callables that send the name of the command, the script or function, the
keys and the arguments (the number of keys left out). -/
def scriptCmds : ScriptCmds where
  eval := fun script keys args => ["EVAL", script] ++ keys ++ args
  evalsha := fun script keys args => ["EVALSHA", script] ++ keys ++ args
  fcall := fun func keys args => ["FCALL", func] ++ keys ++ args
  fcall_ro := fun func keys args => ["FCALL_RO", func] ++ keys ++ args

/-- A parse of a reply as a text. -/
def parseText : Reply → Except Exn String
  | .str t => .ok t
  | .status t => .ok t
  | _ => .error (.Other "ProtoError" "Expect STRING reply")

/-! Lemmas on the loop. -/

section Lemmas
variable {σ : Type}

theorem sends_append (l1 l2 : List Event) : sends (l1 ++ l2) = sends l1 + sends l2 := by
  simp [sends]

theorem sends_nil : sends [] = 0 := rfl

theorem sends_cons (ev : Event) (l : List Event) :
    sends (ev :: l) = (if ev.isSend = true then 1 else 0) + sends l := by
  simp only [sends, List.countP_cons]
  omega

theorem sends_try (l : List Event) (k : StringView) (p : Pool) (c : Option Conn) :
    sends (l ++ [Event.fetch k, Event.lease p c]) = sends l := by
  simp [sends_append, sends_cons, sends_nil, Event.isSend]

theorem sends_ask (l : List Event) (node : Node) (p : Pool) (c : Option Conn) (d : Conn) :
    sends (l ++ [Event.fetchNode node, Event.lease p c, Event.asking d]) = sends l := by
  simp [sends_append, sends_cons, sends_nil, Event.isSend]

theorem sends_update (l : List Event) : sends (l ++ [Event.update]) = sends l := by
  simp [sends_append, sends_cons, sends_nil, Event.isSend]

/-- Called in the initial world, `_command` is the loop on the callable as given:
no call of `cmd` has been made. -/
theorem command_init (env : Env σ) (cmd : Cmd) (key : StringView) (s0 : σ) :
    _command env cmd key (World.init s0) = _command_loop env cmd key 2 (World.init s0) :=
  rfl

/-- A callable that only reads its arguments is the same callable whatever the
number of calls made before `_command` is entered. -/
theorem command_reads (env : Env σ) (args : CmdArgs) (key : StringView) (w : World σ) :
    _command env (reads args) key w = _command_loop env (reads args) key 2 w :=
  rfl

theorem loop_returns (env : Env σ) (cmd : Cmd) (key : StringView) (n : Nat)
    (w w1 : World σ) (r : Reply) (h : attempt env cmd key w = (.ok r, w1)) :
    _command_loop env cmd key (n + 1) w = (.ok r, w1) := by
  simp [_command_loop, h]

theorem loop_continues (env : Env σ) (cmd : Cmd) (key : StringView) (n : Nat)
    (w w1 w2 : World σ) (e : Exn) (h : attempt env cmd key w = (.error e, w1))
    (hc : catchClauses env cmd e w1 = (.ok none, w2)) :
    _command_loop env cmd key (n + 1) w = _command_loop env cmd key n w2 := by
  simp [_command_loop, h, hc]

theorem loop_clause_returns (env : Env σ) (cmd : Cmd) (key : StringView) (n : Nat)
    (w w1 w2 : World σ) (e : Exn) (r : Reply) (h : attempt env cmd key w = (.error e, w1))
    (hc : catchClauses env cmd e w1 = (.ok (some r), w2)) :
    _command_loop env cmd key (n + 1) w = (.ok r, w2) := by
  simp [_command_loop, h, hc]

theorem loop_throws (env : Env σ) (cmd : Cmd) (key : StringView) (n : Nat)
    (w w1 w2 : World σ) (e e2 : Exn) (h : attempt env cmd key w = (.error e, w1))
    (hc : catchClauses env cmd e w1 = (.error e2, w2)) :
    _command_loop env cmd key (n + 1) w = (.error e2, w2) := by
  simp [_command_loop, h, hc]

theorem command_of_attemptStart (env : Env σ) (cmd : Cmd) (key : StringView) (s0 : σ)
    (w : World σ) (h : AttemptStart env cmd key s0 w) :
    ∃ n, _command env cmd key (World.init s0) = _command_loop env cmd key (n + 1) w := by
  rcases h with h | ⟨e, w1, h1, h2⟩
  · exact ⟨1, by rw [h]; rfl⟩
  · exact ⟨0, by rw [command_init, loop_continues env cmd key 1 _ w1 w e h1 h2]⟩

theorem catch_refreshing (env : Env σ) (cmd : Cmd) (e : Exn) (w : World σ)
    (he : e.refreshing = true) : catchClauses env cmd e w = updateClause env w := by
  cases e <;> simp_all [Exn.refreshing, catchClauses]

theorem updateClause_ok (env : Env σ) (w : World σ) (s : σ)
    (h : env.update w.st = (.ok (), s)) :
    updateClause env w = (.ok none, ⟨s, w.log ++ [Event.update]⟩) := by
  simp [updateClause, update, h]

theorem attempt_ok (env : Env σ) (cmd : Cmd) (key : StringView) (w : World σ)
    (p : Pool) (c : Conn) (r : Reply) (s1 s2 s3 s4 : σ)
    (hfetch : env.fetch key w.st = (.ok p, s1))
    (hlease : env.acquire p s1 = (.ok c, s2))
    (hsend : env.send c (cmd (sends w.log)) s2 = (.ok (), s3))
    (hrecv : env.recv c s3 = (.ok r, s4)) :
    attempt env cmd key w =
      (.ok r, ⟨env.release p c s4,
        w.log ++ [Event.fetch key, Event.lease p (some c), Event.send c (cmd (sends w.log)),
          Event.recv c, Event.release p c]⟩) := by
  simp [attempt, fetch, SafeConnection, acquire, _command_connection, send, recv, release,
    hfetch, hlease, hsend, hrecv, Except.toOption, sends_append, sends_cons, sends_nil,
    Event.isSend]

theorem refreshes_append (l1 l2 : List Event) :
    refreshes (l1 ++ l2) = refreshes l1 + refreshes l2 := by
  simp [refreshes]

theorem command_connection_log (env : Env σ) (cmd : Cmd) (c : Conn) (w : World σ) :
    ∃ evs, (_command_connection env cmd c w).2.log = w.log ++ evs ∧
      refreshes evs = 0 ∧ sends evs = 1 := by
  rcases hs : env.send c (cmd (sends w.log)) w.st with ⟨_ | _, s1⟩
  · exact ⟨[Event.send c (cmd (sends w.log))], by simp [_command_connection, send, hs],
      by simp [refreshes, Event.isUpdate], by simp [sends, Event.isSend]⟩
  · exact ⟨[Event.send c (cmd (sends w.log)), Event.recv c],
      by simp [_command_connection, send, recv, hs],
      by simp [refreshes, Event.isUpdate], by simp [sends, Event.isSend]⟩

theorem attempt_log (env : Env σ) (cmd : Cmd) (key : StringView) (w : World σ) :
    ∃ evs, (attempt env cmd key w).2.log = w.log ++ evs ∧
      refreshes evs = 0 ∧ sends evs ≤ 1 := by
  rcases hf : env.fetch key w.st with ⟨_ | p, s1⟩
  · exact ⟨[Event.fetch key], by simp [attempt, fetch, hf],
      by simp [refreshes, Event.isUpdate], by simp [sends, Event.isSend]⟩
  · rcases hl : env.acquire p s1 with ⟨_ | c, s2⟩
    · exact ⟨[Event.fetch key, Event.lease p none],
        by simp [attempt, fetch, hf, SafeConnection, acquire, hl, Except.toOption],
        by simp [refreshes, Event.isUpdate], by simp [sends, Event.isSend]⟩
    · obtain ⟨evs, h1, h2, h3⟩ := command_connection_log env cmd c
        ⟨s2, w.log ++ [Event.fetch key] ++ [Event.lease p (some c)]⟩
      refine ⟨[Event.fetch key, Event.lease p (some c)] ++ evs ++ [Event.release p c], ?_, ?_, ?_⟩
      · simp [attempt, fetch, hf, SafeConnection, acquire, hl, Except.toOption, release]
        simp at h1
        rw [h1]
        simp
      · simp only [refreshes_append, h2]
        simp [refreshes, Event.isUpdate]
      · simp only [sends_append, h3]
        simp [sends, Event.isSend]

theorem attempt_refreshes (env : Env σ) (cmd : Cmd) (key : StringView) (w w1 : World σ)
    (x : Except Exn Reply) (h : attempt env cmd key w = (x, w1)) :
    refreshes w1.log = refreshes w.log := by
  obtain ⟨evs, h1, h2, _⟩ := attempt_log env cmd key w
  rw [h] at h1
  simp only at h1
  rw [h1, refreshes_append, h2, Nat.add_zero]

theorem attempt_sends (env : Env σ) (cmd : Cmd) (key : StringView) (w w1 : World σ)
    (x : Except Exn Reply) (h : attempt env cmd key w = (x, w1)) :
    sends w1.log ≤ sends w.log + 1 := by
  obtain ⟨evs, h1, _, h3⟩ := attempt_log env cmd key w
  rw [h] at h1
  simp only at h1
  rw [h1, sends_append]
  omega

/-- After a first attempt that failed with an exception of one of the three
refreshing classes and a refresh that returned, the second attempt decides. -/
theorem command_retry (env : Env σ) (cmd : Cmd) (key : StringView) (s0 s2 : σ)
    (e : Exn) (w1 : World σ) (he : e.refreshing = true)
    (hfail : attempt env cmd key (World.init s0) = (.error e, w1))
    (hupdate : env.update w1.st = (.ok (), s2)) :
    _command env cmd key (World.init s0) =
      _command_loop env cmd key 1 ⟨s2, w1.log ++ [Event.update]⟩ := by
  rw [command_init, loop_continues env cmd key 1 _ w1 _ e hfail]
  rw [catch_refreshing env cmd e w1 he, updateClause_ok env w1 s2 hupdate]

/-- A first attempt failing with a refreshing exception, a refresh that returns
and a second attempt that gets a reply: the reply is the result, and the log is
that of the first attempt, one `update`, and the calls of the second attempt. -/
theorem command_retry_reply (env : Env σ) (cmd : Cmd) (key : StringView) (s0 : σ)
    (e : Exn) (w1 : World σ) (p : Pool) (c : Conn) (r : Reply) (s2 s3 s4 s5 s6 : σ)
    (he : e.refreshing = true)
    (hfail : attempt env cmd key (World.init s0) = (.error e, w1))
    (hupdate : env.update w1.st = (.ok (), s2))
    (hfetch : env.fetch key s2 = (.ok p, s3))
    (hlease : env.acquire p s3 = (.ok c, s4))
    (hsend : env.send c (cmd (sends w1.log)) s4 = (.ok (), s5))
    (hrecv : env.recv c s5 = (.ok r, s6)) :
    _command env cmd key (World.init s0) =
        (.ok r, ⟨env.release p c s6,
          w1.log ++ [Event.update, Event.fetch key, Event.lease p (some c),
            Event.send c (cmd (sends w1.log)), Event.recv c, Event.release p c]⟩) ∧
      refreshes (_command env cmd key (World.init s0)).2.log = 1 ∧
      sends (_command env cmd key (World.init s0)).2.log ≤ 2 := by
  have hrun := command_retry env cmd key s0 s2 e w1 he hfail hupdate
  have hidx : sends (w1.log ++ [Event.update]) = sends w1.log := by
    simp [sends_append, sends_cons, sends_nil, Event.isSend]
  have h2 := attempt_ok env cmd key ⟨s2, w1.log ++ [Event.update]⟩ p c r s3 s4 s5 s6
    hfetch hlease (by rw [hidx]; exact hsend) hrecv
  rw [hidx] at h2
  rw [loop_returns env cmd key 0 _ _ r h2] at hrun
  have hr : refreshes w1.log = 0 := attempt_refreshes env cmd key _ w1 _ hfail
  have hs : sends w1.log ≤ 0 + 1 := attempt_sends env cmd key _ w1 _ hfail
  simp only [List.append_assoc, List.singleton_append] at hrun
  refine ⟨hrun, ?_, ?_⟩
  · rw [hrun]
    show refreshes (w1.log ++ _) = 1
    rw [refreshes_append, hr]
    simp [refreshes, Event.isUpdate]
  · rw [hrun]
    show sends (w1.log ++ _) ≤ 2
    rw [sends_append]
    have : sends [Event.update, Event.fetch key, Event.lease p (some c),
        Event.send c (cmd (sends w1.log)), Event.recv c, Event.release p c] = 1 := by
      simp [sends, Event.isSend]
    omega

theorem updateClause_error (env : Env σ) (w : World σ) (s : σ) (e : Exn)
    (h : env.update w.st = (.error e, s)) :
    updateClause env w = (.error e, ⟨s, w.log ++ [Event.update]⟩) := by
  simp [updateClause, update, h]

theorem catch_uncaught (env : Env σ) (cmd : Cmd) (e : Exn) (w : World σ)
    (he : e.caught = false) : catchClauses env cmd e w = (.error e, w) := by
  cases e <;> simp_all [Exn.caught, Exn.refreshing, catchClauses]

/-- Both attempts fail with exceptions of the refreshing classes and both
refreshes return: the loop is left and the final `throw` is reached. -/
theorem command_two_failures (env : Env σ) (cmd : Cmd) (key : StringView) (s0 s2 s4 : σ)
    (e1 e2 : Exn) (w1 w3 : World σ)
    (he1 : e1.refreshing = true) (he2 : e2.refreshing = true)
    (hfirst : attempt env cmd key (World.init s0) = (.error e1, w1))
    (hupdate1 : env.update w1.st = (.ok (), s2))
    (hsecond : attempt env cmd key ⟨s2, w1.log ++ [Event.update]⟩ = (.error e2, w3))
    (hupdate2 : env.update w3.st = (.ok (), s4)) :
    _command env cmd key (World.init s0) =
      (.error (.Error ("Failed to send command with key: " ++ key)),
        ⟨s4, w3.log ++ [Event.update]⟩) := by
  rw [command_retry env cmd key s0 s2 e1 w1 he1 hfirst hupdate1]
  rw [loop_continues env cmd key 0 _ w3 ⟨s4, w3.log ++ [Event.update]⟩ e2 hsecond]
  · rfl
  · rw [catch_refreshing env cmd e2 w3 he2, updateClause_ok env w3 s4 hupdate2]

/-- When no attempt ends in an `AskError`, `n` iterations of the loop put the
command on the wire at most `n` times. -/
theorem loop_sends_le (env : Env σ) (cmd : Cmd) (key : StringView)
    (hNoAsk : ∀ w slot node w1, attempt env cmd key w ≠ (.error (.AskError slot node), w1)) :
    ∀ (n : Nat) (w : World σ), sends (_command_loop env cmd key n w).2.log ≤ sends w.log + n := by
  intro n
  induction n with
  | zero => intro w; simp [_command_loop]
  | succ n ih =>
    intro w
    rcases h : attempt env cmd key w with ⟨e | r, w1⟩
    · have hs := attempt_sends env cmd key w w1 _ h
      have hupd : ∀ (he : e.refreshing = true),
          sends (_command_loop env cmd key (n + 1) w).2.log ≤ sends w.log + (n + 1) := by
        intro he
        rcases hu : env.update w1.st with ⟨e2 | u, s2⟩
        · rw [loop_throws env cmd key n w w1 ⟨s2, w1.log ++ [Event.update]⟩ e e2 h
            (by rw [catch_refreshing env cmd e w1 he, updateClause_error env w1 s2 e2 hu])]
          show sends (w1.log ++ [Event.update]) ≤ _
          rw [sends_append]
          have : sends [Event.update] = 0 := by simp [sends, Event.isSend]
          omega
        · rw [loop_continues env cmd key n w w1 ⟨s2, w1.log ++ [Event.update]⟩ e h
            (by rw [catch_refreshing env cmd e w1 he, updateClause_ok env w1 s2 hu])]
          have := ih ⟨s2, w1.log ++ [Event.update]⟩
          have h0 : sends [Event.update] = 0 := by simp [sends, Event.isSend]
          simp only [sends_append, h0] at this
          omega
      have hthrow : ∀ (he : e.caught = false),
          sends (_command_loop env cmd key (n + 1) w).2.log ≤ sends w.log + (n + 1) := by
        intro he
        rw [loop_throws env cmd key n w w1 w1 e e h (catch_uncaught env cmd e w1 he)]
        show sends w1.log ≤ _
        omega
      cases e with
      | IoError m => exact hupd rfl
      | ClosedError m => exact hupd rfl
      | MovedError sl nd => exact hupd rfl
      | AskError sl nd => exact absurd h (hNoAsk w sl nd w1)
      | Error m => exact hthrow rfl
      | Other cl m => exact hthrow rfl
    · rw [loop_returns env cmd key n w w1 r h]
      have hs := attempt_sends env cmd key w w1 _ h
      show sends w1.log ≤ _
      omega

theorem command_connection_refreshes (env : Env σ) (cmd : Cmd) (c : Conn) (w w1 : World σ)
    (x : Except Exn Reply) (h : _command_connection env cmd c w = (x, w1)) :
    refreshes w1.log = refreshes w.log := by
  obtain ⟨evs, h1, h2, _⟩ := command_connection_log env cmd c w
  rw [h] at h1
  simp only at h1
  rw [h1, refreshes_append, h2, Nat.add_zero]

/-- The `AskError` clause up to the resend: the pool of the node is resolved, a
connection leased and `ASKING` sent; what the resend yields decides. -/
theorem askClause_resend (env : Env σ) (cmd : Cmd) (node : Node) (w1 : World σ)
    (p : Pool) (c : Conn) (s2 s3 s4 : σ)
    (hfetch : env.fetchNode node w1.st = (.ok p, s2))
    (hlease : env.acquire p s2 = (.ok c, s3))
    (hasking : env.asking c s3 = (.ok (), s4)) :
    askClause env cmd node w1 =
      ((resend env cmd c
          ⟨s4, w1.log ++ [Event.fetchNode node, Event.lease p (some c), Event.asking c]⟩).1,
        release env p c (resend env cmd c
          ⟨s4, w1.log ++ [Event.fetchNode node, Event.lease p (some c), Event.asking c]⟩).2) := by
  simp [askClause, fetchNode, SafeConnection, acquire, _asking, hfetch, hlease, hasking,
    Except.toOption]

/-- An attempt ends in an `AskError` and the clause for it throws: the exception
leaves `_command`. -/
theorem command_ask_throws (env : Env σ) (cmd : Cmd) (key : StringView) (s0 : σ)
    (w w1 w2 : World σ) (slot : Nat) (node : Node) (e : Exn)
    (hstart : AttemptStart env cmd key s0 w)
    (hask : attempt env cmd key w = (.error (.AskError slot node), w1))
    (hclause : askClause env cmd node w1 = (.error e, w2)) :
    _command env cmd key (World.init s0) = (.error e, w2) := by
  obtain ⟨n, hn⟩ := command_of_attemptStart env cmd key s0 w hstart
  rw [hn]
  exact loop_throws env cmd key n w w1 w2 _ e hask (by simp [catchClauses, hclause])

/-! Lemmas on the leases in the log. -/

theorem attempts_append (l1 l2 : List Event) :
    attempts (l1 ++ l2) = attempts l1 + attempts l2 := by
  simp [attempts]

theorem leased_append (l1 l2 : List Event) : leased (l1 ++ l2) = leased l1 ++ leased l2 := by
  simp [leased]

theorem released_append (l1 l2 : List Event) :
    released (l1 ++ l2) = released l1 ++ released l2 := by
  simp [released]

theorem holds_append (held : Option (Pool × Conn)) (l1 l2 : List Event) :
    holds held (l1 ++ l2) = (holds held l1).bind fun h => holds h l2 := by
  induction l1 generalizing held with
  | nil => simp [holds]
  | cons ev rest ih =>
    simp only [List.cons_append, holds]
    cases holdsStep held ev with
    | none => simp
    | some h => simpa using ih h

theorem Tidy.append {l1 l2 : List Event} (h1 : Tidy l1) (h2 : Tidy l2) : Tidy (l1 ++ l2) := by
  refine ⟨?_, ?_⟩
  · rw [holds_append, h1.1]
    simpa using h2.1
  · rw [leased_append, released_append, h1.2, h2.2]

theorem Tidy.nil : Tidy [] := ⟨rfl, rfl⟩

theorem holdsStep_leased (held h : Option (Pool × Conn)) (ev : Event)
    (hstep : holdsStep held ev = some h) :
    held.toList ++ leased [ev] = released [ev] ++ h.toList := by
  cases ev with
  | lease p conn =>
    cases conn <;> cases held <;> simp [holdsStep] at hstep <;> subst hstep <;>
      simp [leased, released]
  | release p c =>
    cases held with
    | none => simp [holdsStep] at hstep
    | some x =>
      simp only [holdsStep] at hstep
      split at hstep
      · rename_i hx
        simp only [Option.some.injEq] at hstep
        subst hstep
        simp [leased, released, hx]
      · simp at hstep
  | update =>
    cases held with
    | none => simp [holdsStep] at hstep; subst hstep; simp [leased, released]
    | some x => simp [holdsStep] at hstep
  | fetch k => simp [holdsStep] at hstep; subst hstep; simp [leased, released]
  | fetchNode nd => simp [holdsStep] at hstep; subst hstep; simp [leased, released]
  | send c a => simp [holdsStep] at hstep; subst hstep; simp [leased, released]
  | recv c => simp [holdsStep] at hstep; subst hstep; simp [leased, released]
  | asking c => simp [holdsStep] at hstep; subst hstep; simp [leased, released]
  | pools => simp [holdsStep] at hstep; subst hstep; simp [leased, released]
  | guard p c => simp [holdsStep] at hstep; subst hstep; simp [leased, released]
  | unguard p c => simp [holdsStep] at hstep; subst hstep; simp [leased, released]
  | callback p c => simp [holdsStep] at hstep; subst hstep; simp [leased, released]

/-- What a walk that succeeds says of the leases: the lease outstanding before
and the leases acquired are the leases given back and the lease outstanding
after. -/
theorem holds_leased (l : List Event) :
    ∀ (held h : Option (Pool × Conn)), holds held l = some h →
      held.toList ++ leased l = released l ++ h.toList := by
  induction l with
  | nil =>
    intro held h hw
    simp only [holds, Option.some.injEq] at hw
    subst hw
    simp [leased, released]
  | cons ev rest ih =>
    intro held h hw
    simp only [holds] at hw
    rcases hstep : holdsStep held ev with _ | h2
    · simp [hstep] at hw
    · simp only [hstep] at hw
      have h1 := holdsStep_leased held h2 ev hstep
      have h3 := ih h2 h hw
      have e1 : leased (ev :: rest) = leased [ev] ++ leased rest := leased_append [ev] rest
      have e2 : released (ev :: rest) = released [ev] ++ released rest :=
        released_append [ev] rest
      rw [e1, e2, ← List.append_assoc, h1, List.append_assoc, h3, List.append_assoc]

/-- A walk that succeeds on a log succeeds on every beginning of it. -/
theorem holds_prefix (held h : Option (Pool × Conn)) (l1 l2 : List Event)
    (hw : holds held (l1 ++ l2) = some h) :
    ∃ h1, holds held l1 = some h1 ∧ holds h1 l2 = some h := by
  rw [holds_append] at hw
  cases h1 : holds held l1 with
  | none => simp [h1] at hw
  | some x => exact ⟨x, rfl, by simpa [h1] using hw⟩

/-! The events each part of the dispatcher adds to the log. -/

theorem command_connection_shape (env : Env σ) (cmd : Cmd) (c : Conn) (w : World σ) :
    (_command_connection env cmd c w).2.log = w.log ++ [Event.send c (cmd (sends w.log))] ∨
      (_command_connection env cmd c w).2.log =
        w.log ++ [Event.send c (cmd (sends w.log)), Event.recv c] := by
  rcases hs : env.send c (cmd (sends w.log)) w.st with ⟨_ | _, s1⟩
  · left
    simp [_command_connection, send, hs]
  · right
    simp [_command_connection, send, recv, hs]

theorem resend_world (env : Env σ) (cmd : Cmd) (c : Conn) (w : World σ) :
    (resend env cmd c w).2 = (_command_connection env cmd c w).2 := by
  unfold resend
  split
  · rename_i h
    rw [h]
  · rfl

theorem tidy_scope (cmd : CmdArgs) (p : Pool) (c : Conn) (inner : List Event)
    (h : inner = [Event.send c cmd] ∨ inner = [Event.send c cmd, Event.recv c] ∨
      inner = [Event.asking c] ∨ inner = [Event.asking c, Event.send c cmd] ∨
      inner = [Event.asking c, Event.send c cmd, Event.recv c]) :
    Tidy (Event.lease p (some c) :: inner ++ [Event.release p c]) := by
  rcases h with h | h | h | h | h <;> subst h <;>
    exact ⟨by simp [holds, holdsStep], by simp [leased, released]⟩

/-- One attempt adds one `fetch` of the key and, if it leased a connection, the
calls on it closed by its release. -/
theorem attempt_tidy (env : Env σ) (cmd : Cmd) (key : StringView) (w : World σ) :
    ∃ evs, (attempt env cmd key w).2.log = w.log ++ evs ∧ Tidy evs ∧ attempts evs = 1 := by
  rcases hf : env.fetch key w.st with ⟨_ | p, s1⟩
  · exact ⟨[Event.fetch key], by simp [attempt, fetch, hf],
      ⟨by simp [holds, holdsStep], by simp [leased, released]⟩,
      by simp [attempts, Event.isFetch]⟩
  · rcases hl : env.acquire p s1 with ⟨_ | c, s2⟩
    · exact ⟨[Event.fetch key, Event.lease p none],
        by simp [attempt, fetch, hf, SafeConnection, acquire, hl, Except.toOption],
        ⟨by simp [holds, holdsStep], by simp [leased, released]⟩,
        by simp [attempts, Event.isFetch]⟩
    · have hlog : (attempt env cmd key w).2.log =
          (_command_connection env cmd c
            ⟨s2, w.log ++ [Event.fetch key, Event.lease p (some c)]⟩).2.log ++
            [Event.release p c] := by
        simp [attempt, fetch, hf, SafeConnection, acquire, hl, Except.toOption, release]
      rcases command_connection_shape env cmd c
          ⟨s2, w.log ++ [Event.fetch key, Event.lease p (some c)]⟩ with h | h
      · refine ⟨[Event.fetch key] ++
          (Event.lease p (some c) :: [Event.send c (cmd (sends w.log))] ++ [Event.release p c]),
          ?_, ?_, ?_⟩
        · rw [hlog, h]; simp [sends_try]
        · exact Tidy.append ⟨by simp [holds, holdsStep], by simp [leased, released]⟩
            (tidy_scope _ p c _ (Or.inl rfl))
        · simp [attempts, Event.isFetch]
      · refine ⟨[Event.fetch key] ++
          (Event.lease p (some c) :: [Event.send c (cmd (sends w.log)), Event.recv c] ++
            [Event.release p c]), ?_, ?_, ?_⟩
        · rw [hlog, h]; simp [sends_try]
        · exact Tidy.append ⟨by simp [holds, holdsStep], by simp [leased, released]⟩
            (tidy_scope _ p c _ (Or.inr (Or.inl rfl)))
        · simp [attempts, Event.isFetch]

/-- The `AskError` clause adds one `fetch` of the node and, if it leased a
connection, the calls on it closed by its release: no `update`, no `fetch` of the
key, at most one send. -/
theorem askClause_tidy (env : Env σ) (cmd : Cmd) (node : Node) (w : World σ) :
    ∃ evs, (askClause env cmd node w).2.log = w.log ++ evs ∧ Tidy evs ∧ attempts evs = 0 ∧
      refreshes evs = 0 ∧ sends evs ≤ 1 := by
  rcases hf : env.fetchNode node w.st with ⟨_ | p, s1⟩
  · exact ⟨[Event.fetchNode node], by simp [askClause, fetchNode, hf],
      ⟨by simp [holds, holdsStep], by simp [leased, released]⟩,
      by simp [attempts, Event.isFetch], by simp [refreshes, Event.isUpdate],
      by simp [sends, Event.isSend]⟩
  · rcases hl : env.acquire p s1 with ⟨_ | c, s2⟩
    · exact ⟨[Event.fetchNode node, Event.lease p none],
        by simp [askClause, fetchNode, hf, SafeConnection, acquire, hl, Except.toOption],
        ⟨by simp [holds, holdsStep], by simp [leased, released]⟩,
        by simp [attempts, Event.isFetch], by simp [refreshes, Event.isUpdate],
        by simp [sends, Event.isSend]⟩
    · rcases ha : env.asking c s2 with ⟨_ | _, s3⟩
      · refine ⟨[Event.fetchNode node] ++
          (Event.lease p (some c) :: [Event.asking c] ++ [Event.release p c]), ?_, ?_, ?_, ?_, ?_⟩
        · simp [askClause, fetchNode, hf, SafeConnection, acquire, hl, Except.toOption, _asking,
            ha, release]
        · exact Tidy.append ⟨by simp [holds, holdsStep], by simp [leased, released]⟩
            (tidy_scope [] p c _ (Or.inr (Or.inr (Or.inl rfl))))
        · simp [attempts, Event.isFetch]
        · simp [refreshes, Event.isUpdate]
        · simp [sends, Event.isSend]
      · have hlog : (askClause env cmd node w).2.log =
            (_command_connection env cmd c
              ⟨s3, w.log ++ [Event.fetchNode node, Event.lease p (some c), Event.asking c]⟩).2.log
              ++ [Event.release p c] := by
          simp [askClause, fetchNode, hf, SafeConnection, acquire, hl, Except.toOption, _asking,
            ha, release, resend_world]
        rcases command_connection_shape env cmd c
            ⟨s3, w.log ++ [Event.fetchNode node, Event.lease p (some c), Event.asking c]⟩
          with h | h
        · refine ⟨[Event.fetchNode node] ++
            (Event.lease p (some c) :: [Event.asking c, Event.send c (cmd (sends w.log))] ++
              [Event.release p c]), ?_, ?_, ?_, ?_, ?_⟩
          · rw [hlog, h]; simp [sends_ask]
          · exact Tidy.append ⟨by simp [holds, holdsStep], by simp [leased, released]⟩
              (tidy_scope _ p c _ (Or.inr (Or.inr (Or.inr (Or.inl rfl)))))
          · simp [attempts, Event.isFetch]
          · simp [refreshes, Event.isUpdate]
          · simp [sends, Event.isSend]
        · refine ⟨[Event.fetchNode node] ++
            (Event.lease p (some c) ::
              [Event.asking c, Event.send c (cmd (sends w.log)), Event.recv c] ++
              [Event.release p c]), ?_, ?_, ?_, ?_, ?_⟩
          · rw [hlog, h]; simp [sends_ask]
          · exact Tidy.append ⟨by simp [holds, holdsStep], by simp [leased, released]⟩
              (tidy_scope _ p c _ (Or.inr (Or.inr (Or.inr (Or.inr rfl)))))
          · simp [attempts, Event.isFetch]
          · simp [refreshes, Event.isUpdate]
          · simp [sends, Event.isSend]

theorem updateClause_log (env : Env σ) (w : World σ) :
    (updateClause env w).2.log = w.log ++ [Event.update] := by
  rcases hu : env.update w.st with ⟨_ | _, s1⟩ <;> simp [updateClause, update, hu]

theorem catch_ask_world (env : Env σ) (cmd : Cmd) (slot : Nat) (node : Node)
    (w : World σ) :
    (catchClauses env cmd (.AskError slot node) w).2 = (askClause env cmd node w).2 := by
  simp only [catchClauses]
  split <;> rename_i h <;> rw [h]

/-- A `catch` clause adds an `update`, or the events of the `AskError` clause, or
nothing: no `fetch` of the key, and the leases stay scoped. -/
theorem catchClauses_tidy (env : Env σ) (cmd : Cmd) (e : Exn) (w : World σ) :
    ∃ evs, (catchClauses env cmd e w).2.log = w.log ++ evs ∧ Tidy evs ∧ attempts evs = 0 := by
  have hupd : (updateClause env w).2.log = w.log ++ [Event.update] ∧ Tidy [Event.update] ∧
      attempts [Event.update] = 0 :=
    ⟨updateClause_log env w, ⟨by simp [holds, holdsStep], by simp [leased, released]⟩,
      by simp [attempts, Event.isFetch]⟩
  cases e with
  | IoError m => exact ⟨_, hupd⟩
  | ClosedError m => exact ⟨_, hupd⟩
  | MovedError sl nd => exact ⟨_, hupd⟩
  | AskError sl nd =>
    obtain ⟨evs, h1, h2, h3, _, _⟩ := askClause_tidy env cmd nd w
    exact ⟨evs, by rw [catch_ask_world]; exact h1, h2, h3⟩
  | Error m => exact ⟨[], by simp [catchClauses], Tidy.nil, rfl⟩
  | Other cl m => exact ⟨[], by simp [catchClauses], Tidy.nil, rfl⟩

/-- The loop with `n` iterations to run starts at most `n` outer attempts and
keeps every lease scoped, whatever the environment does. -/
theorem loop_tidy (env : Env σ) (cmd : Cmd) (key : StringView) :
    ∀ (n : Nat) (w : World σ),
      ∃ evs, (_command_loop env cmd key n w).2.log = w.log ++ evs ∧ Tidy evs ∧
        attempts evs ≤ n := by
  intro n
  induction n with
  | zero => intro w; exact ⟨[], by simp [_command_loop], Tidy.nil, by simp [attempts]⟩
  | succ n ih =>
    intro w
    obtain ⟨ea, ha, hta, hna⟩ := attempt_tidy env cmd key w
    rcases h : attempt env cmd key w with ⟨e | r, w1⟩
    · rw [h] at ha
      simp only at ha
      obtain ⟨ec, hc, htc, hnc⟩ := catchClauses_tidy env cmd e w1
      rcases hcl : catchClauses env cmd e w1 with ⟨e2 | (_ | r), w2⟩
      · rw [hcl] at hc
        simp only at hc
        refine ⟨ea ++ ec, ?_, Tidy.append hta htc, ?_⟩
        · rw [loop_throws env cmd key n w w1 w2 e e2 h hcl]
          simp [hc, ha]
        · rw [attempts_append]; omega
      · rw [hcl] at hc
        simp only at hc
        obtain ⟨ei, hi, hti, hni⟩ := ih w2
        refine ⟨ea ++ ec ++ ei, ?_, Tidy.append (Tidy.append hta htc) hti, ?_⟩
        · rw [loop_continues env cmd key n w w1 w2 e h hcl, hi, hc, ha]
          simp
        · rw [attempts_append, attempts_append]; omega
      · rw [hcl] at hc
        simp only at hc
        refine ⟨ea ++ ec, ?_, Tidy.append hta htc, ?_⟩
        · rw [loop_clause_returns env cmd key n w w1 w2 e r h hcl]
          simp [hc, ha]
        · rw [attempts_append]; omega
    · rw [h] at ha
      simp only at ha
      refine ⟨ea, ?_, hta, by omega⟩
      rw [loop_returns env cmd key n w w1 r h]
      exact ha

/-- The whole run of `_command` from the initial world: its log is tidy and holds
at most 2 outer attempts. -/
theorem command_tidy (env : Env σ) (cmd : Cmd) (key : StringView) (s0 : σ) :
    Tidy (_command env cmd key (World.init s0)).2.log ∧
      attempts (_command env cmd key (World.init s0)).2.log ≤ 2 := by
  obtain ⟨evs, h1, h2, h3⟩ := loop_tidy env cmd key 2 (World.init s0)
  have : (_command env cmd key (World.init s0)).2.log = evs := by
    simpa [command_init, World.init] using h1
  rw [this]
  exact ⟨h2, h3⟩

/-- After an attempt that ends in an `AskError`, the world `_command` leaves is the
one the `AskError` clause leaves. -/
theorem command_ask_world (env : Env σ) (cmd : Cmd) (key : StringView) (s0 : σ)
    (w w1 : World σ) (slot : Nat) (node : Node)
    (hstart : AttemptStart env cmd key s0 w)
    (hask : attempt env cmd key w = (.error (.AskError slot node), w1)) :
    (_command env cmd key (World.init s0)).2 = (askClause env cmd node w1).2 := by
  obtain ⟨n, hn⟩ := command_of_attemptStart env cmd key s0 w hstart
  rw [hn]
  rcases hc : askClause env cmd node w1 with ⟨e | r, w2⟩
  · rw [loop_throws env cmd key n w w1 w2 _ e hask (by simp [catchClauses, hc])]
  · rw [loop_clause_returns env cmd key n w w1 w2 _ r hask (by simp [catchClauses, hc])]

/-- The `AskError` clause when the node resolves, its pool leases and `ASKING` and
the resend return: the reply of the resend is returned. -/
theorem askClause_reply (env : Env σ) (cmd : Cmd) (node : Node) (w1 : World σ)
    (p : Pool) (c : Conn) (r : Reply) (s2 s3 s4 s5 s6 : σ)
    (hfetch : env.fetchNode node w1.st = (.ok p, s2))
    (hlease : env.acquire p s2 = (.ok c, s3))
    (hasking : env.asking c s3 = (.ok (), s4))
    (hsend : env.send c (cmd (sends w1.log)) s4 = (.ok (), s5))
    (hrecv : env.recv c s5 = (.ok r, s6)) :
    askClause env cmd node w1 =
      (.ok r, ⟨env.release p c s6,
        w1.log ++ [Event.fetchNode node, Event.lease p (some c), Event.asking c,
          Event.send c (cmd (sends w1.log)), Event.recv c, Event.release p c]⟩) := by
  simp [askClause_resend env cmd node w1 p c s2 s3 s4 hfetch hlease hasking,
    resend, _command_connection, send, recv, release, hsend, hrecv, sends_ask]

/-- The `AskError` clause when the resend ends in a `MovedError`: the `Error` of the
migration inconsistency is thrown, after the release of the connection. -/
theorem askClause_moved (env : Env σ) (cmd : Cmd) (node node2 : Node) (slot2 : Nat)
    (w1 w5 : World σ) (p : Pool) (c : Conn) (s2 s3 s4 : σ)
    (hfetch : env.fetchNode node w1.st = (.ok p, s2))
    (hlease : env.acquire p s2 = (.ok c, s3))
    (hasking : env.asking c s3 = (.ok (), s4))
    (hmoved : _command_connection env cmd c
        ⟨s4, w1.log ++ [Event.fetchNode node, Event.lease p (some c), Event.asking c]⟩ =
      (.error (.MovedError slot2 node2), w5)) :
    askClause env cmd node w1 =
      (.error (.Error "Slot migrating... ASKING node hasn't been set to IMPORTING state"),
        ⟨env.release p c w5.st, w5.log ++ [Event.release p c]⟩) := by
  rw [askClause_resend env cmd node w1 p c s2 s3 s4 hfetch hlease hasking]
  simp [resend, hmoved, release]

/-- An attempt in which the key resolves and the pool leases a connection sends the
command on that connection; what follows in the attempt holds no `fetch`. -/
theorem attempt_leased_shape (env : Env σ) (cmd : Cmd) (key : StringView) (w : World σ)
    (p : Pool) (c : Conn) (s1 s2 : σ)
    (hfetch : env.fetch key w.st = (.ok p, s1))
    (hlease : env.acquire p s1 = (.ok c, s2)) :
    ∃ rest, (attempt env cmd key w).2.log =
        w.log ++ [Event.fetch key, Event.lease p (some c), Event.send c (cmd (sends w.log))] ++
          rest ∧
      attempts rest = 0 := by
  have hlog : (attempt env cmd key w).2.log =
      (_command_connection env cmd c
        ⟨s2, w.log ++ [Event.fetch key, Event.lease p (some c)]⟩).2.log ++
        [Event.release p c] := by
    simp [attempt, fetch, hfetch, SafeConnection, acquire, hlease, Except.toOption, release]
  rcases command_connection_shape env cmd c
      ⟨s2, w.log ++ [Event.fetch key, Event.lease p (some c)]⟩ with h | h
  · exact ⟨[Event.release p c], by rw [hlog, h]; simp [sends_try],
      by simp [attempts, Event.isFetch]⟩
  · exact ⟨[Event.recv c, Event.release p c], by rw [hlog, h]; simp [sends_try],
      by simp [attempts, Event.isFetch]⟩

/-! Lemmas on the node iteration. -/

theorem visited_append (l1 l2 : List Event) : visited (l1 ++ l2) = visited l1 ++ visited l2 := by
  simp [visited]

theorem for_each_loop_next (env : Env σ) (cb : Callback σ) (pool : Pool) (rest : List Pool)
    (w : World σ) (c : Conn) (s1 s2 : σ)
    (hguard : env.guard pool w.st = (.ok c, s1))
    (hcb : cb pool c s1 = (.ok (), s2)) :
    for_each_loop env cb (pool :: rest) w =
      for_each_loop env cb rest
        ⟨env.unguard pool c s2,
          w.log ++ [Event.guard pool (some c), Event.callback pool c, Event.unguard pool c]⟩ := by
  simp [for_each_loop, guard, callback, unguard, hguard, hcb, Except.toOption]

theorem for_each_loop_raise (env : Env σ) (cb : Callback σ) (pool : Pool) (rest : List Pool)
    (w : World σ) (c : Conn) (s1 s2 : σ) (e : Exn)
    (hguard : env.guard pool w.st = (.ok c, s1))
    (hcb : cb pool c s1 = (.error e, s2)) :
    for_each_loop env cb (pool :: rest) w =
      (.error e, ⟨env.unguard pool c s2,
        w.log ++ [Event.guard pool (some c), Event.callback pool c, Event.unguard pool c]⟩) := by
  simp [for_each_loop, guard, callback, unguard, hguard, hcb, Except.toOption]

/-- When every pool of the list gives its guard a connection and the callback
returns at every one of them, the loop returns, having started no refresh and
called the callback for the pools of the list, in order. -/
theorem for_each_loop_all (env : Env σ) (cb : Callback σ) (ps : List Pool)
    (hguard : ∀ p ∈ ps, ∀ s, ∃ c, (env.guard p s).1 = .ok c)
    (hcb : ∀ p ∈ ps, ∀ c s, (cb p c s).1 = .ok ()) :
    ∀ w : World σ, (for_each_loop env cb ps w).1 = .ok () ∧
      ∃ evs, (for_each_loop env cb ps w).2.log = w.log ++ evs ∧ visited evs = ps ∧
        refreshes evs = 0 := by
  induction ps with
  | nil => intro w; exact ⟨rfl, [], by simp [for_each_loop], rfl, rfl⟩
  | cons pool rest ih =>
    intro w
    obtain ⟨c, hc⟩ := hguard pool (List.mem_cons_self _ _) w.st
    have hg : env.guard pool w.st = (.ok c, (env.guard pool w.st).2) := by
      rw [← hc]
    have hk : cb pool c (env.guard pool w.st).2 =
        (.ok (), (cb pool c (env.guard pool w.st).2).2) := by
      have := hcb pool (List.mem_cons_self _ _) c (env.guard pool w.st).2
      rw [← this]
    rw [for_each_loop_next env cb pool rest w c _ _ hg hk]
    obtain ⟨h1, evs, h2, h3, h4⟩ := ih (fun p hp => hguard p (List.mem_cons_of_mem _ hp))
      (fun p hp => hcb p (List.mem_cons_of_mem _ hp))
      ⟨env.unguard pool c (cb pool c (env.guard pool w.st).2).2,
        w.log ++ [Event.guard pool (some c), Event.callback pool c, Event.unguard pool c]⟩
    refine ⟨h1, [Event.guard pool (some c), Event.callback pool c, Event.unguard pool c] ++ evs,
      ?_, ?_, ?_⟩
    · rw [h2]; simp
    · rw [visited_append, h3]; simp [visited]
    · rw [refreshes_append, h4]; simp [refreshes, Event.isUpdate]

/-- When the pools before `pool` give their guards a connection and the callback
returns at them, and the callback throws `e` at `pool`, the loop throws `e`,
having called the callback for the pools up to `pool` and for none after it. -/
theorem for_each_loop_stops (env : Env σ) (cb : Callback σ) (before after : List Pool)
    (pool : Pool) (e : Exn)
    (hguard : ∀ p ∈ before ++ [pool], ∀ s, ∃ c, (env.guard p s).1 = .ok c)
    (hcb : ∀ p ∈ before, ∀ c s, (cb p c s).1 = .ok ())
    (hraise : ∀ c s, (cb pool c s).1 = .error e) :
    ∀ w : World σ, (for_each_loop env cb (before ++ pool :: after) w).1 = .error e ∧
      ∃ evs, (for_each_loop env cb (before ++ pool :: after) w).2.log = w.log ++ evs ∧
        visited evs = before ++ [pool] := by
  induction before with
  | nil =>
    intro w
    obtain ⟨c, hc⟩ := hguard pool (by simp) w.st
    have hg : env.guard pool w.st = (.ok c, (env.guard pool w.st).2) := by
      rw [← hc]
    have hk : cb pool c (env.guard pool w.st).2 =
        (.error e, (cb pool c (env.guard pool w.st).2).2) := by
      have := hraise c (env.guard pool w.st).2
      rw [← this]
    simp only [List.nil_append]
    rw [for_each_loop_raise env cb pool after w c _ _ e hg hk]
    exact ⟨rfl, _, rfl, by simp [visited]⟩
  | cons q rest ih =>
    intro w
    obtain ⟨c, hc⟩ := hguard q (by simp) w.st
    have hg : env.guard q w.st = (.ok c, (env.guard q w.st).2) := by
      rw [← hc]
    have hk : cb q c (env.guard q w.st).2 = (.ok (), (cb q c (env.guard q w.st).2).2) := by
      have := hcb q (List.mem_cons_self _ _) c (env.guard q w.st).2
      rw [← this]
    simp only [List.cons_append]
    rw [for_each_loop_next env cb q (rest ++ pool :: after) w c _ _ hg hk]
    obtain ⟨h1, evs, h2, h3⟩ := ih
      (fun p hp => hguard p (by simp at hp ⊢; tauto))
      (fun p hp => hcb p (List.mem_cons_of_mem _ hp))
      ⟨env.unguard q c (cb q c (env.guard q w.st).2).2,
        w.log ++ [Event.guard q (some c), Event.callback q c, Event.unguard q c]⟩
    refine ⟨h1, [Event.guard q (some c), Event.callback q c, Event.unguard q c] ++ evs, ?_, ?_⟩
    · rw [h2]; simp
    · rw [visited_append, h3]; simp [visited]

theorem for_each_run (env : Env σ) (cb : Callback σ) (s0 s1 s2 : σ) (ps : List Pool)
    (hupdate : env.update s0 = (.ok (), s1))
    (hpools : env.pools s1 = (.ok ps, s2)) :
    for_each env cb (World.init s0) =
      for_each_loop env cb ps ⟨s2, [Event.update, Event.pools]⟩ := by
  simp [for_each, update, pools, World.init, hupdate, hpools]

/-! More lemmas on the loop. -/

theorem attempt_lease_fails (env : Env σ) (cmd : Cmd) (key : StringView) (w : World σ)
    (p : Pool) (e : Exn) (s1 s2 : σ)
    (hfetch : env.fetch key w.st = (.ok p, s1))
    (hlease : env.acquire p s1 = (.error e, s2)) :
    attempt env cmd key w = (.error e, ⟨s2, w.log ++ [Event.fetch key, Event.lease p none]⟩) := by
  simp [attempt, fetch, SafeConnection, acquire, hfetch, hlease, Except.toOption]

/-- The last iteration of the loop: after its attempt no `fetch` of the key follows. -/
theorem loop_one_log (env : Env σ) (cmd : Cmd) (key : StringView) (w : World σ) :
    ∃ ec, (_command_loop env cmd key 1 w).2.log = (attempt env cmd key w).2.log ++ ec ∧
      attempts ec = 0 := by
  rcases h : attempt env cmd key w with ⟨e | r, w1⟩
  · obtain ⟨ec, hc, _, hnc⟩ := catchClauses_tidy env cmd e w1
    rcases hcl : catchClauses env cmd e w1 with ⟨e2 | (_ | r), w2⟩
    · rw [hcl] at hc
      exact ⟨ec, by rw [loop_throws env cmd key 0 w w1 w2 e e2 h hcl]; exact hc, hnc⟩
    · rw [hcl] at hc
      refine ⟨ec, ?_, hnc⟩
      rw [loop_continues env cmd key 0 w w1 w2 e h hcl]
      exact hc
    · rw [hcl] at hc
      exact ⟨ec, by rw [loop_clause_returns env cmd key 0 w w1 w2 e r h hcl]; exact hc, hnc⟩
  · exact ⟨[], by rw [loop_returns env cmd key 0 w w1 r h]; simp, rfl⟩

theorem mentions_key (text key : String) : mentions (text ++ key) key = true := by
  simp only [mentions, String.data_append, decide_eq_true_eq]
  exact (List.suffix_append _ _).isInfix

/-! Lemmas on the refreshes of a run. -/

theorem catchClauses_refreshes (env : Env σ) (cmd : Cmd) (e : Exn) (w : World σ) :
    refreshes (catchClauses env cmd e w).2.log =
      refreshes w.log + (if e.refreshing then 1 else 0) := by
  have hupd : refreshes (updateClause env w).2.log = refreshes w.log + 1 := by
    rw [updateClause_log, refreshes_append]
    simp [refreshes, Event.isUpdate]
  cases e with
  | IoError m => simpa [catchClauses, Exn.refreshing] using hupd
  | ClosedError m => simpa [catchClauses, Exn.refreshing] using hupd
  | MovedError sl nd => simpa [catchClauses, Exn.refreshing] using hupd
  | AskError sl nd =>
    obtain ⟨evs, h1, _, _, h4, _⟩ := askClause_tidy env cmd nd w
    rw [catch_ask_world, h1, refreshes_append, h4]
    simp [Exn.refreshing]
  | Error m => simp [catchClauses, Exn.refreshing]
  | Other cl m => simp [catchClauses, Exn.refreshing]

/-- The refreshes a run of the loop starts are as many as its attempts that end in
an exception of a refreshing class. -/
theorem loop_refreshes (env : Env σ) (cmd : Cmd) (key : StringView) :
    ∀ (n : Nat) (w : World σ),
      refreshes (_command_loop env cmd key n w).2.log =
        refreshes w.log + refreshingAttempts env cmd key n w := by
  intro n
  induction n with
  | zero => intro w; simp [_command_loop, refreshingAttempts]
  | succ n ih =>
    intro w
    rcases h : attempt env cmd key w with ⟨e | r, w1⟩
    · have ha := attempt_refreshes env cmd key w w1 _ h
      have hc := catchClauses_refreshes env cmd e w1
      rcases hcl : catchClauses env cmd e w1 with ⟨e2 | (_ | r), w2⟩
      · rw [loop_throws env cmd key n w w1 w2 e e2 h hcl]
        rw [hcl] at hc
        simp only [refreshingAttempts, h, hcl]
        simp only at hc
        omega
      · rw [loop_continues env cmd key n w w1 w2 e h hcl, ih w2]
        rw [hcl] at hc
        simp only [refreshingAttempts, h, hcl]
        simp only at hc
        omega
      · rw [loop_clause_returns env cmd key n w w1 w2 e r h hcl]
        rw [hcl] at hc
        simp only [refreshingAttempts, h, hcl]
        simp only at hc
        omega
    · rw [loop_returns env cmd key n w w1 r h]
      have ha := attempt_refreshes env cmd key w w1 _ h
      simp only [refreshingAttempts, h]
      omega

/-! Lemmas on the guards of the node iteration. -/

theorem guardsMade_append (l1 l2 : List Event) :
    guardsMade (l1 ++ l2) = guardsMade l1 ++ guardsMade l2 := by
  simp [guardsMade]

theorem guardsDropped_append (l1 l2 : List Event) :
    guardsDropped (l1 ++ l2) = guardsDropped l1 ++ guardsDropped l2 := by
  simp [guardsDropped]

theorem guardWalk_append (st : GuardState) (l1 l2 : List Event) :
    guardWalk st (l1 ++ l2) = (guardWalk st l1).bind fun st1 => guardWalk st1 l2 := by
  induction l1 generalizing st with
  | nil => simp [guardWalk]
  | cons ev rest ih =>
    simp only [List.cons_append, guardWalk]
    cases guardStep st ev with
    | none => simp
    | some st1 => simpa using ih st1

theorem guardWalk_prefix (st st2 : GuardState) (l1 l2 : List Event)
    (hw : guardWalk st (l1 ++ l2) = some st2) :
    ∃ st1, guardWalk st l1 = some st1 ∧ guardWalk st1 l2 = some st2 := by
  rw [guardWalk_append] at hw
  cases h1 : guardWalk st l1 with
  | none => simp [h1] at hw
  | some x => exact ⟨x, rfl, by simpa [h1] using hw⟩

theorem guardStep_idle (st st1 : GuardState) (p : Pool) (c : Option Conn)
    (h : guardStep st (Event.guard p c) = some st1) : st = .idle := by
  cases st <;> simp [guardStep] at h ⊢

theorem guardStep_callback (st st1 : GuardState) (p : Pool) (c : Conn)
    (h : guardStep st (Event.callback p c) = some st1) :
    st = .guarded p c ∧ st1 = .called p c := by
  cases st with
  | idle => simp [guardStep] at h
  | called q d => simp [guardStep] at h
  | guarded q d =>
    simp only [guardStep] at h
    split at h
    · rename_i hx
      simp only [Option.some.injEq] at h
      obtain ⟨h1, h2⟩ := hx
      subst h1 h2
      exact ⟨rfl, h.symm⟩
    · simp at h

theorem guardStep_called (p : Pool) (c : Conn) (ev : Event) (st1 : GuardState)
    (h : guardStep (.called p c) ev = some st1) : ev = Event.unguard p c ∧ st1 = .idle := by
  cases ev with
  | unguard q d =>
    simp only [guardStep] at h
    split at h
    · rename_i hx
      simp only [Option.some.injEq] at h
      obtain ⟨h1, h2⟩ := hx
      subst h1 h2
      exact ⟨rfl, h.symm⟩
    · simp at h
  | fetch k => simp [guardStep] at h
  | fetchNode nd => simp [guardStep] at h
  | update => simp [guardStep] at h
  | lease q d => simp [guardStep] at h
  | release q d => simp [guardStep] at h
  | send d a => simp [guardStep] at h
  | recv d => simp [guardStep] at h
  | asking d => simp [guardStep] at h
  | pools => simp [guardStep] at h
  | guard q d => simp [guardStep] at h
  | callback q d => simp [guardStep] at h

theorem guardStep_made (st st1 : GuardState) (ev : Event) (h : guardStep st ev = some st1) :
    st.owed ++ guardsMade [ev] = guardsDropped [ev] ++ st1.owed := by
  cases st with
  | called p c =>
    obtain ⟨h1, h2⟩ := guardStep_called p c ev st1 h
    subst h1 h2
    simp [GuardState.owed, guardsMade, guardsDropped]
  | guarded p c =>
    cases ev with
    | callback q d =>
      obtain ⟨h1, h2⟩ := guardStep_callback _ st1 q d h
      simp only [GuardState.guarded.injEq] at h1
      obtain ⟨h3, h4⟩ := h1
      subst h2 h3 h4
      simp [GuardState.owed, guardsMade, guardsDropped]
    | fetch k => simp [guardStep] at h
    | fetchNode nd => simp [guardStep] at h
    | update => simp [guardStep] at h
    | lease q d => simp [guardStep] at h
    | release q d => simp [guardStep] at h
    | send d a => simp [guardStep] at h
    | recv d => simp [guardStep] at h
    | asking d => simp [guardStep] at h
    | pools => simp [guardStep] at h
    | guard q d => simp [guardStep] at h
    | unguard q d => simp [guardStep] at h
  | idle =>
    cases ev with
    | guard q d =>
      cases d with
      | none =>
        simp [guardStep] at h; subst h
        simp [GuardState.owed, guardsMade, guardsDropped]
      | some d =>
        simp [guardStep] at h; subst h
        simp [GuardState.owed, guardsMade, guardsDropped]
    | update =>
      simp [guardStep] at h; subst h
      simp [GuardState.owed, guardsMade, guardsDropped]
    | pools =>
      simp [guardStep] at h; subst h
      simp [GuardState.owed, guardsMade, guardsDropped]
    | fetch k => simp [guardStep] at h
    | fetchNode nd => simp [guardStep] at h
    | lease q d => simp [guardStep] at h
    | release q d => simp [guardStep] at h
    | send d a => simp [guardStep] at h
    | recv d => simp [guardStep] at h
    | asking d => simp [guardStep] at h
    | callback q d => simp [guardStep] at h
    | unguard q d => simp [guardStep] at h

/-- What a walk that fits says of the guards: the guard outstanding before and the
guards made are the guards destroyed and the guard outstanding after. -/
theorem guardWalk_made (l : List Event) :
    ∀ (st st2 : GuardState), guardWalk st l = some st2 →
      st.owed ++ guardsMade l = guardsDropped l ++ st2.owed := by
  induction l with
  | nil =>
    intro st st2 hw
    simp only [guardWalk, Option.some.injEq] at hw
    subst hw
    simp [guardsMade, guardsDropped]
  | cons ev rest ih =>
    intro st st2 hw
    simp only [guardWalk] at hw
    rcases hstep : guardStep st ev with _ | st1
    · simp [hstep] at hw
    · simp only [hstep] at hw
      have h1 := guardStep_made st st1 ev hstep
      have h3 := ih st1 st2 hw
      have e1 : guardsMade (ev :: rest) = guardsMade [ev] ++ guardsMade rest :=
        guardsMade_append [ev] rest
      have e2 : guardsDropped (ev :: rest) = guardsDropped [ev] ++ guardsDropped rest :=
        guardsDropped_append [ev] rest
      rw [e1, e2, ← List.append_assoc, h1, List.append_assoc, h3, List.append_assoc]

/-- The loop of `for_each` fits the walk, whatever the environment and the callback
do: each guard made is handed to the callback and destroyed right after it. -/
theorem for_each_loop_guards (env : Env σ) (cb : Callback σ) (ps : List Pool) :
    ∀ w : World σ, ∃ evs, (for_each_loop env cb ps w).2.log = w.log ++ evs ∧
      guardWalk .idle evs = some .idle := by
  induction ps with
  | nil => intro w; exact ⟨[], by simp [for_each_loop], rfl⟩
  | cons pool rest ih =>
    intro w
    rcases hg : env.guard pool w.st with ⟨e | c, s1⟩
    · exact ⟨[Event.guard pool none],
        by simp [for_each_loop, guard, hg, Except.toOption], by simp [guardWalk, guardStep]⟩
    · rcases hk : cb pool c s1 with ⟨e | u, s2⟩
      · rw [for_each_loop_raise env cb pool rest w c s1 s2 e hg hk]
        exact ⟨_, rfl, by simp [guardWalk, guardStep]⟩
      · rw [for_each_loop_next env cb pool rest w c s1 s2 hg hk]
        obtain ⟨evs, h1, h2⟩ := ih
          ⟨env.unguard pool c s2,
            w.log ++ [Event.guard pool (some c), Event.callback pool c, Event.unguard pool c]⟩
        refine ⟨[Event.guard pool (some c), Event.callback pool c, Event.unguard pool c] ++ evs,
          by rw [h1]; simp, ?_⟩
        rw [guardWalk_append]
        simpa [guardWalk, guardStep] using h2

/-- The whole log of `for_each` fits the walk and ends with no guard outstanding. -/
theorem for_each_guards (env : Env σ) (cb : Callback σ) (s0 : σ) :
    guardWalk .idle (for_each env cb (World.init s0)).2.log = some .idle := by
  rcases hu : env.update s0 with ⟨e | u, s1⟩
  · simp [for_each, update, World.init, hu, guardWalk, guardStep]
  · rcases hp : env.pools s1 with ⟨e | ps, s2⟩
    · simp [for_each, update, pools, World.init, hu, hp, guardWalk, guardStep]
    · rw [for_each_run env cb s0 s1 s2 ps hu hp]
      obtain ⟨evs, h1, h2⟩ := for_each_loop_guards env cb ps ⟨s2, [Event.update, Event.pools]⟩
      rw [h1]
      simpa [guardWalk, guardStep] using h2

/-! Lemmas on the keys resolved and the arguments sent. -/

theorem fetched_append (l1 l2 : List Event) : fetched (l1 ++ l2) = fetched l1 ++ fetched l2 := by
  simp [fetched]

theorem sent_append (l1 l2 : List Event) : sent (l1 ++ l2) = sent l1 ++ sent l2 := by
  simp [sent]

theorem routed_append {key : StringView} {cmd : Cmd} {l1 l2 : List Event}
    (h1 : Routed key cmd l1) (h2 : Routed key cmd l2) : Routed key cmd (l1 ++ l2) := by
  constructor
  · intro k hk
    rw [fetched_append, List.mem_append] at hk
    exact hk.elim (h1.1 k) (h2.1 k)
  · intro a ha
    rw [sent_append, List.mem_append] at ha
    exact ha.elim (h1.2 a) (h2.2 a)

theorem routed_nil (key : StringView) (cmd : Cmd) : Routed key cmd [] :=
  ⟨fun _ h => by simp [fetched] at h, fun _ h => by simp [sent] at h⟩

/-- The events of one attempt, spelled out. -/
theorem attempt_shape (env : Env σ) (cmd : Cmd) (key : StringView) (w : World σ) :
    ∃ evs, (attempt env cmd key w).2.log = w.log ++ evs ∧
      (evs = [Event.fetch key] ∨ (∃ p, evs = [Event.fetch key, Event.lease p none]) ∨
        (∃ p c i, evs = [Event.fetch key, Event.lease p (some c), Event.send c (cmd i),
          Event.release p c]) ∨
        (∃ p c i, evs = [Event.fetch key, Event.lease p (some c), Event.send c (cmd i),
          Event.recv c, Event.release p c])) := by
  rcases hf : env.fetch key w.st with ⟨_ | p, s1⟩
  · exact ⟨_, by simp [attempt, fetch, hf], Or.inl rfl⟩
  · rcases hl : env.acquire p s1 with ⟨_ | c, s2⟩
    · exact ⟨[Event.fetch key, Event.lease p none],
        by simp [attempt, fetch, hf, SafeConnection, acquire, hl, Except.toOption],
        Or.inr (Or.inl ⟨p, rfl⟩)⟩
    · have hlog : (attempt env cmd key w).2.log =
          (_command_connection env cmd c
            ⟨s2, w.log ++ [Event.fetch key, Event.lease p (some c)]⟩).2.log ++
            [Event.release p c] := by
        simp [attempt, fetch, hf, SafeConnection, acquire, hl, Except.toOption, release]
      rcases command_connection_shape env cmd c
          ⟨s2, w.log ++ [Event.fetch key, Event.lease p (some c)]⟩ with h | h
      · exact ⟨[Event.fetch key, Event.lease p (some c), Event.send c (cmd (sends w.log)),
          Event.release p c],
          by rw [hlog, h]; simp [sends_try], Or.inr (Or.inr (Or.inl ⟨p, c, _, rfl⟩))⟩
      · exact ⟨[Event.fetch key, Event.lease p (some c), Event.send c (cmd (sends w.log)),
          Event.recv c, Event.release p c],
          by rw [hlog, h]; simp [sends_try], Or.inr (Or.inr (Or.inr ⟨p, c, _, rfl⟩))⟩

/-- The events of the `AskError` clause, spelled out. -/
theorem askClause_shape (env : Env σ) (cmd : Cmd) (node : Node) (w : World σ) :
    ∃ evs, (askClause env cmd node w).2.log = w.log ++ evs ∧
      (evs = [Event.fetchNode node] ∨
        (∃ p, evs = [Event.fetchNode node, Event.lease p none]) ∨
        (∃ p c, evs = [Event.fetchNode node, Event.lease p (some c), Event.asking c,
          Event.release p c]) ∨
        (∃ p c i, evs = [Event.fetchNode node, Event.lease p (some c), Event.asking c,
          Event.send c (cmd i), Event.release p c]) ∨
        (∃ p c i, evs = [Event.fetchNode node, Event.lease p (some c), Event.asking c,
          Event.send c (cmd i), Event.recv c, Event.release p c])) := by
  rcases hf : env.fetchNode node w.st with ⟨_ | p, s1⟩
  · exact ⟨_, by simp [askClause, fetchNode, hf], Or.inl rfl⟩
  · rcases hl : env.acquire p s1 with ⟨_ | c, s2⟩
    · exact ⟨[Event.fetchNode node, Event.lease p none],
        by simp [askClause, fetchNode, hf, SafeConnection, acquire, hl, Except.toOption],
        Or.inr (Or.inl ⟨p, rfl⟩)⟩
    · rcases ha : env.asking c s2 with ⟨_ | _, s3⟩
      · exact ⟨[Event.fetchNode node, Event.lease p (some c), Event.asking c,
          Event.release p c],
          by simp [askClause, fetchNode, hf, SafeConnection, acquire, hl, Except.toOption,
            _asking, ha, release],
          Or.inr (Or.inr (Or.inl ⟨p, c, rfl⟩))⟩
      · have hlog : (askClause env cmd node w).2.log =
            (_command_connection env cmd c
              ⟨s3, w.log ++ [Event.fetchNode node, Event.lease p (some c), Event.asking c]⟩).2.log
              ++ [Event.release p c] := by
          simp [askClause, fetchNode, hf, SafeConnection, acquire, hl, Except.toOption, _asking,
            ha, release, resend_world]
        rcases command_connection_shape env cmd c
            ⟨s3, w.log ++ [Event.fetchNode node, Event.lease p (some c), Event.asking c]⟩
          with h | h
        · exact ⟨[Event.fetchNode node, Event.lease p (some c), Event.asking c,
            Event.send c (cmd (sends w.log)), Event.release p c],
            by rw [hlog, h]; simp [sends_ask],
            Or.inr (Or.inr (Or.inr (Or.inl ⟨p, c, _, rfl⟩)))⟩
        · exact ⟨[Event.fetchNode node, Event.lease p (some c), Event.asking c,
            Event.send c (cmd (sends w.log)), Event.recv c, Event.release p c],
            by rw [hlog, h]; simp [sends_ask],
            Or.inr (Or.inr (Or.inr (Or.inr ⟨p, c, _, rfl⟩)))⟩

theorem attempt_routed (env : Env σ) (cmd : Cmd) (key : StringView) (w : World σ) :
    ∃ evs, (attempt env cmd key w).2.log = w.log ++ evs ∧ Routed key cmd evs := by
  obtain ⟨evs, h1, h2⟩ := attempt_shape env cmd key w
  refine ⟨evs, h1, ?_⟩
  rcases h2 with h | ⟨p, h⟩ | ⟨p, c, i, h⟩ | ⟨p, c, i, h⟩ <;> subst h <;>
    exact ⟨by simp [fetched], by simp [sent]⟩

theorem catchClauses_routed (env : Env σ) (cmd : Cmd) (key : StringView) (e : Exn)
    (w : World σ) :
    ∃ evs, (catchClauses env cmd e w).2.log = w.log ++ evs ∧ Routed key cmd evs := by
  have hupd : (updateClause env w).2.log = w.log ++ [Event.update] ∧
      Routed key cmd [Event.update] :=
    ⟨updateClause_log env w, by simp [Routed, fetched, sent]⟩
  cases e with
  | IoError m => exact ⟨_, hupd⟩
  | ClosedError m => exact ⟨_, hupd⟩
  | MovedError sl nd => exact ⟨_, hupd⟩
  | AskError sl nd =>
    obtain ⟨evs, h1, h2⟩ := askClause_shape env cmd nd w
    refine ⟨evs, by rw [catch_ask_world]; exact h1, ?_⟩
    rcases h2 with h | ⟨p, h⟩ | ⟨p, c, h⟩ | ⟨p, c, i, h⟩ | ⟨p, c, i, h⟩ <;> subst h <;>
      exact ⟨by simp [fetched], by simp [sent]⟩
  | Error m => exact ⟨[], by simp [catchClauses], routed_nil key cmd⟩
  | Other cl m => exact ⟨[], by simp [catchClauses], routed_nil key cmd⟩

/-- Whatever the environment does, the loop resolves no key but `key` and sends no
argument list but those of calls of `cmd`. -/
theorem loop_routed (env : Env σ) (cmd : Cmd) (key : StringView) :
    ∀ (n : Nat) (w : World σ),
      ∃ evs, (_command_loop env cmd key n w).2.log = w.log ++ evs ∧ Routed key cmd evs := by
  intro n
  induction n with
  | zero => intro w; exact ⟨[], by simp [_command_loop], routed_nil key cmd⟩
  | succ n ih =>
    intro w
    obtain ⟨ea, ha, hta⟩ := attempt_routed env cmd key w
    rcases h : attempt env cmd key w with ⟨e | r, w1⟩
    · rw [h] at ha
      simp only at ha
      obtain ⟨ec, hc, htc⟩ := catchClauses_routed env cmd key e w1
      rcases hcl : catchClauses env cmd e w1 with ⟨e2 | (_ | r), w2⟩
      · rw [hcl] at hc
        simp only at hc
        exact ⟨ea ++ ec, by rw [loop_throws env cmd key n w w1 w2 e e2 h hcl]; simp [hc, ha],
          routed_append hta htc⟩
      · rw [hcl] at hc
        simp only at hc
        obtain ⟨ei, hi, hti⟩ := ih w2
        refine ⟨ea ++ ec ++ ei, ?_, routed_append (routed_append hta htc) hti⟩
        rw [loop_continues env cmd key n w w1 w2 e h hcl, hi, hc, ha]
        simp
      · rw [hcl] at hc
        simp only at hc
        exact ⟨ea ++ ec,
          by rw [loop_clause_returns env cmd key n w w1 w2 e r h hcl]; simp [hc, ha],
          routed_append hta htc⟩
    · rw [h] at ha
      simp only at ha
      exact ⟨ea, by rw [loop_returns env cmd key n w w1 r h]; exact ha, hta⟩

/-- A run of `_command` from the initial world resolves no key but its routing key
and sends no argument list but those of calls of its command. -/
theorem command_routed (env : Env σ) (cmd : Cmd) (key : StringView) (s0 : σ) :
    Routed key cmd (_command env cmd key (World.init s0)).2.log := by
  obtain ⟨evs, h1, h2⟩ := loop_routed env cmd key 2 (World.init s0)
  have : (_command env cmd key (World.init s0)).2.log = evs := by
    simpa [command_init, World.init] using h1
  rw [this]
  exact h2

/-- A run of `_command` from the initial world begins with the `fetch` of its
routing key and, when that yields a pool, the lease tried on that pool. -/
theorem command_begins (env : Env σ) (cmd : Cmd) (key : StringView) (s0 s1 : σ)
    (p : Pool) (hfetch : env.fetch key s0 = (.ok p, s1)) :
    ∃ c rest, (_command env cmd key (World.init s0)).2.log =
      Event.fetch key :: Event.lease p c :: rest := by
  have hatt : ∃ c rest, (attempt env cmd key (World.init s0)).2.log =
      Event.fetch key :: Event.lease p c :: rest := by
    rcases hl : env.acquire p s1 with ⟨e | c, s2⟩
    · exact ⟨none, [], by
        simp [attempt, fetch, World.init, hfetch, SafeConnection, acquire, hl, Except.toOption]⟩
    · have hlog : (attempt env cmd key (World.init s0)).2.log =
          (_command_connection env cmd c
            ⟨s2, [Event.fetch key, Event.lease p (some c)]⟩).2.log ++ [Event.release p c] := by
        simp [attempt, fetch, World.init, hfetch, SafeConnection, acquire, hl, Except.toOption,
          release]
      rcases command_connection_shape env cmd c
          ⟨s2, [Event.fetch key, Event.lease p (some c)]⟩ with h | h
      · exact ⟨some c, _, by rw [hlog, h]; rfl⟩
      · exact ⟨some c, _, by rw [hlog, h]; rfl⟩
  obtain ⟨c, rest, hrest⟩ := hatt
  have hext : ∃ more, (_command env cmd key (World.init s0)).2.log =
      (attempt env cmd key (World.init s0)).2.log ++ more := by
    rcases h : attempt env cmd key (World.init s0) with ⟨e | r, w1⟩
    · obtain ⟨ec, hc, _⟩ := catchClauses_tidy env cmd e w1
      rcases hcl : catchClauses env cmd e w1 with ⟨e2 | (_ | r), w2⟩
      · rw [hcl] at hc
        exact ⟨ec, by rw [command_init, loop_throws env cmd key 1 _ w1 w2 e e2 h hcl]; exact hc⟩
      · rw [hcl] at hc
        simp only at hc
        obtain ⟨ei, hi, _⟩ := loop_tidy env cmd key 1 w2
        exact ⟨ec ++ ei, by
          rw [command_init, loop_continues env cmd key 1 _ w1 w2 e h hcl, hi, hc]; simp⟩
      · rw [hcl] at hc
        exact ⟨ec, by
          rw [command_init, loop_clause_returns env cmd key 1 _ w1 w2 e r h hcl]; exact hc⟩
    · exact ⟨[], by rw [command_init, loop_returns env cmd key 1 _ w1 r h]; simp⟩
  obtain ⟨more, hmore⟩ := hext
  exact ⟨c, rest ++ more, by rw [hmore, hrest]; simp⟩

/-- An attempt begins with the `fetch` of the key, followed by no other `fetch`;
when the key resolves to a pool, the lease tried on that pool comes next. -/
theorem attempt_begins (env : Env σ) (cmd : Cmd) (key : StringView) (w : World σ) :
    ∃ rest, (attempt env cmd key w).2.log = w.log ++ Event.fetch key :: rest ∧
      attempts rest = 0 ∧
      ∀ p s1, env.fetch key w.st = (.ok p, s1) → ∃ c more, rest = Event.lease p c :: more := by
  rcases hf : env.fetch key w.st with ⟨e | p, s1⟩
  · exact ⟨[], by simp [attempt, fetch, hf], rfl, by intro q s h; simp at h⟩
  · rcases hl : env.acquire p s1 with ⟨e | c, s2⟩
    · refine ⟨[Event.lease p none],
        by simp [attempt, fetch, hf, SafeConnection, acquire, hl, Except.toOption],
        by simp [attempts, Event.isFetch], ?_⟩
      intro q s h
      simp only [Prod.mk.injEq, Except.ok.injEq] at h
      obtain ⟨rfl, _⟩ := h
      exact ⟨none, [], rfl⟩
    · have hlog : (attempt env cmd key w).2.log =
          (_command_connection env cmd c
            ⟨s2, w.log ++ [Event.fetch key, Event.lease p (some c)]⟩).2.log ++
            [Event.release p c] := by
        simp [attempt, fetch, hf, SafeConnection, acquire, hl, Except.toOption, release]
      have hq : ∀ (tail : List Event) (q : Pool) (s : σ),
          ((Except.ok p : Except Exn Pool), s1) = (.ok q, s) →
            ∃ c2 more, Event.lease p (some c) :: tail = Event.lease q c2 :: more := by
        intro tail q s h
        simp only [Prod.mk.injEq, Except.ok.injEq] at h
        obtain ⟨rfl, _⟩ := h
        exact ⟨some c, tail, rfl⟩
      rcases command_connection_shape env cmd c
          ⟨s2, w.log ++ [Event.fetch key, Event.lease p (some c)]⟩ with h | h
      · exact ⟨Event.lease p (some c) :: [Event.send c (cmd (sends w.log)), Event.release p c],
          by rw [hlog, h]; simp [sends_try], by simp [attempts, Event.isFetch], hq _⟩
      · exact ⟨Event.lease p (some c) ::
            [Event.send c (cmd (sends w.log)), Event.recv c, Event.release p c],
          by rw [hlog, h]; simp [sends_try], by simp [attempts, Event.isFetch], hq _⟩

/-- After a first attempt that failed with an exception of a refreshing class and
a refresh that returned, exactly one more attempt is made, whatever its outcome:
the first attempt started no refresh, the log goes on with one `update` and the
`fetch` of the key of the second attempt, and no further `fetch` of the key
follows; when the key resolves to a pool in the refreshed state, the lease is
tried on that pool. -/
theorem command_retry_log (env : Env σ) (cmd : Cmd) (key : StringView) (s0 s2 : σ)
    (e : Exn) (w1 : World σ) (he : e.refreshing = true)
    (hfail : attempt env cmd key (World.init s0) = (.error e, w1))
    (hupdate : env.update w1.st = (.ok (), s2)) :
    attempts (_command env cmd key (World.init s0)).2.log = 2 ∧
      refreshes w1.log = 0 ∧
      ∃ rest, (_command env cmd key (World.init s0)).2.log =
          w1.log ++ Event.update :: Event.fetch key :: rest ∧
        attempts rest = 0 ∧
        ∀ p s3, env.fetch key s2 = (.ok p, s3) → ∃ c more, rest = Event.lease p c :: more := by
  have hrun := command_retry env cmd key s0 s2 e w1 he hfail hupdate
  obtain ⟨ec, hc, hnc⟩ := loop_one_log env cmd key ⟨s2, w1.log ++ [Event.update]⟩
  obtain ⟨rest, hr, hnr, hp⟩ := attempt_begins env cmd key ⟨s2, w1.log ++ [Event.update]⟩
  have h1 : attempts w1.log = 1 := by
    obtain ⟨evs, h, _, hn⟩ := attempt_tidy env cmd key (World.init s0)
    rw [hfail] at h
    simp only [World.init, List.nil_append] at h
    rw [h]
    exact hn
  have hlog : (_command env cmd key (World.init s0)).2.log =
      w1.log ++ Event.update :: Event.fetch key :: (rest ++ ec) := by
    rw [hrun, hc, hr]
    simp
  refine ⟨?_, attempt_refreshes env cmd key _ w1 _ hfail, rest ++ ec, hlog,
    by rw [attempts_append]; omega, ?_⟩
  · rw [hlog]
    have h2 : attempts (Event.update :: Event.fetch key :: (rest ++ ec)) = 1 := by
      have : Event.update :: Event.fetch key :: (rest ++ ec) =
          [Event.update, Event.fetch key] ++ (rest ++ ec) := rfl
      rw [this, attempts_append, attempts_append, hnr, hnc]
      simp [attempts, Event.isFetch]
    rw [attempts_append, h1, h2]
  · intro p s3 h
    obtain ⟨c, more, hm⟩ := hp p s3 h
    exact ⟨c, more ++ ec, by rw [hm]; simp⟩

/-- The second attempt, when it returns a reply, decides: the reply is the result
and the refresh between the attempts is the only one. -/
theorem command_retry_returns (env : Env σ) (cmd : Cmd) (key : StringView) (s0 s2 : σ)
    (e : Exn) (w1 w3 : World σ) (r : Reply) (he : e.refreshing = true)
    (hfail : attempt env cmd key (World.init s0) = (.error e, w1))
    (hupdate : env.update w1.st = (.ok (), s2))
    (hsecond : attempt env cmd key ⟨s2, w1.log ++ [Event.update]⟩ = (.ok r, w3)) :
    _command env cmd key (World.init s0) = (.ok r, w3) ∧ refreshes w3.log = 1 := by
  have hrun := command_retry env cmd key s0 s2 e w1 he hfail hupdate
  rw [loop_returns env cmd key 0 _ _ r hsecond] at hrun
  refine ⟨hrun, ?_⟩
  rw [attempt_refreshes env cmd key _ w3 _ hsecond]
  show refreshes (w1.log ++ [Event.update]) = 1
  rw [refreshes_append, attempt_refreshes env cmd key _ w1 _ hfail]
  simp [refreshes, Event.isUpdate, World.init]

/-- An outer attempt ends in an `AskError` carrying `node`, the pool of `node`
leases a connection, and `ASKING`, the further call of `cmd` and `recv` return on
it: the reply is the result, and after the failed attempt the log holds the
`fetch` of the node, the lease, `_asking`, the send of what that further call of
`cmd` makes of the pack, the `recv` and the release. -/
theorem command_ask_reply (env : Env σ) (cmd : Cmd) (key : StringView) (s0 : σ)
    (w w1 : World σ) (slot : Nat) (node : Node) (p : Pool) (c : Conn) (r : Reply)
    (s2 s3 s4 s5 s6 : σ)
    (hstart : AttemptStart env cmd key s0 w)
    (hask : attempt env cmd key w = (.error (.AskError slot node), w1))
    (hfetch : env.fetchNode node w1.st = (.ok p, s2))
    (hlease : env.acquire p s2 = (.ok c, s3))
    (hasking : env.asking c s3 = (.ok (), s4))
    (hsend : env.send c (cmd (sends w1.log)) s4 = (.ok (), s5))
    (hrecv : env.recv c s5 = (.ok r, s6)) :
    _command env cmd key (World.init s0) =
      (.ok r, ⟨env.release p c s6,
        w1.log ++ [Event.fetchNode node, Event.lease p (some c), Event.asking c,
          Event.send c (cmd (sends w1.log)), Event.recv c, Event.release p c]⟩) := by
  obtain ⟨n, hn⟩ := command_of_attemptStart env cmd key s0 w hstart
  rw [hn]
  refine loop_clause_returns env cmd key n w w1 _ _ r hask ?_
  simp [catchClauses,
    askClause_reply env cmd node w1 p c r s2 s3 s4 s5 s6 hfetch hlease hasking hsend hrecv]

/-- The first attempt fails with an exception of a refreshing class, the refresh
returns and the second attempt ends in an `AskError`: the redirect is followed
all the same, and a normal reply of the resend is the result; the resend is one
send more than those of the two attempts, at most 3 in all. -/
theorem command_retry_ask_reply (env : Env σ) (cmd : Cmd) (key : StringView) (s0 : σ)
    (e1 : Exn) (w1 w3 : World σ) (slot : Nat) (node : Node) (p : Pool) (c : Conn) (r : Reply)
    (s2 s4 s5 s6 s7 s8 : σ)
    (he1 : e1.refreshing = true)
    (hfirst : attempt env cmd key (World.init s0) = (.error e1, w1))
    (hupdate : env.update w1.st = (.ok (), s2))
    (hask : attempt env cmd key ⟨s2, w1.log ++ [Event.update]⟩ =
      (.error (.AskError slot node), w3))
    (hfetch : env.fetchNode node w3.st = (.ok p, s4))
    (hlease : env.acquire p s4 = (.ok c, s5))
    (hasking : env.asking c s5 = (.ok (), s6))
    (hsend : env.send c (cmd (sends w3.log)) s6 = (.ok (), s7))
    (hrecv : env.recv c s7 = (.ok r, s8)) :
    _command env cmd key (World.init s0) =
        (.ok r, ⟨env.release p c s8,
          w3.log ++ [Event.fetchNode node, Event.lease p (some c), Event.asking c,
            Event.send c (cmd (sends w3.log)), Event.recv c, Event.release p c]⟩) ∧
      sends (_command env cmd key (World.init s0)).2.log = sends w3.log + 1 ∧
      sends (_command env cmd key (World.init s0)).2.log ≤ 3 := by
  have hrun := command_ask_reply env cmd key s0 ⟨s2, w1.log ++ [Event.update]⟩ w3 slot node
    p c r s4 s5 s6 s7 s8
    (Or.inr ⟨e1, w1, hfirst, by
      rw [catch_refreshing env cmd e1 w1 he1, updateClause_ok env w1 s2 hupdate]⟩)
    hask hfetch hlease hasking hsend hrecv
  have hs1 : sends w1.log ≤ 0 + 1 := attempt_sends env cmd key _ w1 _ hfirst
  have hs3 := attempt_sends env cmd key _ w3 _ hask
  have hlast : sends [Event.fetchNode node, Event.lease p (some c), Event.asking c,
      Event.send c (cmd (sends w3.log)), Event.recv c, Event.release p c] = 1 := by
    simp [sends, Event.isSend]
  simp only [sends_update] at hs3
  refine ⟨hrun, ?_, ?_⟩
  · rw [hrun]
    show sends (w3.log ++ _) = _
    rw [sends_append, hlast]
  · rw [hrun]
    show sends (w3.log ++ _) ≤ 3
    rw [sends_append, hlast]
    omega

/-- The first attempt leases a connection and gets a reply: the reply is the
result, after one `fetch`, one lease, one send, one `recv` and the release. -/
theorem command_first_reply (env : Env σ) (cmd : Cmd) (key : StringView)
    (s0 s1 s2 s3 s4 : σ) (p : Pool) (c : Conn) (r : Reply)
    (hfetch : env.fetch key s0 = (.ok p, s1))
    (hlease : env.acquire p s1 = (.ok c, s2))
    (hsend : env.send c (cmd 0) s2 = (.ok (), s3))
    (hrecv : env.recv c s3 = (.ok r, s4)) :
    _command env cmd key (World.init s0) =
      (.ok r, ⟨env.release p c s4,
        [Event.fetch key, Event.lease p (some c), Event.send c (cmd 0), Event.recv c,
          Event.release p c]⟩) := by
  have h := attempt_ok env cmd key (World.init s0) p c r s1 s2 s3 s4 hfetch hlease hsend hrecv
  have hrun := loop_returns env cmd key 1 _ _ r h
  simp only [World.init, List.nil_append, sends_nil] at hrun
  exact hrun

/-- A run of `_command` from the initial world is routed by its routing key. -/
theorem command_routed_by (env : Env σ) (cmd : Cmd) (key : StringView) (s0 : σ) :
    RoutedBy env key s0 (_command env cmd key (World.init s0)).2.log :=
  ⟨(command_routed env cmd key s0).1, fun p s1 h => command_begins env cmd key s0 s1 p h⟩

theorem append_range_eq (acc : CmdArgs) (range : List StringView) :
    append_range acc range = acc ++ range := by
  induction range generalizing acc with
  | nil => simp [append_range]
  | cons x rest ih => simp [append_range, ih]

theorem parsed_world {ρ : Type} (parse : Reply → Except Exn ρ) (r : Res σ Reply) :
    (parsed parse r).2 = r.2 := by
  rcases r with ⟨_ | _, _⟩ <;> rfl

theorem written_world {β : Type} (to_array : Reply → Except Exn Unit × List β)
    (r : Res σ Reply) : (written to_array r).1.2 = r.2 := by
  rcases r with ⟨_ | _, _⟩ <;> rfl

theorem written_unless_nil_safe {β : Type} (is_nil : Reply → Bool)
    (to_array : Reply → Except Exn Unit × List β) (r : Res σ Reply) :
    NilSafe is_nil to_array r (written_unless_nil is_nil to_array r) := by
  intro reply w1 h
  subst h
  constructor
  · intro hn
    simp [written_unless_nil, hn]
  · intro hn
    simp [written_unless_nil, hn]

end Lemmas

/-! The claims. -/

section Claims
variable {σ : Type}

/-- C1: when, on the first attempt, the pool resolved for the key leases a
connection, the command is sent and the connection returns a normal reply, the
keyed `_command` returns exactly that reply; the calls made are one `fetch` of the
key, one lease from that pool, one send and one `recv` on the leased connection
and its release: the command was sent exactly once (what the first call of the
callable puts on the wire), to that pool only, and the topology was not
refreshed. -/
theorem command_first_attempt_reply (env : Env σ) (cmd : Cmd) (key : StringView)
    (s0 s1 s2 s3 s4 : σ) (p : Pool) (c : Conn) (r : Reply)
    (hfetch : env.fetch key s0 = (.ok p, s1))
    (hlease : env.acquire p s1 = (.ok c, s2))
    (hsend : env.send c (cmd 0) s2 = (.ok (), s3))
    (hrecv : env.recv c s3 = (.ok r, s4)) :
    _command env cmd key (World.init s0) =
        (.ok r, ⟨env.release p c s4,
          [Event.fetch key, Event.lease p (some c), Event.send c (cmd 0), Event.recv c,
            Event.release p c]⟩) ∧
      sends (_command env cmd key (World.init s0)).2.log = 1 ∧
      refreshes (_command env cmd key (World.init s0)).2.log = 0 := by
  have h := attempt_ok env cmd key (World.init s0) p c r s1 s2 s3 s4 hfetch hlease hsend hrecv
  have hrun := loop_returns env cmd key 1 _ _ r h
  simp only [World.init, List.nil_append, sends_nil] at hrun
  refine ⟨hrun, ?_, ?_⟩
  · rw [command_init, World.init, hrun]
    simp [sends, Event.isSend]
  · rw [command_init, World.init, hrun]
    simp [refreshes, Event.isUpdate]

/-- C1 on the healthy cluster: `GET foo` is answered `bar` by pool 0 at the first attempt. -/
theorem command_first_attempt_reply_witness :
    _command (cluster healthy) (reads getFoo) "foo" (World.init 0) =
        (.ok (.str "bar"),
          ⟨0, [Event.fetch "foo", Event.lease 0 (some 0), Event.send 0 getFoo, Event.recv 0,
            Event.release 0 0]⟩) ∧
      sends (_command (cluster healthy) (reads getFoo) "foo" (World.init 0)).2.log = 1 ∧
      refreshes (_command (cluster healthy) (reads getFoo) "foo" (World.init 0)).2.log = 0 :=
  command_first_attempt_reply (cluster healthy) (reads getFoo) "foo" 0 0 0 0 0 0 0 (.str "bar")
    rfl rfl rfl rfl

/-- C2: when the first attempt fails with a `MovedError` and the refresh it
triggers returns, the keyed `_command` makes exactly one more attempt, whatever
the outcome of that attempt: the log holds two `fetch` of the key in all; the
first attempt started no refresh, and after it the log goes on with one `update`
followed at once by the `fetch` of the same key, in the refreshed state, and by
no further `fetch`; the lease is tried on the pool resolved there.  When that
attempt returns a normal reply, the reply is the result and the topology was
refreshed exactly once.  The retry is one more call of the command callable on
the pack forwarded again: what it sends is `cmd (sends w1.log)`, the list the
callable makes of the pack after the calls of the first attempt. -/
theorem command_moved_retry (env : Env σ) (cmd : Cmd) (key : StringView) (s0 : σ)
    (slot : Nat) (node : Node) (w1 : World σ) (s2 : σ)
    (hmoved : attempt env cmd key (World.init s0) = (.error (.MovedError slot node), w1))
    (hupdate : env.update w1.st = (.ok (), s2)) :
    attempts (_command env cmd key (World.init s0)).2.log = 2 ∧
      refreshes w1.log = 0 ∧
      (∃ rest, (_command env cmd key (World.init s0)).2.log =
          w1.log ++ Event.update :: Event.fetch key :: rest ∧
        attempts rest = 0 ∧
        ∀ p s3, env.fetch key s2 = (.ok p, s3) → ∃ c more, rest = Event.lease p c :: more) ∧
      (∀ (r : Reply) (w3 : World σ),
        attempt env cmd key ⟨s2, w1.log ++ [Event.update]⟩ = (.ok r, w3) →
        _command env cmd key (World.init s0) = (.ok r, w3) ∧ refreshes w3.log = 1) ∧
      (∀ (p : Pool) (c : Conn) (r : Reply) (s3 s4 s5 s6 : σ),
        env.fetch key s2 = (.ok p, s3) →
        env.acquire p s3 = (.ok c, s4) →
        env.send c (cmd (sends w1.log)) s4 = (.ok (), s5) →
        env.recv c s5 = (.ok r, s6) →
        _command env cmd key (World.init s0) =
            (.ok r, ⟨env.release p c s6,
              w1.log ++ [Event.update, Event.fetch key, Event.lease p (some c),
                Event.send c (cmd (sends w1.log)), Event.recv c, Event.release p c]⟩) ∧
          refreshes (_command env cmd key (World.init s0)).2.log = 1 ∧
          sends (_command env cmd key (World.init s0)).2.log ≤ 2) := by
  obtain ⟨h1, h2, h3⟩ :=
    command_retry_log env cmd key s0 s2 (.MovedError slot node) w1 rfl hmoved hupdate
  refine ⟨h1, h2, h3, ?_, ?_⟩
  · intro r w3 h
    exact command_retry_returns env cmd key s0 s2 (.MovedError slot node) w1 w3 r rfl hmoved
      hupdate h
  · intro p c r s3 s4 s5 s6 hf hl hs hr
    exact command_retry_reply env cmd key s0 (.MovedError slot node) w1 p c r s2 s3 s4 s5 s6 rfl
      hmoved hupdate hf hl hs hr

/-- C2 on a cluster whose pool 0 answers `MOVED 42 10.0.0.2:7001`: after one refresh
the key resolves to pool 1, which answers `bar`; two attempts were made. -/
theorem command_moved_retry_witness :
    attempts (_command (cluster (failsFirst (.MovedError 42 nodeB))) (reads getFoo) "foo"
        (World.init 0)).2.log = 2 ∧
      _command (cluster (failsFirst (.MovedError 42 nodeB))) (reads getFoo) "foo"
          (World.init 0) =
        (.ok (.str "bar"),
          ⟨1, [Event.fetch "foo", Event.lease 0 (some 0), Event.send 0 getFoo, Event.recv 0,
              Event.release 0 0] ++
            [Event.update, Event.fetch "foo", Event.lease 1 (some 1), Event.send 1 getFoo,
              Event.recv 1, Event.release 1 1]⟩) :=
  have h := command_moved_retry (cluster (failsFirst (.MovedError 42 nodeB))) (reads getFoo)
    "foo" 0 42 nodeB
    ⟨0, [Event.fetch "foo", Event.lease 0 (some 0), Event.send 0 getFoo, Event.recv 0,
      Event.release 0 0]⟩ 1 rfl rfl
  ⟨h.1, (h.2.2.2.2 1 1 (.str "bar") 1 1 1 1 rfl rfl rfl rfl).1⟩

/-- C3: when the first attempt fails with an `IoError` and the refresh it triggers
returns, the keyed `_command` retries the dispatch exactly once, whatever the
outcome of the retry: the log holds two `fetch` of the key in all; the first
attempt started no refresh, and after it the log goes on with one `update`
followed at once by the `fetch` of the key and by no further `fetch`; the lease
is tried on the pool resolved there.  When the retry returns a normal reply, the
reply is the result and the topology was refreshed exactly once.  The retry is
one more call of the command callable on the pack forwarded again: what it sends
is `cmd (sends w1.log)`, the list the callable makes of the pack after the calls
of the first attempt. -/
theorem command_io_retry (env : Env σ) (cmd : Cmd) (key : StringView) (s0 : σ)
    (what : String) (w1 : World σ) (s2 : σ)
    (hio : attempt env cmd key (World.init s0) = (.error (.IoError what), w1))
    (hupdate : env.update w1.st = (.ok (), s2)) :
    attempts (_command env cmd key (World.init s0)).2.log = 2 ∧
      refreshes w1.log = 0 ∧
      (∃ rest, (_command env cmd key (World.init s0)).2.log =
          w1.log ++ Event.update :: Event.fetch key :: rest ∧
        attempts rest = 0 ∧
        ∀ p s3, env.fetch key s2 = (.ok p, s3) → ∃ c more, rest = Event.lease p c :: more) ∧
      (∀ (r : Reply) (w3 : World σ),
        attempt env cmd key ⟨s2, w1.log ++ [Event.update]⟩ = (.ok r, w3) →
        _command env cmd key (World.init s0) = (.ok r, w3) ∧ refreshes w3.log = 1) ∧
      (∀ (p : Pool) (c : Conn) (r : Reply) (s3 s4 s5 s6 : σ),
        env.fetch key s2 = (.ok p, s3) →
        env.acquire p s3 = (.ok c, s4) →
        env.send c (cmd (sends w1.log)) s4 = (.ok (), s5) →
        env.recv c s5 = (.ok r, s6) →
        _command env cmd key (World.init s0) =
            (.ok r, ⟨env.release p c s6,
              w1.log ++ [Event.update, Event.fetch key, Event.lease p (some c),
                Event.send c (cmd (sends w1.log)), Event.recv c, Event.release p c]⟩) ∧
          refreshes (_command env cmd key (World.init s0)).2.log = 1 ∧
          sends (_command env cmd key (World.init s0)).2.log ≤ 2) := by
  obtain ⟨h1, h2, h3⟩ :=
    command_retry_log env cmd key s0 s2 (.IoError what) w1 rfl hio hupdate
  refine ⟨h1, h2, h3, ?_, ?_⟩
  · intro r w3 h
    exact command_retry_returns env cmd key s0 s2 (.IoError what) w1 w3 r rfl hio hupdate h
  · intro p c r s3 s4 s5 s6 hf hl hs hr
    exact command_retry_reply env cmd key s0 (.IoError what) w1 p c r s2 s3 s4 s5 s6 rfl
      hio hupdate hf hl hs hr

/-- C3 on a cluster whose pool 0 fails with an `IoError`, with a callable that
consumed its value argument at the first call: after one refresh the key resolves
to pool 1, the retry is sent there with the value found empty, and pool 1 answers
`bar`; two attempts were made. -/
theorem command_io_retry_witness :
    attempts (_command (cluster (failsFirst (.IoError "Failed to get reply"))) setFooBar "foo"
        (World.init 0)).2.log = 2 ∧
      _command (cluster (failsFirst (.IoError "Failed to get reply"))) setFooBar "foo"
          (World.init 0) =
        (.ok (.str "bar"),
          ⟨1, [Event.fetch "foo", Event.lease 0 (some 0), Event.send 0 ["SET", "foo", "bar"],
              Event.recv 0, Event.release 0 0] ++
            [Event.update, Event.fetch "foo", Event.lease 1 (some 1),
              Event.send 1 ["SET", "foo", ""], Event.recv 1, Event.release 1 1]⟩) :=
  have h := command_io_retry (cluster (failsFirst (.IoError "Failed to get reply"))) setFooBar
    "foo" 0 "Failed to get reply"
    ⟨0, [Event.fetch "foo", Event.lease 0 (some 0), Event.send 0 ["SET", "foo", "bar"],
      Event.recv 0, Event.release 0 0]⟩ 1 rfl rfl
  ⟨h.1, (h.2.2.2.2 1 1 (.str "bar") 1 1 1 1 rfl rfl rfl rfl).1⟩

/-- C4: in an environment where no attempt ends in an `AskError`, the keyed
`_command` puts the command on the wire at most 2 times; and when both attempts
fail with an `IoError` (each refresh in between returning), it returns no reply:
it throws the final `Error` of the dispatcher. -/
theorem command_sends_le_two (env : Env σ) (cmd : Cmd) (key : StringView) (s0 : σ)
    (hNoAsk : ∀ w slot node w1, attempt env cmd key w ≠ (.error (.AskError slot node), w1)) :
    sends (_command env cmd key (World.init s0)).2.log ≤ 2 ∧
      ∀ (what1 what2 : String) (w1 w3 : World σ) (s2 s4 : σ),
        attempt env cmd key (World.init s0) = (.error (.IoError what1), w1) →
        env.update w1.st = (.ok (), s2) →
        attempt env cmd key ⟨s2, w1.log ++ [Event.update]⟩ = (.error (.IoError what2), w3) →
        env.update w3.st = (.ok (), s4) →
        (∀ r, (_command env cmd key (World.init s0)).1 ≠ .ok r) ∧
          _command env cmd key (World.init s0) =
            (.error (.Error ("Failed to send command with key: " ++ key)),
              ⟨s4, w3.log ++ [Event.update]⟩) := by
  constructor
  · have h := loop_sends_le env cmd key hNoAsk 2 (World.init s0)
    simpa [_command, World.init, sends] using h
  · intro what1 what2 w1 w3 s2 s4 h1 hu1 h2 hu2
    have hrun := command_two_failures env cmd key s0 s2 s4 (.IoError what1) (.IoError what2)
      w1 w3 rfl rfl h1 hu1 h2 hu2
    refine ⟨?_, hrun⟩
    intro r hr
    rw [hrun] at hr
    exact Except.noConfusion hr

/-- C4 on a cluster every connection of which fails with an `IoError`: no attempt
ends in an `AskError`, at most two sends are made, and the final `Error` is thrown
after the second refresh. -/
theorem command_sends_le_two_witness :
    sends (_command (cluster (failsAlways (.IoError "Failed to get reply"))) (reads getFoo) "foo"
        (World.init 0)).2.log ≤ 2 ∧
      ((∀ r, (_command (cluster (failsAlways (.IoError "Failed to get reply"))) (reads getFoo) "foo"
          (World.init 0)).1 ≠ .ok r) ∧
        _command (cluster (failsAlways (.IoError "Failed to get reply"))) (reads getFoo) "foo"
            (World.init 0) =
          (.error (.Error ("Failed to send command with key: " ++ "foo")),
            ⟨2, [Event.fetch "foo", Event.lease 0 (some 0), Event.send 0 getFoo, Event.recv 0,
                Event.release 0 0, Event.update, Event.fetch "foo", Event.lease 1 (some 1),
                Event.send 1 getFoo, Event.recv 1, Event.release 1 1] ++ [Event.update]⟩)) :=
  have h := command_sends_le_two (cluster (failsAlways (.IoError "Failed to get reply")))
    (reads getFoo) "foo" 0
    (by
      intro w slot node w1 h
      simp [attempt, fetch, SafeConnection, acquire, _command_connection, send, recv, cluster,
        failsAlways] at h)
  ⟨h.1, h.2 "Failed to get reply" "Failed to get reply"
    ⟨0, [Event.fetch "foo", Event.lease 0 (some 0), Event.send 0 getFoo, Event.recv 0,
      Event.release 0 0]⟩
    ⟨1, [Event.fetch "foo", Event.lease 0 (some 0), Event.send 0 getFoo, Event.recv 0,
      Event.release 0 0, Event.update, Event.fetch "foo", Event.lease 1 (some 1),
      Event.send 1 getFoo, Event.recv 1, Event.release 1 1]⟩ 1 2 rfl rfl rfl rfl⟩

/-- C5: when both outer attempts fail, each with an `IoError`, a `ClosedError` or a
`MovedError` in any combination (each refresh in between returning), the keyed
`_command` throws an `Error` whose message is "Failed to send command with key: "
followed by the routing key; it is the exception of neither attempt. -/
theorem command_budget_exhausted (env : Env σ) (cmd : Cmd) (key : StringView)
    (s0 s2 s4 : σ) (e1 e2 : Exn) (w1 w3 : World σ)
    (he1 : e1.refreshing = true) (he2 : e2.refreshing = true)
    (hfirst : attempt env cmd key (World.init s0) = (.error e1, w1))
    (hupdate1 : env.update w1.st = (.ok (), s2))
    (hsecond : attempt env cmd key ⟨s2, w1.log ++ [Event.update]⟩ = (.error e2, w3))
    (hupdate2 : env.update w3.st = (.ok (), s4)) :
    _command env cmd key (World.init s0) =
        (.error (.Error ("Failed to send command with key: " ++ key)),
          ⟨s4, w3.log ++ [Event.update]⟩) ∧
      (_command env cmd key (World.init s0)).1 ≠ .error e1 ∧
      (_command env cmd key (World.init s0)).1 ≠ .error e2 := by
  have hrun := command_two_failures env cmd key s0 s2 s4 e1 e2 w1 w3 he1 he2 hfirst hupdate1
    hsecond hupdate2
  refine ⟨hrun, ?_, ?_⟩
  · rw [hrun]
    intro h
    cases e1 <;> simp_all [Exn.refreshing]
  · rw [hrun]
    intro h
    cases e2 <;> simp_all [Exn.refreshing]

/-- C5 on a cluster whose pool 0 closes the connection and whose other pools answer
`MOVED`: the error names the key `foo`. -/
theorem command_budget_exhausted_witness :
    _command (cluster (failsTwice (.ClosedError "Connection is broken") (.MovedError 42 nodeB)))
        (reads getFoo) "foo" (World.init 0) =
        (.error (.Error ("Failed to send command with key: " ++ "foo")),
          ⟨2, [Event.fetch "foo", Event.lease 0 (some 0), Event.send 0 getFoo, Event.recv 0,
              Event.release 0 0, Event.update, Event.fetch "foo", Event.lease 1 (some 1),
              Event.send 1 getFoo, Event.recv 1, Event.release 1 1] ++ [Event.update]⟩) ∧
      (_command (cluster (failsTwice (.ClosedError "Connection is broken")
        (.MovedError 42 nodeB))) (reads getFoo) "foo" (World.init 0)).1 ≠
          .error (.ClosedError "Connection is broken") ∧
      (_command (cluster (failsTwice (.ClosedError "Connection is broken")
        (.MovedError 42 nodeB))) (reads getFoo) "foo" (World.init 0)).1 ≠
          .error (.MovedError 42 nodeB) :=
  command_budget_exhausted
    (cluster (failsTwice (.ClosedError "Connection is broken") (.MovedError 42 nodeB)))
    (reads getFoo) "foo" 0 1 2 (.ClosedError "Connection is broken") (.MovedError 42 nodeB)
    ⟨0, [Event.fetch "foo", Event.lease 0 (some 0), Event.send 0 getFoo, Event.recv 0,
      Event.release 0 0]⟩
    ⟨1, [Event.fetch "foo", Event.lease 0 (some 0), Event.send 0 getFoo, Event.recv 0,
      Event.release 0 0, Event.update, Event.fetch "foo", Event.lease 1 (some 1),
      Event.send 1 getFoo, Event.recv 1, Event.release 1 1]⟩
    rfl rfl rfl rfl rfl rfl

/-- C6, against the claim: on a cluster whose pool 0 closes the connection, the
first attempt fails with a `ClosedError`, and yet the keyed `_command` sends the
command a second time (to pool 1, after the refresh) and returns the reply `bar`:
the failure is not visible to the caller. -/
theorem closed_error_is_retried :
    attempt (cluster (failsFirst (.ClosedError "Connection is broken"))) (reads getFoo) "foo"
        (World.init 0) =
        (.error (.ClosedError "Connection is broken"),
          ⟨0, [Event.fetch "foo", Event.lease 0 (some 0), Event.send 0 getFoo, Event.recv 0,
            Event.release 0 0]⟩) ∧
      _command (cluster (failsFirst (.ClosedError "Connection is broken"))) (reads getFoo) "foo"
        (World.init 0) =
        (.ok (.str "bar"),
          ⟨1, [Event.fetch "foo", Event.lease 0 (some 0), Event.send 0 getFoo, Event.recv 0,
            Event.release 0 0, Event.update, Event.fetch "foo", Event.lease 1 (some 1),
            Event.send 1 getFoo, Event.recv 1, Event.release 1 1]⟩) ∧
      sends (_command (cluster (failsFirst (.ClosedError "Connection is broken"))) (reads getFoo) "foo"
        (World.init 0)).2.log = 2 :=
  ⟨rfl, rfl, rfl⟩

/-- C6, amended: a `ClosedError` is handled like an `IoError`.  When the first
attempt fails with a `ClosedError` and the refresh it triggers returns, the keyed
`_command` retries once: the command callable is called again, with the pack
forwarded again, on a connection of the pool resolved after the refresh (what is
sent is `cmd (sends w1.log)`, the list the callable makes of the pack after the
calls of the first attempt), and a normal reply of the retry is the result.  When
it is the second attempt that fails with a `ClosedError`, the topology is
refreshed, nothing is sent any more and the caller gets the final `Error` naming
the key. -/
theorem closed_error_refresh_and_budget (env : Env σ) (cmd : Cmd) (key : StringView)
    (s0 : σ) :
    (∀ (what : String) (w1 : World σ) (p : Pool) (c : Conn) (r : Reply) (s2 s3 s4 s5 s6 : σ),
        attempt env cmd key (World.init s0) = (.error (.ClosedError what), w1) →
        env.update w1.st = (.ok (), s2) →
        env.fetch key s2 = (.ok p, s3) →
        env.acquire p s3 = (.ok c, s4) →
        env.send c (cmd (sends w1.log)) s4 = (.ok (), s5) →
        env.recv c s5 = (.ok r, s6) →
        _command env cmd key (World.init s0) =
          (.ok r, ⟨env.release p c s6,
            w1.log ++ [Event.update, Event.fetch key, Event.lease p (some c),
              Event.send c (cmd (sends w1.log)), Event.recv c, Event.release p c]⟩)) ∧
      (∀ (e1 : Exn) (what : String) (w1 w3 : World σ) (s2 s4 : σ),
        e1.refreshing = true →
        attempt env cmd key (World.init s0) = (.error e1, w1) →
        env.update w1.st = (.ok (), s2) →
        attempt env cmd key ⟨s2, w1.log ++ [Event.update]⟩ = (.error (.ClosedError what), w3) →
        env.update w3.st = (.ok (), s4) →
        _command env cmd key (World.init s0) =
          (.error (.Error ("Failed to send command with key: " ++ key)),
            ⟨s4, w3.log ++ [Event.update]⟩)) := by
  constructor
  · intro what w1 p c r s2 s3 s4 s5 s6 h1 hu hf hl hs hr
    exact (command_retry_reply env cmd key s0 (.ClosedError what) w1 p c r s2 s3 s4 s5 s6 rfl
      h1 hu hf hl hs hr).1
  · intro e1 what w1 w3 s2 s4 he1 h1 hu1 h2 hu2
    exact command_two_failures env cmd key s0 s2 s4 e1 (.ClosedError what) w1 w3 he1 rfl
      h1 hu1 h2 hu2

/-- C6, amended, on two clusters: pool 0 closes the connection and pool 1 answers
`bar`; and pool 0 fails with an `IoError` and pool 1 closes the connection. -/
theorem closed_error_refresh_and_budget_witness :
    _command (cluster (failsFirst (.ClosedError "Connection is broken"))) (reads getFoo) "foo"
        (World.init 0) =
        (.ok (.str "bar"),
          ⟨1, [Event.fetch "foo", Event.lease 0 (some 0), Event.send 0 getFoo, Event.recv 0,
              Event.release 0 0] ++
            [Event.update, Event.fetch "foo", Event.lease 1 (some 1), Event.send 1 getFoo,
              Event.recv 1, Event.release 1 1]⟩) ∧
      _command (cluster (failsTwice (.IoError "Failed to get reply")
          (.ClosedError "Connection is broken"))) (reads getFoo) "foo" (World.init 0) =
        (.error (.Error ("Failed to send command with key: " ++ "foo")),
          ⟨2, [Event.fetch "foo", Event.lease 0 (some 0), Event.send 0 getFoo, Event.recv 0,
              Event.release 0 0, Event.update, Event.fetch "foo", Event.lease 1 (some 1),
              Event.send 1 getFoo, Event.recv 1, Event.release 1 1] ++ [Event.update]⟩) :=
  ⟨(closed_error_refresh_and_budget (cluster (failsFirst (.ClosedError "Connection is broken")))
      (reads getFoo) "foo" 0).1 "Connection is broken"
      ⟨0, [Event.fetch "foo", Event.lease 0 (some 0), Event.send 0 getFoo, Event.recv 0,
        Event.release 0 0]⟩ 1 1 (.str "bar") 1 1 1 1 1 rfl rfl rfl rfl rfl rfl,
    (closed_error_refresh_and_budget (cluster (failsTwice (.IoError "Failed to get reply")
      (.ClosedError "Connection is broken"))) (reads getFoo) "foo" 0).2
      (.IoError "Failed to get reply") "Connection is broken"
      ⟨0, [Event.fetch "foo", Event.lease 0 (some 0), Event.send 0 getFoo, Event.recv 0,
        Event.release 0 0]⟩
      ⟨1, [Event.fetch "foo", Event.lease 0 (some 0), Event.send 0 getFoo, Event.recv 0,
        Event.release 0 0, Event.update, Event.fetch "foo", Event.lease 1 (some 1),
        Event.send 1 getFoo, Event.recv 1, Event.release 1 1]⟩ 1 2 rfl rfl rfl rfl rfl⟩

/-- C7, at an input on which the code departs from the claim: `SET foo bar` is
sent through a callable that takes the value by value, the value passed as an
rvalue, on a cluster whose pool 0 answers `ASK 42 10.0.0.3:7002` and whose node
`10.0.0.3:7002` answers `bar`.  The pool of the node is resolved by its address, one
connection is leased from it, `ASKING` and then one command are sent on that
connection and the reply is returned, as the claim says; but the pack is forwarded
a second time for the resend, the first call has moved the value out of it, and
the command resent is `SET foo` with an empty value, not the original command. -/
theorem ask_resend_sends_consumed_arguments :
    _command (cluster (asksThen (.ok (.str "bar")))) setFooBar "foo" (World.init 0) =
        (.ok (.str "bar"),
          ⟨0, [Event.fetch "foo", Event.lease 0 (some 0), Event.send 0 ["SET", "foo", "bar"],
            Event.recv 0, Event.release 0 0, Event.fetchNode nodeC,
            Event.lease 7002 (some 7002), Event.asking 7002,
            Event.send 7002 ["SET", "foo", ""], Event.recv 7002, Event.release 7002 7002]⟩) ∧
      sent (_command (cluster (asksThen (.ok (.str "bar")))) setFooBar "foo"
        (World.init 0)).2.log = [["SET", "foo", "bar"], ["SET", "foo", ""]] ∧
      setFooBar 1 ≠ setFooBar 0 :=
  ⟨rfl, rfl, by decide⟩

/-- C8: when an outer attempt fails with an `AskError`, the pool of its node leases
a connection, `ASKING` is sent, and the resend of the command on that
connection ends in a `MovedError`, the keyed `_command` throws the `Error` "Slot
migrating... ASKING node hasn't been set to IMPORTING state".  Nothing is called
after the resend but the release of the connection: no refresh is started and no
further attempt is made. -/
theorem command_ask_then_moved (env : Env σ) (cmd : Cmd) (key : StringView) (s0 : σ)
    (w w1 w5 : World σ) (slot slot2 : Nat) (node node2 : Node) (p : Pool) (c : Conn)
    (s2 s3 s4 : σ)
    (hstart : AttemptStart env cmd key s0 w)
    (hask : attempt env cmd key w = (.error (.AskError slot node), w1))
    (hfetch : env.fetchNode node w1.st = (.ok p, s2))
    (hlease : env.acquire p s2 = (.ok c, s3))
    (hasking : env.asking c s3 = (.ok (), s4))
    (hmoved : _command_connection env cmd c
        ⟨s4, w1.log ++ [Event.fetchNode node, Event.lease p (some c), Event.asking c]⟩ =
      (.error (.MovedError slot2 node2), w5)) :
    _command env cmd key (World.init s0) =
        (.error (.Error "Slot migrating... ASKING node hasn't been set to IMPORTING state"),
          ⟨env.release p c w5.st, w5.log ++ [Event.release p c]⟩) ∧
      refreshes (_command env cmd key (World.init s0)).2.log = refreshes w1.log := by
  have hrun := command_ask_throws env cmd key s0 w w1
    ⟨env.release p c w5.st, w5.log ++ [Event.release p c]⟩ slot node
    (.Error "Slot migrating... ASKING node hasn't been set to IMPORTING state") hstart hask
    (by
      rw [askClause_resend env cmd node w1 p c s2 s3 s4 hfetch hlease hasking]
      simp [resend, hmoved, release])
  refine ⟨hrun, ?_⟩
  rw [hrun]
  have h5 := command_connection_refreshes env cmd c _ w5 _ hmoved
  show refreshes (w5.log ++ [Event.release p c]) = _
  rw [refreshes_append, h5]
  simp [refreshes, Event.isUpdate]

/-- C8 on a cluster whose pool 0 answers `ASK 42 10.0.0.3:7002` and whose node
`10.0.0.3:7002` answers `MOVED 42 10.0.0.2:7001`. -/
theorem command_ask_then_moved_witness :
    _command (cluster (asksThen (.error (.MovedError 42 nodeB)))) (reads getFoo) "foo" (World.init 0) =
        (.error (.Error "Slot migrating... ASKING node hasn't been set to IMPORTING state"),
          ⟨0, [Event.fetch "foo", Event.lease 0 (some 0), Event.send 0 getFoo, Event.recv 0,
              Event.release 0 0, Event.fetchNode nodeC, Event.lease 7002 (some 7002),
              Event.asking 7002, Event.send 7002 getFoo, Event.recv 7002] ++
            [Event.release 7002 7002]⟩) ∧
      refreshes (_command (cluster (asksThen (.error (.MovedError 42 nodeB)))) (reads getFoo) "foo"
        (World.init 0)).2.log =
      refreshes [Event.fetch "foo", Event.lease 0 (some 0), Event.send 0 getFoo, Event.recv 0,
        Event.release 0 0] :=
  command_ask_then_moved (cluster (asksThen (.error (.MovedError 42 nodeB)))) (reads getFoo) "foo" 0
    (World.init 0)
    ⟨0, [Event.fetch "foo", Event.lease 0 (some 0), Event.send 0 getFoo, Event.recv 0,
      Event.release 0 0]⟩
    ⟨0, [Event.fetch "foo", Event.lease 0 (some 0), Event.send 0 getFoo, Event.recv 0,
      Event.release 0 0, Event.fetchNode nodeC, Event.lease 7002 (some 7002),
      Event.asking 7002, Event.send 7002 getFoo, Event.recv 7002]⟩
    42 42 nodeC nodeB 7002 7002 0 0 0 (Or.inl rfl) rfl rfl rfl rfl rfl

/-- C9, against the claim: on a cluster whose pool 0 answers `ASK 42 10.0.0.3:7002`
and whose node `10.0.0.3:7002` answers the resend with `ASK 42 10.0.0.2:7001`, the
first attempt fails with an `AskError`, the resend ends in a second `AskError`,
and the keyed `_command` throws that second `AskError` itself, not the `Error` of
the migration inconsistency. -/
theorem second_ask_is_surfaced :
    attempt (cluster (asksThen (.error (.AskError 42 nodeB)))) (reads getFoo) "foo" (World.init 0) =
        (.error (.AskError 42 nodeC),
          ⟨0, [Event.fetch "foo", Event.lease 0 (some 0), Event.send 0 getFoo, Event.recv 0,
            Event.release 0 0]⟩) ∧
      _command_connection (cluster (asksThen (.error (.AskError 42 nodeB)))) (reads getFoo) 7002
        ⟨0, [Event.fetch "foo", Event.lease 0 (some 0), Event.send 0 getFoo, Event.recv 0,
          Event.release 0 0, Event.fetchNode nodeC, Event.lease 7002 (some 7002),
          Event.asking 7002]⟩ =
        (.error (.AskError 42 nodeB),
          ⟨0, [Event.fetch "foo", Event.lease 0 (some 0), Event.send 0 getFoo, Event.recv 0,
            Event.release 0 0, Event.fetchNode nodeC, Event.lease 7002 (some 7002),
            Event.asking 7002, Event.send 7002 getFoo, Event.recv 7002]⟩) ∧
      _command (cluster (asksThen (.error (.AskError 42 nodeB)))) (reads getFoo) "foo" (World.init 0) =
        (.error (.AskError 42 nodeB),
          ⟨0, [Event.fetch "foo", Event.lease 0 (some 0), Event.send 0 getFoo, Event.recv 0,
            Event.release 0 0, Event.fetchNode nodeC, Event.lease 7002 (some 7002),
            Event.asking 7002, Event.send 7002 getFoo, Event.recv 7002,
            Event.release 7002 7002]⟩) ∧
      (_command (cluster (asksThen (.error (.AskError 42 nodeB)))) (reads getFoo) "foo"
        (World.init 0)).1 ≠
        .error (.Error "Slot migrating... ASKING node hasn't been set to IMPORTING state") :=
  ⟨rfl, rfl, rfl, fun h => Exn.noConfusion (Except.error.inj h)⟩

/-- C9, amended: when the resend of the command on the ASK path ends in a
second `AskError`, the keyed `_command` does not escalate it: that `AskError`
leaves `_command` unchanged, after the release of the connection, with no refresh
and no further attempt. -/
theorem command_ask_then_ask (env : Env σ) (cmd : Cmd) (key : StringView) (s0 : σ)
    (w w1 w5 : World σ) (slot slot2 : Nat) (node node2 : Node) (p : Pool) (c : Conn)
    (s2 s3 s4 : σ)
    (hstart : AttemptStart env cmd key s0 w)
    (hask : attempt env cmd key w = (.error (.AskError slot node), w1))
    (hfetch : env.fetchNode node w1.st = (.ok p, s2))
    (hlease : env.acquire p s2 = (.ok c, s3))
    (hasking : env.asking c s3 = (.ok (), s4))
    (hask2 : _command_connection env cmd c
        ⟨s4, w1.log ++ [Event.fetchNode node, Event.lease p (some c), Event.asking c]⟩ =
      (.error (.AskError slot2 node2), w5)) :
    _command env cmd key (World.init s0) =
        (.error (.AskError slot2 node2),
          ⟨env.release p c w5.st, w5.log ++ [Event.release p c]⟩) ∧
      refreshes (_command env cmd key (World.init s0)).2.log = refreshes w1.log := by
  have hrun := command_ask_throws env cmd key s0 w w1
    ⟨env.release p c w5.st, w5.log ++ [Event.release p c]⟩ slot node
    (.AskError slot2 node2) hstart hask
    (by
      rw [askClause_resend env cmd node w1 p c s2 s3 s4 hfetch hlease hasking]
      simp [resend, hask2, release])
  refine ⟨hrun, ?_⟩
  rw [hrun]
  have h5 := command_connection_refreshes env cmd c _ w5 _ hask2
  show refreshes (w5.log ++ [Event.release p c]) = _
  rw [refreshes_append, h5]
  simp [refreshes, Event.isUpdate]

/-- C9, amended, on a cluster whose pool 0 answers `ASK 42 10.0.0.3:7002` and whose
node `10.0.0.3:7002` answers `ASK 42 10.0.0.2:7001`. -/
theorem command_ask_then_ask_witness :
    _command (cluster (asksThen (.error (.AskError 42 nodeB)))) (reads getFoo) "foo" (World.init 0) =
        (.error (.AskError 42 nodeB),
          ⟨0, [Event.fetch "foo", Event.lease 0 (some 0), Event.send 0 getFoo, Event.recv 0,
              Event.release 0 0, Event.fetchNode nodeC, Event.lease 7002 (some 7002),
              Event.asking 7002, Event.send 7002 getFoo, Event.recv 7002] ++
            [Event.release 7002 7002]⟩) ∧
      refreshes (_command (cluster (asksThen (.error (.AskError 42 nodeB)))) (reads getFoo) "foo"
        (World.init 0)).2.log =
      refreshes [Event.fetch "foo", Event.lease 0 (some 0), Event.send 0 getFoo, Event.recv 0,
        Event.release 0 0] :=
  command_ask_then_ask (cluster (asksThen (.error (.AskError 42 nodeB)))) (reads getFoo) "foo" 0
    (World.init 0)
    ⟨0, [Event.fetch "foo", Event.lease 0 (some 0), Event.send 0 getFoo, Event.recv 0,
      Event.release 0 0]⟩
    ⟨0, [Event.fetch "foo", Event.lease 0 (some 0), Event.send 0 getFoo, Event.recv 0,
      Event.release 0 0, Event.fetchNode nodeC, Event.lease 7002 (some 7002),
      Event.asking 7002, Event.send 7002 getFoo, Event.recv 7002]⟩
    42 42 nodeC nodeB 7002 7002 0 0 0 (Or.inl rfl) rfl rfl rfl rfl rfl

/-- C10: when an outer attempt (the first or the second) fails with an exception
that none of the four `catch` clauses catches (not an `IoError`, `ClosedError`,
`MovedError` or `AskError`), the keyed `_command` throws that same exception, and
the world it leaves is the one in which the attempt ended: nothing is called
after it, so no refresh is started for it and the command is not sent again. -/
theorem command_uncaught_propagates (env : Env σ) (cmd : Cmd) (key : StringView) (s0 : σ)
    (w w1 : World σ) (e : Exn)
    (hstart : AttemptStart env cmd key s0 w)
    (he : e.caught = false)
    (hfail : attempt env cmd key w = (.error e, w1)) :
    _command env cmd key (World.init s0) = (.error e, w1) ∧
      refreshes (_command env cmd key (World.init s0)).2.log = refreshes w.log ∧
      sends (_command env cmd key (World.init s0)).2.log ≤ sends w.log + 1 := by
  obtain ⟨n, hn⟩ := command_of_attemptStart env cmd key s0 w hstart
  have hrun : _command env cmd key (World.init s0) = (.error e, w1) := by
    rw [hn]
    exact loop_throws env cmd key n w w1 w1 e e hfail (catch_uncaught env cmd e w1 he)
  refine ⟨hrun, ?_, ?_⟩
  · rw [hrun]
    exact attempt_refreshes env cmd key w w1 _ hfail
  · rw [hrun]
    exact attempt_sends env cmd key w w1 _ hfail

/-- C10 on a cluster whose pool 0 fails with an `IoError` and whose pool 1 answers
with a `WRONGTYPE` error reply: the second attempt starts after one refresh, and
its `ReplyError` is what the caller gets. -/
theorem command_uncaught_propagates_witness :
    _command (cluster (failsTwice (.IoError "Failed to get reply")
        (.Other "ReplyError" "WRONGTYPE Operation against a key holding the wrong kind of value")))
        (reads getFoo) "foo" (World.init 0) =
        (.error
          (.Other "ReplyError" "WRONGTYPE Operation against a key holding the wrong kind of value"),
          ⟨1, [Event.fetch "foo", Event.lease 0 (some 0), Event.send 0 getFoo, Event.recv 0,
            Event.release 0 0, Event.update, Event.fetch "foo", Event.lease 1 (some 1),
            Event.send 1 getFoo, Event.recv 1, Event.release 1 1]⟩) ∧
      refreshes (_command (cluster (failsTwice (.IoError "Failed to get reply")
        (.Other "ReplyError" "WRONGTYPE Operation against a key holding the wrong kind of value")))
        (reads getFoo) "foo" (World.init 0)).2.log =
        refreshes [Event.fetch "foo", Event.lease 0 (some 0), Event.send 0 getFoo, Event.recv 0,
          Event.release 0 0, Event.update] ∧
      sends (_command (cluster (failsTwice (.IoError "Failed to get reply")
        (.Other "ReplyError" "WRONGTYPE Operation against a key holding the wrong kind of value")))
        (reads getFoo) "foo" (World.init 0)).2.log ≤
        sends [Event.fetch "foo", Event.lease 0 (some 0), Event.send 0 getFoo, Event.recv 0,
          Event.release 0 0, Event.update] + 1 :=
  command_uncaught_propagates (cluster (failsTwice (.IoError "Failed to get reply")
      (.Other "ReplyError" "WRONGTYPE Operation against a key holding the wrong kind of value")))
    (reads getFoo) "foo" 0
    ⟨1, [Event.fetch "foo", Event.lease 0 (some 0), Event.send 0 getFoo, Event.recv 0,
      Event.release 0 0, Event.update]⟩
    ⟨1, [Event.fetch "foo", Event.lease 0 (some 0), Event.send 0 getFoo, Event.recv 0,
      Event.release 0 0, Event.update, Event.fetch "foo", Event.lease 1 (some 1),
      Event.send 1 getFoo, Event.recv 1, Event.release 1 1]⟩
    (.Other "ReplyError" "WRONGTYPE Operation against a key holding the wrong kind of value")
    (Or.inr ⟨.IoError "Failed to get reply",
      ⟨0, [Event.fetch "foo", Event.lease 0 (some 0), Event.send 0 getFoo, Event.recv 0,
        Event.release 0 0]⟩, rfl, rfl⟩)
    rfl rfl

/-- C11: whatever the environment does at each call (replies, `IoError`,
`ClosedError`, `MovedError`, `AskError`, other exceptions, a refresh that throws),
in the log of a run of the keyed `_command` the leases given back are exactly
the leases acquired, in the same order, so as many were given back as acquired
and none is outstanding when `_command` returns or throws; and at every point of
the run the leases given back so far were acquired before. -/
theorem command_leases_released (env : Env σ) (cmd : Cmd) (key : StringView) (s0 : σ) :
    leased (_command env cmd key (World.init s0)).2.log =
        released (_command env cmd key (World.init s0)).2.log ∧
      (leased (_command env cmd key (World.init s0)).2.log).length =
        (released (_command env cmd key (World.init s0)).2.log).length ∧
      ∀ l1 l2, (_command env cmd key (World.init s0)).2.log = l1 ++ l2 →
        released l1 <+: leased l1 := by
  obtain ⟨ht, _⟩ := command_tidy env cmd key s0
  refine ⟨ht.2, by rw [ht.2], ?_⟩
  intro l1 l2 hlog
  have hw := ht.1
  rw [hlog] at hw
  obtain ⟨h1, hh, _⟩ := holds_prefix none none l1 l2 hw
  have := holds_leased l1 none h1 hh
  simp only [Option.toList, List.nil_append] at this
  exact ⟨_, this.symm⟩

/-- C11 on a cluster whose pool 0 fails with an `IoError` and whose pool 1 redirects
with `ASK`: three leases are acquired and given back; cut after the second lease,
the log has given back the first lease only. -/
theorem command_leases_released_witness :
    leased (_command (cluster (failsThenAsks (.IoError "Failed to get reply"))) (reads getFoo) "foo"
        (World.init 0)).2.log = [(0, 0), (1, 1), (7002, 7002)] ∧
      released (_command (cluster (failsThenAsks (.IoError "Failed to get reply"))) (reads getFoo) "foo"
        (World.init 0)).2.log = [(0, 0), (1, 1), (7002, 7002)] ∧
      released [Event.fetch "foo", Event.lease 0 (some 0), Event.send 0 getFoo, Event.recv 0,
          Event.release 0 0, Event.update, Event.fetch "foo", Event.lease 1 (some 1)] <+:
        leased [Event.fetch "foo", Event.lease 0 (some 0), Event.send 0 getFoo, Event.recv 0,
          Event.release 0 0, Event.update, Event.fetch "foo", Event.lease 1 (some 1)] :=
  ⟨rfl, rfl,
    (command_leases_released (cluster (failsThenAsks (.IoError "Failed to get reply"))) (reads getFoo)
      "foo" 0).2.2
      [Event.fetch "foo", Event.lease 0 (some 0), Event.send 0 getFoo, Event.recv 0,
        Event.release 0 0, Event.update, Event.fetch "foo", Event.lease 1 (some 1)]
      [Event.send 1 getFoo, Event.recv 1, Event.release 1 1, Event.fetchNode nodeC,
        Event.lease 7002 (some 7002), Event.asking 7002, Event.send 7002 getFoo,
        Event.recv 7002, Event.release 7002 7002] rfl⟩

/-- C12, against the claim: on a cluster whose nodes are the pools 7000, 7001 and
7002 and in which no guard can be made on pool 7001, with a callback that never
throws, `for_each` throws the exception of the constructor of the guard; the
callback was called for pool 7000 only, not for each pool of the list. -/
theorem for_each_guard_failure_skips_pools :
    (unguarded (.IoError "Failed to connect to Redis")).pools 1 =
        (.ok [7000, 7001, 7002], 1) ∧
      (∀ p c s, (counting p c s).1 = .ok ()) ∧
      for_each (unguarded (.IoError "Failed to connect to Redis")) counting (World.init 0) =
        (.error (.IoError "Failed to connect to Redis"),
          ⟨2, [Event.update, Event.pools, Event.guard 7000 (some 7000),
            Event.callback 7000 7000, Event.unguard 7000 7000, Event.guard 7001 none]⟩) ∧
      visited (for_each (unguarded (.IoError "Failed to connect to Redis")) counting
        (World.init 0)).2.log = [7000] :=
  ⟨rfl, fun _ _ _ => rfl, rfl, rfl⟩

/-- C12, amended: when the refresh and `pools()` return, every pool of the list
gives its guard a connection and the callback returns at every pool, `for_each`
returns;
its log starts with the one `update` followed by `pools`, holds no other
`update`, and the callback was called for the pools of the list returned by
`pools()` after the refresh, each once, in the order of the list, and for no
other pool. -/
theorem for_each_visits_every_pool (env : Env σ) (cb : Callback σ) (s0 s1 s2 : σ)
    (ps : List Pool)
    (hupdate : env.update s0 = (.ok (), s1))
    (hpools : env.pools s1 = (.ok ps, s2))
    (hguard : ∀ p ∈ ps, ∀ s, ∃ c, (env.guard p s).1 = .ok c)
    (hcb : ∀ p ∈ ps, ∀ c s, (cb p c s).1 = .ok ()) :
    (for_each env cb (World.init s0)).1 = .ok () ∧
      visited (for_each env cb (World.init s0)).2.log = ps ∧
      refreshes (for_each env cb (World.init s0)).2.log = 1 ∧
      ∃ evs, (for_each env cb (World.init s0)).2.log = Event.update :: Event.pools :: evs ∧
        refreshes evs = 0 := by
  rw [for_each_run env cb s0 s1 s2 ps hupdate hpools]
  obtain ⟨h1, evs, h2, h3, h4⟩ := for_each_loop_all env cb ps hguard hcb
    ⟨s2, [Event.update, Event.pools]⟩
  refine ⟨h1, ?_, ?_, evs, by simpa using h2, h4⟩
  · rw [h2, visited_append, h3]; simp [visited]
  · rw [h2, refreshes_append, h4]; simp [refreshes, Event.isUpdate]

/-- C12, amended, on the healthy cluster with a callback that returns: the pools 7000, 7001
and 7002 are visited in that order after one refresh. -/
theorem for_each_visits_every_pool_witness :
    (for_each (cluster healthy) counting (World.init 0)).1 = .ok () ∧
      visited (for_each (cluster healthy) counting (World.init 0)).2.log = [7000, 7001, 7002] ∧
      refreshes (for_each (cluster healthy) counting (World.init 0)).2.log = 1 ∧
      ∃ evs, (for_each (cluster healthy) counting (World.init 0)).2.log =
          Event.update :: Event.pools :: evs ∧ refreshes evs = 0 :=
  for_each_visits_every_pool (cluster healthy) counting 0 1 1 [7000, 7001, 7002] rfl rfl
    (fun p _ _ => ⟨p, rfl⟩) (fun _ _ _ _ => rfl)

/-- C13, against the claim: on the healthy cluster, whose nodes are the pools 7000,
7001 and 7002, with a callback that throws at pool 7001, `for_each` throws that
exception and the callback was called twice, for 7000 and 7001: pool 7002 is
never visited. -/
theorem for_each_stops_at_first_raise :
    (cluster healthy).pools 1 = (.ok [7000, 7001, 7002], 1) ∧
      for_each (cluster healthy) (raisingAt7001 (.IoError "Failed to get reply"))
          (World.init 0) =
        (.error (.IoError "Failed to get reply"),
          ⟨1, [Event.update, Event.pools, Event.guard 7000 (some 7000),
            Event.callback 7000 7000, Event.unguard 7000 7000, Event.guard 7001 (some 7001),
            Event.callback 7001 7001, Event.unguard 7001 7001]⟩) ∧
      visited (for_each (cluster healthy) (raisingAt7001 (.IoError "Failed to get reply"))
        (World.init 0)).2.log = [7000, 7001] ∧
      (visited (for_each (cluster healthy) (raisingAt7001 (.IoError "Failed to get reply"))
        (World.init 0)).2.log).length ≠ 3 :=
  ⟨rfl, rfl, rfl, by decide⟩

/-- C13, amended: `for_each` has no `try` around the callback.  When the callback
throws `e` at a pool of the list of the refreshed topology (the pools before it
having given their guards a connection, with the callback returning at them),
`for_each` throws `e`; the callback was called once for each pool up to that one,
in the order of the list, and for no pool after it. -/
theorem for_each_stops_at_raise (env : Env σ) (cb : Callback σ) (s0 s1 s2 : σ)
    (before after : List Pool) (pool : Pool) (e : Exn)
    (hupdate : env.update s0 = (.ok (), s1))
    (hpools : env.pools s1 = (.ok (before ++ pool :: after), s2))
    (hguard : ∀ p ∈ before ++ [pool], ∀ s, ∃ c, (env.guard p s).1 = .ok c)
    (hcb : ∀ p ∈ before, ∀ c s, (cb p c s).1 = .ok ())
    (hraise : ∀ c s, (cb pool c s).1 = .error e) :
    (for_each env cb (World.init s0)).1 = .error e ∧
      visited (for_each env cb (World.init s0)).2.log = before ++ [pool] := by
  rw [for_each_run env cb s0 s1 s2 _ hupdate hpools]
  obtain ⟨h1, evs, h2, h3⟩ := for_each_loop_stops env cb before after pool e hguard hcb hraise
    ⟨s2, [Event.update, Event.pools]⟩
  refine ⟨h1, ?_⟩
  rw [h2, visited_append, h3]; simp [visited]

/-- C13, amended, on the healthy cluster with a callback that throws at pool 7001. -/
theorem for_each_stops_at_raise_witness :
    (for_each (cluster healthy) (raisingAt7001 (.IoError "Failed to get reply"))
        (World.init 0)).1 = .error (.IoError "Failed to get reply") ∧
      visited (for_each (cluster healthy) (raisingAt7001 (.IoError "Failed to get reply"))
        (World.init 0)).2.log = [7000] ++ [7001] :=
  for_each_stops_at_raise (cluster healthy) (raisingAt7001 (.IoError "Failed to get reply"))
    0 1 1 [7000] [7002] 7001 (.IoError "Failed to get reply") rfl rfl
    (fun p _ _ => ⟨p, rfl⟩)
    (fun p hp c s => by
      have : p = 7000 := by simpa using hp
      subst this
      rfl)
    (fun _ _ => rfl)

/-- C14: when an outer attempt (the first or the second) fails with an `IoError`,
a `ClosedError` or a `MovedError` and the `update` of its `catch` clause throws,
the keyed `_command` throws the exception of the `update`; the `update` is the last
call in the log: no pool is resolved, no connection leased and nothing sent after
it, also when it was the first attempt. -/
theorem command_refresh_failure (env : Env σ) (cmd : Cmd) (key : StringView) (s0 s2 : σ)
    (w w1 : World σ) (e e2 : Exn)
    (hstart : AttemptStart env cmd key s0 w)
    (he : e.refreshing = true)
    (hfail : attempt env cmd key w = (.error e, w1))
    (hupdate : env.update w1.st = (.error e2, s2)) :
    _command env cmd key (World.init s0) = (.error e2, ⟨s2, w1.log ++ [Event.update]⟩) := by
  obtain ⟨n, hn⟩ := command_of_attemptStart env cmd key s0 w hstart
  rw [hn]
  exact loop_throws env cmd key n w w1 _ e e2 hfail
    (by rw [catch_refreshing env cmd e w1 he, updateClause_error env w1 s2 e2 hupdate])

/-- C14 on a cluster whose pool 0 fails with an `IoError` and in which no node is
reachable for the refresh: the first attempt is followed by the `update` only. -/
theorem command_refresh_failure_witness :
    _command (unreachable (.Error "no node reachable") (failsFirst (.IoError "Failed to get reply")))
        (reads getFoo) "foo" (World.init 0) =
      (.error (.Error "no node reachable"),
        ⟨0, [Event.fetch "foo", Event.lease 0 (some 0), Event.send 0 getFoo, Event.recv 0,
          Event.release 0 0] ++ [Event.update]⟩) :=
  command_refresh_failure
    (unreachable (.Error "no node reachable") (failsFirst (.IoError "Failed to get reply")))
    (reads getFoo) "foo" 0 0 (World.init 0)
    ⟨0, [Event.fetch "foo", Event.lease 0 (some 0), Event.send 0 getFoo, Event.recv 0,
      Event.release 0 0]⟩
    (.IoError "Failed to get reply") (.Error "no node reachable") (Or.inl rfl) rfl rfl rfl

/-- C15, against the claim: on a cluster whose pools lease nothing and report it
with an exception of the base class `Error` (a wait for a free connection that
timed out), the keyed `_command` throws that exception at once: the log holds one
`fetch` of the key and one failed lease, no `update` and no second attempt. -/
theorem lease_timeout_is_not_retried :
    _command (exhausted (.Error "Failed to fetch a connection in 100 milliseconds")) (reads getFoo)
        "foo" (World.init 0) =
        (.error (.Error "Failed to fetch a connection in 100 milliseconds"),
          ⟨0, [Event.fetch "foo", Event.lease 0 none]⟩) ∧
      attempts (_command (exhausted (.Error "Failed to fetch a connection in 100 milliseconds"))
        (reads getFoo) "foo" (World.init 0)).2.log = 1 ∧
      refreshes (_command (exhausted (.Error "Failed to fetch a connection in 100 milliseconds"))
        (reads getFoo) "foo" (World.init 0)).2.log = 0 :=
  ⟨rfl, rfl, rfl⟩

/-- C15, amended: what follows a lease that fails on the first attempt depends on
the class of the exception.  An `IoError`, `ClosedError` or `MovedError` is
caught: the topology is refreshed and, the refresh having returned, the dispatch
is retried once, a normal reply of the retry being the result (the retry makes
the first call of the command callable: the attempt whose lease failed made
none).  An exception that no `catch` clause catches (an `Error` of the base class, say) leaves
`_command` at once, with no refresh and no retry. -/
theorem command_lease_failure (env : Env σ) (cmd : Cmd) (key : StringView) (s0 : σ) :
    (∀ (e : Exn) (p0 p : Pool) (c : Conn) (r : Reply) (s1 s2 s3 s4 s5 s6 s7 : σ),
        env.fetch key s0 = (.ok p0, s1) →
        env.acquire p0 s1 = (.error e, s2) →
        e.refreshing = true →
        env.update s2 = (.ok (), s3) →
        env.fetch key s3 = (.ok p, s4) →
        env.acquire p s4 = (.ok c, s5) →
        env.send c (cmd 0) s5 = (.ok (), s6) →
        env.recv c s6 = (.ok r, s7) →
        _command env cmd key (World.init s0) =
          (.ok r, ⟨env.release p c s7,
            [Event.fetch key, Event.lease p0 none, Event.update, Event.fetch key,
              Event.lease p (some c), Event.send c (cmd 0), Event.recv c,
              Event.release p c]⟩)) ∧
      (∀ (e : Exn) (p0 : Pool) (s1 s2 : σ),
        env.fetch key s0 = (.ok p0, s1) →
        env.acquire p0 s1 = (.error e, s2) →
        e.caught = false →
        _command env cmd key (World.init s0) =
          (.error e, ⟨s2, [Event.fetch key, Event.lease p0 none]⟩)) := by
  constructor
  · intro e p0 p c r s1 s2 s3 s4 s5 s6 s7 hf hl he hu hf2 hl2 hs2 hr2
    have h1 := attempt_lease_fails env cmd key (World.init s0) p0 e s1 s2 hf hl
    have hidx : sends ((World.init s0).log ++ [Event.fetch key, Event.lease p0 none]) = 0 := by
      simp [World.init, sends_cons, sends_nil, Event.isSend]
    have := (command_retry_reply env cmd key s0 e _ p c r s3 s4 s5 s6 s7 he h1 hu hf2 hl2
      (by rw [hidx]; exact hs2) hr2).1
    rw [hidx] at this
    simpa [World.init] using this
  · intro e p0 s1 s2 hf hl he
    have h1 := attempt_lease_fails env cmd key (World.init s0) p0 e s1 s2 hf hl
    rw [command_init, loop_throws env cmd key 1 _ _ _ e e h1 (catch_uncaught env cmd e _ he)]
    rfl

/-- C15, amended, on two clusters: one whose pools fail to connect with an `IoError`
before the first refresh, and one whose pools time out with an `Error`. -/
theorem command_lease_failure_witness :
    _command (connectsLate (.IoError "Failed to connect to Redis")) (reads getFoo) "foo"
        (World.init 0) =
        (.ok (.str "bar"),
          ⟨1, [Event.fetch "foo", Event.lease 0 none, Event.update, Event.fetch "foo",
            Event.lease 1 (some 1), Event.send 1 getFoo, Event.recv 1, Event.release 1 1]⟩) ∧
      _command (exhausted (.Error "Failed to fetch a connection in 100 milliseconds")) (reads getFoo)
        "foo" (World.init 0) =
        (.error (.Error "Failed to fetch a connection in 100 milliseconds"),
          ⟨0, [Event.fetch "foo", Event.lease 0 none]⟩) :=
  ⟨(command_lease_failure (connectsLate (.IoError "Failed to connect to Redis")) (reads getFoo) "foo"
      0).1 (.IoError "Failed to connect to Redis") 0 1 1 (.str "bar") 0 0 1 1 1 1 1
      rfl rfl rfl rfl rfl rfl rfl rfl,
    (command_lease_failure (exhausted (.Error "Failed to fetch a connection in 100 milliseconds"))
      (reads getFoo) "foo" 0).2 (.Error "Failed to fetch a connection in 100 milliseconds") 0 0 0
      rfl rfl rfl⟩

/-- C16, against the claim: on a cluster whose pool 0 answers `MOVED 42
10.0.0.2:7001`, the pool of the node `10.0.0.2:7001` is pool 7001, but after the
refresh the key resolves to pool 1, and it is to pool 1 that the second attempt
is sent: the leases of the run are on the pools 0 and 1, none on pool 7001, and
the node of the `MovedError` is never resolved. -/
theorem moved_address_is_not_used :
    attempt (cluster (failsFirst (.MovedError 42 nodeB))) (reads getFoo) "foo" (World.init 0) =
        (.error (.MovedError 42 nodeB),
          ⟨0, [Event.fetch "foo", Event.lease 0 (some 0), Event.send 0 getFoo, Event.recv 0,
            Event.release 0 0]⟩) ∧
      (cluster (failsFirst (.MovedError 42 nodeB))).fetchNode nodeB 1 = (.ok 7001, 1) ∧
      _command (cluster (failsFirst (.MovedError 42 nodeB))) (reads getFoo) "foo" (World.init 0) =
        (.ok (.str "bar"),
          ⟨1, [Event.fetch "foo", Event.lease 0 (some 0), Event.send 0 getFoo, Event.recv 0,
            Event.release 0 0, Event.update, Event.fetch "foo", Event.lease 1 (some 1),
            Event.send 1 getFoo, Event.recv 1, Event.release 1 1]⟩) ∧
      leased (_command (cluster (failsFirst (.MovedError 42 nodeB))) (reads getFoo) "foo"
        (World.init 0)).2.log = [(0, 0), (1, 1)] :=
  ⟨rfl, rfl, rfl, rfl⟩

/-- C16, amended: when the first attempt fails with a `MovedError` and the refresh
returns, the second attempt goes to the pool `fetch(key)` yields in the refreshed
state, whatever node the `MovedError` names: the log continues with `update`,
`fetch` of the key, the lease from that pool and a send on the leased connection
(of `cmd (sends w1.log)`, what the command callable makes of the pack forwarded
again).  Whatever the outcome of that attempt, no `fetch` of the key follows it:
a run holds at most 2 outer attempts. -/
theorem command_moved_follows_refreshed_map (env : Env σ) (cmd : Cmd) (key : StringView)
    (s0 s2 : σ) (slot : Nat) (node : Node) (w1 : World σ)
    (hmoved : attempt env cmd key (World.init s0) = (.error (.MovedError slot node), w1))
    (hupdate : env.update w1.st = (.ok (), s2)) :
    attempts (_command env cmd key (World.init s0)).2.log ≤ 2 ∧
      ∀ (p : Pool) (c : Conn) (s3 s4 : σ),
        env.fetch key s2 = (.ok p, s3) →
        env.acquire p s3 = (.ok c, s4) →
        ∃ rest, (_command env cmd key (World.init s0)).2.log =
            w1.log ++ [Event.update, Event.fetch key, Event.lease p (some c),
              Event.send c (cmd (sends w1.log))] ++ rest ∧
          attempts rest = 0 := by
  refine ⟨(command_tidy env cmd key s0).2, ?_⟩
  intro p c s3 s4 hf hl
  rw [command_retry env cmd key s0 s2 (.MovedError slot node) w1 rfl hmoved hupdate]
  obtain ⟨ec, h1, h2⟩ := loop_one_log env cmd key ⟨s2, w1.log ++ [Event.update]⟩
  obtain ⟨rest, h3, h4⟩ := attempt_leased_shape env cmd key ⟨s2, w1.log ++ [Event.update]⟩
    p c s3 s4 hf hl
  refine ⟨rest ++ ec, ?_, ?_⟩
  · rw [h1, h3]; simp [sends_update]
  · rw [attempts_append, h2, h4]

/-- C16, amended, on a cluster whose pool 0 answers `MOVED 42 10.0.0.2:7001`: the
second attempt goes to pool 1, to which the key resolves after the refresh. -/
theorem command_moved_follows_refreshed_map_witness :
    attempts (_command (cluster (failsFirst (.MovedError 42 nodeB))) (reads getFoo) "foo"
        (World.init 0)).2.log ≤ 2 ∧
      ∃ rest, (_command (cluster (failsFirst (.MovedError 42 nodeB))) (reads getFoo) "foo"
          (World.init 0)).2.log =
          [Event.fetch "foo", Event.lease 0 (some 0), Event.send 0 getFoo, Event.recv 0,
            Event.release 0 0] ++
            [Event.update, Event.fetch "foo", Event.lease 1 (some 1), Event.send 1 getFoo]
            ++ rest ∧
        attempts rest = 0 :=
  have h := command_moved_follows_refreshed_map (cluster (failsFirst (.MovedError 42 nodeB)))
    (reads getFoo) "foo" 0 1 42 nodeB
    ⟨0, [Event.fetch "foo", Event.lease 0 (some 0), Event.send 0 getFoo, Event.recv 0,
      Event.release 0 0]⟩ rfl rfl
  ⟨h.1, h.2 1 1 1 1 rfl rfl⟩

/-- C17, at an input on which the code departs from the claim: `SET foo bar` is
sent through a callable that takes the value by value, the value passed as an
rvalue, on a cluster whose pool 0 fails with an `IoError`, whose pool 1 (to which
the key resolves after the refresh) answers `ASK 42 10.0.0.3:7002` and whose node
`10.0.0.3:7002` answers `bar`.  The redirect is followed on the second (last)
attempt, `ASKING` and one command are sent to the node and its reply is returned,
3 sends in all, as the claim says; but the pack is forwarded at every call, the
first call has moved the value out of it, and the retry and the resend both put
`SET foo` with an empty value on the wire: the original command is sent once, not
3 times. -/
theorem ask_after_retry_sends_consumed_arguments :
    _command (cluster (failsThenAsks (.IoError "Failed to get reply"))) setFooBar "foo"
          (World.init 0) =
        (.ok (.str "bar"),
          ⟨1, [Event.fetch "foo", Event.lease 0 (some 0), Event.send 0 ["SET", "foo", "bar"],
            Event.recv 0, Event.release 0 0, Event.update, Event.fetch "foo",
            Event.lease 1 (some 1), Event.send 1 ["SET", "foo", ""], Event.recv 1,
            Event.release 1 1, Event.fetchNode nodeC, Event.lease 7002 (some 7002),
            Event.asking 7002, Event.send 7002 ["SET", "foo", ""], Event.recv 7002,
            Event.release 7002 7002]⟩) ∧
      sent (_command (cluster (failsThenAsks (.IoError "Failed to get reply"))) setFooBar "foo"
        (World.init 0)).2.log =
        [["SET", "foo", "bar"], ["SET", "foo", ""], ["SET", "foo", ""]] ∧
      sends (_command (cluster (failsThenAsks (.IoError "Failed to get reply"))) setFooBar "foo"
        (World.init 0)).2.log = 3 ∧
      setFooBar 2 ≠ setFooBar 0 :=
  ⟨rfl, rfl, rfl, by decide⟩

/-- C18: after an outer attempt (the first or the second) that ends in an
`AskError`, whatever the environment does, the events the keyed `_command` adds to
the log hold no `update` (none before `ASKING`, none after the resend, none when
the resend fails) and at most one send; when the node resolves, its pool leases
and `ASKING` returns, they hold exactly one send: the one resend. -/
theorem command_ask_no_refresh (env : Env σ) (cmd : Cmd) (key : StringView) (s0 : σ)
    (w w1 : World σ) (slot : Nat) (node : Node)
    (hstart : AttemptStart env cmd key s0 w)
    (hask : attempt env cmd key w = (.error (.AskError slot node), w1)) :
    ∃ evs, (_command env cmd key (World.init s0)).2.log = w1.log ++ evs ∧
      refreshes evs = 0 ∧ sends evs ≤ 1 ∧
      ∀ (p : Pool) (c : Conn) (s2 s3 s4 : σ),
        env.fetchNode node w1.st = (.ok p, s2) →
        env.acquire p s2 = (.ok c, s3) →
        env.asking c s3 = (.ok (), s4) →
        sends evs = 1 := by
  obtain ⟨evs, h1, _, _, h4, h5⟩ := askClause_tidy env cmd node w1
  refine ⟨evs, ?_, h4, h5, ?_⟩
  · rw [command_ask_world env cmd key s0 w w1 slot node hstart hask]
    exact h1
  · intro p c s2 s3 s4 hf hl ha
    have hlog : (askClause env cmd node w1).2.log =
        (_command_connection env cmd c
          ⟨s4, w1.log ++ [Event.fetchNode node, Event.lease p (some c), Event.asking c]⟩).2.log
          ++ [Event.release p c] := by
      rw [askClause_resend env cmd node w1 p c s2 s3 s4 hf hl ha]
      simp [release, resend_world]
    rcases command_connection_shape env cmd c
        ⟨s4, w1.log ++ [Event.fetchNode node, Event.lease p (some c), Event.asking c]⟩
      with h | h
    · rw [h, h1] at hlog
      have : evs = [Event.fetchNode node, Event.lease p (some c), Event.asking c,
          Event.send c (cmd (sends
            (w1.log ++ [Event.fetchNode node, Event.lease p (some c), Event.asking c]))),
          Event.release p c] := by
        have := hlog
        simp only [List.append_assoc] at this
        exact List.append_cancel_left this
      rw [this]
      simp [sends, Event.isSend]
    · rw [h, h1] at hlog
      have : evs = [Event.fetchNode node, Event.lease p (some c), Event.asking c,
          Event.send c (cmd (sends
            (w1.log ++ [Event.fetchNode node, Event.lease p (some c), Event.asking c]))),
          Event.recv c, Event.release p c] := by
        have := hlog
        simp only [List.append_assoc] at this
        exact List.append_cancel_left this
      rw [this]
      simp [sends, Event.isSend]

/-- C18 on a cluster whose pool 0 answers `ASK 42 10.0.0.3:7002` and whose node
`10.0.0.3:7002` fails the resend with an `IoError`. -/
theorem command_ask_no_refresh_witness :
    ∃ evs, (_command (cluster (asksThen (.error (.IoError "Failed to get reply")))) (reads getFoo)
        "foo" (World.init 0)).2.log =
        [Event.fetch "foo", Event.lease 0 (some 0), Event.send 0 getFoo, Event.recv 0,
          Event.release 0 0] ++ evs ∧
      refreshes evs = 0 ∧ sends evs ≤ 1 ∧
      ∀ (p : Pool) (c : Conn) (s2 s3 s4 : Nat),
        (cluster (asksThen (.error (.IoError "Failed to get reply")))).fetchNode nodeC 0 =
          (.ok p, s2) →
        (cluster (asksThen (.error (.IoError "Failed to get reply")))).acquire p s2 =
          (.ok c, s3) →
        (cluster (asksThen (.error (.IoError "Failed to get reply")))).asking c s3 =
          (.ok (), s4) →
        sends evs = 1 :=
  command_ask_no_refresh (cluster (asksThen (.error (.IoError "Failed to get reply")))) (reads getFoo)
    "foo" 0 (World.init 0)
    ⟨0, [Event.fetch "foo", Event.lease 0 (some 0), Event.send 0 getFoo, Event.recv 0,
      Event.release 0 0]⟩ 42 nodeC (Or.inl rfl) rfl

/-- C19, against the claim: on a cluster whose pool 0 answers `ASK 42
10.0.0.3:7002` and whose node `10.0.0.3:7002` answers the resend with `MOVED`, the
keyed `_command` called with the key `foo` reports the migration inconsistency
with a message in which `foo` does not occur. -/
theorem migration_error_omits_key :
    (_command (cluster (asksThen (.error (.MovedError 42 nodeB)))) (reads getFoo) "foo"
        (World.init 0)).1 =
        .error (.Error "Slot migrating... ASKING node hasn't been set to IMPORTING state") ∧
      mentions "Slot migrating... ASKING node hasn't been set to IMPORTING state" "foo" =
        false :=
  ⟨rfl, by decide⟩

/-- C19, amended: of the two failures the keyed `_command` reports itself, the one
of the exhausted retry budget carries the routing key, its message being "Failed
to send command with key: " followed by the key; the one of the migration
inconsistency has the fixed message "Slot migrating... ASKING node hasn't been set
to IMPORTING state", the same for every key. -/
theorem command_own_errors (env : Env σ) (cmd : Cmd) (key : StringView) (s0 : σ) :
    (∀ (e1 e2 : Exn) (w1 w3 : World σ) (s2 s4 : σ),
        e1.refreshing = true → e2.refreshing = true →
        attempt env cmd key (World.init s0) = (.error e1, w1) →
        env.update w1.st = (.ok (), s2) →
        attempt env cmd key ⟨s2, w1.log ++ [Event.update]⟩ = (.error e2, w3) →
        env.update w3.st = (.ok (), s4) →
        (_command env cmd key (World.init s0)).1 =
            .error (.Error ("Failed to send command with key: " ++ key)) ∧
          mentions ("Failed to send command with key: " ++ key) key = true) ∧
      (∀ (w w1 w5 : World σ) (slot slot2 : Nat) (node node2 : Node) (p : Pool) (c : Conn)
          (s2 s3 s4 : σ),
        AttemptStart env cmd key s0 w →
        attempt env cmd key w = (.error (.AskError slot node), w1) →
        env.fetchNode node w1.st = (.ok p, s2) →
        env.acquire p s2 = (.ok c, s3) →
        env.asking c s3 = (.ok (), s4) →
        _command_connection env cmd c
            ⟨s4, w1.log ++ [Event.fetchNode node, Event.lease p (some c), Event.asking c]⟩ =
          (.error (.MovedError slot2 node2), w5) →
        (_command env cmd key (World.init s0)).1 =
          .error (.Error "Slot migrating... ASKING node hasn't been set to IMPORTING state")) := by
  constructor
  · intro e1 e2 w1 w3 s2 s4 he1 he2 h1 hu1 h2 hu2
    rw [command_two_failures env cmd key s0 s2 s4 e1 e2 w1 w3 he1 he2 h1 hu1 h2 hu2]
    exact ⟨rfl, mentions_key _ key⟩
  · intro w w1 w5 slot slot2 node node2 p c s2 s3 s4 hstart hask hf hl ha hm
    rw [command_ask_throws env cmd key s0 w w1 _ slot node _ hstart hask
      (askClause_moved env cmd node node2 slot2 w1 w5 p c s2 s3 s4 hf hl ha hm)]

/-- C19, amended, on two clusters called with the key `foo`: one every connection of
which fails with an `IoError`, and one whose pool 0 answers `ASK` and whose ASK
target answers `MOVED`. -/
theorem command_own_errors_witness :
    ((_command (cluster (failsAlways (.IoError "Failed to get reply"))) (reads getFoo) "foo"
          (World.init 0)).1 =
        .error (.Error ("Failed to send command with key: " ++ "foo")) ∧
      mentions ("Failed to send command with key: " ++ "foo") "foo" = true) ∧
      (_command (cluster (asksThen (.error (.MovedError 42 nodeB)))) (reads getFoo) "foo"
        (World.init 0)).1 =
        .error (.Error "Slot migrating... ASKING node hasn't been set to IMPORTING state") :=
  ⟨(command_own_errors (cluster (failsAlways (.IoError "Failed to get reply"))) (reads getFoo) "foo"
      0).1 (.IoError "Failed to get reply") (.IoError "Failed to get reply")
      ⟨0, [Event.fetch "foo", Event.lease 0 (some 0), Event.send 0 getFoo, Event.recv 0,
        Event.release 0 0]⟩
      ⟨1, [Event.fetch "foo", Event.lease 0 (some 0), Event.send 0 getFoo, Event.recv 0,
        Event.release 0 0, Event.update, Event.fetch "foo", Event.lease 1 (some 1),
        Event.send 1 getFoo, Event.recv 1, Event.release 1 1]⟩ 1 2 rfl rfl rfl rfl rfl rfl,
    (command_own_errors (cluster (asksThen (.error (.MovedError 42 nodeB)))) (reads getFoo) "foo"
      0).2 (World.init 0)
      ⟨0, [Event.fetch "foo", Event.lease 0 (some 0), Event.send 0 getFoo, Event.recv 0,
        Event.release 0 0]⟩
      ⟨0, [Event.fetch "foo", Event.lease 0 (some 0), Event.send 0 getFoo, Event.recv 0,
        Event.release 0 0, Event.fetchNode nodeC, Event.lease 7002 (some 7002),
        Event.asking 7002, Event.send 7002 getFoo, Event.recv 7002]⟩
      42 42 nodeC nodeB 7002 7002 0 0 0 (Or.inl rfl) rfl rfl rfl rfl rfl⟩

/-- C20: cut the log of a run of the keyed `_command` at any point.  Up to the cut
at most one lease more was acquired than given back: at most one lease is
outstanding.  And when the next call is a refresh or the constructor of a
`SafeConnection` (that of the next attempt or that of the ASK target), every
lease acquired up to the cut has been given back: the connection of an attempt is
released before the refresh and before the next lease. -/
theorem command_lease_scoped (env : Env σ) (cmd : Cmd) (key : StringView) (s0 : σ)
    (l1 l2 : List Event)
    (hlog : (_command env cmd key (World.init s0)).2.log = l1 ++ l2) :
    (leased l1).length ≤ (released l1).length + 1 ∧
      ∀ ev rest, l2 = ev :: rest → (ev = Event.update ∨ ∃ p c, ev = Event.lease p c) →
        leased l1 = released l1 := by
  have hw := (command_tidy env cmd key s0).1.1
  rw [hlog] at hw
  obtain ⟨h1, hh1, hh2⟩ := holds_prefix none none l1 l2 hw
  have hl := holds_leased l1 none h1 hh1
  simp only [Option.toList, List.nil_append] at hl
  constructor
  · rw [hl]
    cases h1 <;> simp
  · intro ev rest hl2 hev
    subst hl2
    cases h1 with
    | none => simpa using hl
    | some x =>
      exfalso
      simp only [holds] at hh2
      rcases hev with hev | ⟨p, c, hev⟩ <;> subst hev <;> simp [holdsStep] at hh2

/-- C20 on a cluster whose pool 0 fails with an `IoError` and whose pool 1 redirects
with `ASK`, cut before the refresh: the lease of the first attempt has been given
back. -/
theorem command_lease_scoped_witness :
    (leased [Event.fetch "foo", Event.lease 0 (some 0), Event.send 0 getFoo, Event.recv 0,
        Event.release 0 0]).length ≤
      (released [Event.fetch "foo", Event.lease 0 (some 0), Event.send 0 getFoo, Event.recv 0,
        Event.release 0 0]).length + 1 ∧
      leased [Event.fetch "foo", Event.lease 0 (some 0), Event.send 0 getFoo, Event.recv 0,
        Event.release 0 0] =
      released [Event.fetch "foo", Event.lease 0 (some 0), Event.send 0 getFoo, Event.recv 0,
        Event.release 0 0] :=
  have h := command_lease_scoped (cluster (failsThenAsks (.IoError "Failed to get reply")))
    (reads getFoo) "foo" 0
    [Event.fetch "foo", Event.lease 0 (some 0), Event.send 0 getFoo, Event.recv 0,
      Event.release 0 0]
    [Event.update, Event.fetch "foo", Event.lease 1 (some 1), Event.send 1 getFoo,
      Event.recv 1, Event.release 1 1, Event.fetchNode nodeC, Event.lease 7002 (some 7002),
      Event.asking 7002, Event.send 7002 getFoo, Event.recv 7002, Event.release 7002 7002]
    rfl
  ⟨h.1, h.2 Event.update _ rfl (Or.inl rfl)⟩

/-- C21: whatever the environment does, the number of `update` calls in the log of
a run of the keyed `_command` equals the number of its outer attempts that ended
in an `IoError`, a `ClosedError` or a `MovedError`.  Hence none when the first
attempt returns a reply or fails with an exception no clause catches; and when
both attempts end in such an exception (the first refresh having returned), 2,
the second `update` being the last call of the run. -/
theorem command_refreshes_count (env : Env σ) (cmd : Cmd) (key : StringView) (s0 : σ) :
    refreshes (_command env cmd key (World.init s0)).2.log =
        refreshingAttempts env cmd key 2 (World.init s0) ∧
      (∀ (r : Reply) (w1 : World σ),
        attempt env cmd key (World.init s0) = (.ok r, w1) →
        refreshes (_command env cmd key (World.init s0)).2.log = 0) ∧
      (∀ (e : Exn) (w1 : World σ), e.caught = false →
        attempt env cmd key (World.init s0) = (.error e, w1) →
        refreshes (_command env cmd key (World.init s0)).2.log = 0) ∧
      (∀ (e1 e2 : Exn) (w1 w3 : World σ) (s2 : σ),
        e1.refreshing = true → e2.refreshing = true →
        attempt env cmd key (World.init s0) = (.error e1, w1) →
        env.update w1.st = (.ok (), s2) →
        attempt env cmd key ⟨s2, w1.log ++ [Event.update]⟩ = (.error e2, w3) →
        refreshes (_command env cmd key (World.init s0)).2.log = 2 ∧
          (_command env cmd key (World.init s0)).2.log = w3.log ++ [Event.update]) := by
  have hmain : refreshes (_command env cmd key (World.init s0)).2.log =
      refreshingAttempts env cmd key 2 (World.init s0) := by
    have := loop_refreshes env cmd key 2 (World.init s0)
    simpa [_command, World.init, refreshes] using this
  refine ⟨hmain, ?_, ?_, ?_⟩
  · intro r w1 h
    rw [hmain]
    simp [refreshingAttempts, h]
  · intro e w1 he h
    rw [hmain]
    have hr : e.refreshing = false := by
      cases e <;> simp_all [Exn.caught, Exn.refreshing]
    simp [refreshingAttempts, h, hr, catch_uncaught env cmd e w1 he]
  · intro e1 e2 w1 w3 s2 he1 he2 h1 hu h2
    have hlog : (_command env cmd key (World.init s0)).2.log = w3.log ++ [Event.update] := by
      rw [command_retry env cmd key s0 s2 e1 w1 he1 h1 hu]
      rcases hcl : updateClause env w3 with ⟨e3 | (_ | r), w4⟩
      · rw [loop_throws env cmd key 0 _ w3 w4 e2 e3 h2
          (by rw [catch_refreshing env cmd e2 w3 he2, hcl])]
        have := updateClause_log env w3
        rw [hcl] at this
        exact this
      · rw [loop_continues env cmd key 0 _ w3 w4 e2 h2
          (by rw [catch_refreshing env cmd e2 w3 he2, hcl])]
        have := updateClause_log env w3
        rw [hcl] at this
        exact this
      · exfalso
        simp only [updateClause] at hcl
        split at hcl <;> simp at hcl
    refine ⟨?_, hlog⟩
    rw [hlog, refreshes_append]
    have hr1 : refreshes w1.log = 0 := attempt_refreshes env cmd key _ w1 _ h1
    have hr3 := attempt_refreshes env cmd key _ w3 _ h2
    simp only [refreshes_append, hr1] at hr3
    rw [hr3]
    simp [refreshes, Event.isUpdate]

/-- C21 on a cluster every connection of which fails with an `IoError`: both attempts
end in an `IoError` and the log holds 2 `update` calls, the last one closing it. -/
theorem command_refreshes_count_witness :
    refreshes (_command (cluster (failsAlways (.IoError "Failed to get reply"))) (reads getFoo) "foo"
        (World.init 0)).2.log = 2 ∧
      (_command (cluster (failsAlways (.IoError "Failed to get reply"))) (reads getFoo) "foo"
        (World.init 0)).2.log =
        [Event.fetch "foo", Event.lease 0 (some 0), Event.send 0 getFoo, Event.recv 0,
          Event.release 0 0, Event.update, Event.fetch "foo", Event.lease 1 (some 1),
          Event.send 1 getFoo, Event.recv 1, Event.release 1 1] ++ [Event.update] :=
  (command_refreshes_count (cluster (failsAlways (.IoError "Failed to get reply"))) (reads getFoo)
    "foo" 0).2.2.2 (.IoError "Failed to get reply") (.IoError "Failed to get reply")
    ⟨0, [Event.fetch "foo", Event.lease 0 (some 0), Event.send 0 getFoo, Event.recv 0,
      Event.release 0 0]⟩
    ⟨1, [Event.fetch "foo", Event.lease 0 (some 0), Event.send 0 getFoo, Event.recv 0,
      Event.release 0 0, Event.update, Event.fetch "foo", Event.lease 1 (some 1),
      Event.send 1 getFoo, Event.recv 1, Event.release 1 1]⟩ 1 rfl rfl rfl rfl rfl

/-- C27: after an outer attempt (the first or the second) that ends in an
`AskError`, a failure on the ASK path other than a `MovedError` of the resend
leaves the keyed `_command` unchanged: the exception of `fetch(node)`, of the
constructor of `SafeConnection`, of `_asking`, and any exception of the resend
that is not a `MovedError`.  In each case the log ends where the failure
happened, but for the release of the connection if one was leased; what is added
after the attempt holds no `update` and no `fetch` of the key. -/
theorem command_ask_failure_propagates (env : Env σ) (cmd : Cmd) (key : StringView)
    (s0 : σ) (w w1 : World σ) (slot : Nat) (node : Node)
    (hstart : AttemptStart env cmd key s0 w)
    (hask : attempt env cmd key w = (.error (.AskError slot node), w1)) :
    (∀ (e : Exn) (s2 : σ), env.fetchNode node w1.st = (.error e, s2) →
        _command env cmd key (World.init s0) =
          (.error e, ⟨s2, w1.log ++ [Event.fetchNode node]⟩)) ∧
      (∀ (e : Exn) (p : Pool) (s2 s3 : σ), env.fetchNode node w1.st = (.ok p, s2) →
        env.acquire p s2 = (.error e, s3) →
        _command env cmd key (World.init s0) =
          (.error e, ⟨s3, w1.log ++ [Event.fetchNode node, Event.lease p none]⟩)) ∧
      (∀ (e : Exn) (p : Pool) (c : Conn) (s2 s3 s4 : σ),
        env.fetchNode node w1.st = (.ok p, s2) →
        env.acquire p s2 = (.ok c, s3) →
        env.asking c s3 = (.error e, s4) →
        _command env cmd key (World.init s0) =
          (.error e, ⟨env.release p c s4,
            w1.log ++ [Event.fetchNode node, Event.lease p (some c), Event.asking c,
              Event.release p c]⟩)) ∧
      (∀ (e : Exn) (p : Pool) (c : Conn) (s2 s3 s4 : σ) (w5 : World σ),
        env.fetchNode node w1.st = (.ok p, s2) →
        env.acquire p s2 = (.ok c, s3) →
        env.asking c s3 = (.ok (), s4) →
        _command_connection env cmd c
            ⟨s4, w1.log ++ [Event.fetchNode node, Event.lease p (some c), Event.asking c]⟩ =
          (.error e, w5) →
        (∀ sl nd, e ≠ .MovedError sl nd) →
        _command env cmd key (World.init s0) =
          (.error e, ⟨env.release p c w5.st, w5.log ++ [Event.release p c]⟩)) ∧
      ∃ evs, (_command env cmd key (World.init s0)).2.log = w1.log ++ evs ∧
        refreshes evs = 0 ∧ attempts evs = 0 := by
  refine ⟨?_, ?_, ?_, ?_, ?_⟩
  · intro e s2 hf
    exact command_ask_throws env cmd key s0 w w1 _ slot node e hstart hask
      (by simp [askClause, fetchNode, hf])
  · intro e p s2 s3 hf hl
    exact command_ask_throws env cmd key s0 w w1 _ slot node e hstart hask
      (by simp [askClause, fetchNode, hf, SafeConnection, acquire, hl, Except.toOption])
  · intro e p c s2 s3 s4 hf hl ha
    exact command_ask_throws env cmd key s0 w w1 _ slot node e hstart hask
      (by simp [askClause, fetchNode, hf, SafeConnection, acquire, hl, Except.toOption,
        _asking, ha, release])
  · intro e p c s2 s3 s4 w5 hf hl ha hr hne
    refine command_ask_throws env cmd key s0 w w1 _ slot node e hstart hask ?_
    rw [askClause_resend env cmd node w1 p c s2 s3 s4 hf hl ha]
    cases e with
    | MovedError sl nd => exact absurd rfl (hne sl nd)
    | IoError m => simp [resend, hr, release]
    | ClosedError m => simp [resend, hr, release]
    | AskError sl nd => simp [resend, hr, release]
    | Error m => simp [resend, hr, release]
    | Other cl m => simp [resend, hr, release]
  · obtain ⟨evs, h1, _, h3, h4, _⟩ := askClause_tidy env cmd node w1
    exact ⟨evs, by rw [command_ask_world env cmd key s0 w w1 slot node hstart hask]; exact h1,
      h4, h3⟩

/-- C27 on a cluster whose pool 0 answers `ASK 42 10.0.0.3:7002` at the first
attempt and whose node `10.0.0.3:7002` fails the resend with an `IoError`: that
`IoError` is what the caller gets, after the release of the connection. -/
theorem command_ask_failure_propagates_witness :
    _command (cluster (asksThen (.error (.IoError "Failed to get reply")))) (reads getFoo) "foo"
        (World.init 0) =
      (.error (.IoError "Failed to get reply"),
        ⟨0, [Event.fetch "foo", Event.lease 0 (some 0), Event.send 0 getFoo, Event.recv 0,
            Event.release 0 0, Event.fetchNode nodeC, Event.lease 7002 (some 7002),
            Event.asking 7002, Event.send 7002 getFoo, Event.recv 7002] ++
          [Event.release 7002 7002]⟩) :=
  (command_ask_failure_propagates (cluster (asksThen (.error (.IoError "Failed to get reply"))))
    (reads getFoo) "foo" 0 (World.init 0)
    ⟨0, [Event.fetch "foo", Event.lease 0 (some 0), Event.send 0 getFoo, Event.recv 0,
      Event.release 0 0]⟩ 42 nodeC (Or.inl rfl) rfl).2.2.2.1
    (.IoError "Failed to get reply") 7002 7002 0 0 0
    ⟨0, [Event.fetch "foo", Event.lease 0 (some 0), Event.send 0 getFoo, Event.recv 0,
      Event.release 0 0, Event.fetchNode nodeC, Event.lease 7002 (some 7002),
      Event.asking 7002, Event.send 7002 getFoo, Event.recv 7002]⟩
    rfl rfl rfl rfl (fun _ _ h => Exn.noConfusion h)

/-- C28: when the `update` with which `for_each` begins throws, `for_each` throws
that exception; the `update` is the only call in the log: `pools()` is not read,
no guard is made and the callback is not called. -/
theorem for_each_refresh_failure (env : Env σ) (cb : Callback σ) (s0 s1 : σ) (e : Exn)
    (hupdate : env.update s0 = (.error e, s1)) :
    for_each env cb (World.init s0) = (.error e, ⟨s1, [Event.update]⟩) ∧
      visited (for_each env cb (World.init s0)).2.log = [] ∧
      guardsMade (for_each env cb (World.init s0)).2.log = [] := by
  have h : for_each env cb (World.init s0) = (.error e, ⟨s1, [Event.update]⟩) := by
    simp [for_each, update, World.init, hupdate]
  rw [h]
  exact ⟨rfl, rfl, rfl⟩

/-- C28 on a cluster in which no node is reachable for the refresh. -/
theorem for_each_refresh_failure_witness :
    for_each (unreachable (.Error "no node reachable") healthy) counting (World.init 0) =
        (.error (.Error "no node reachable"), ⟨0, [Event.update]⟩) ∧
      visited (for_each (unreachable (.Error "no node reachable") healthy) counting
        (World.init 0)).2.log = [] ∧
      guardsMade (for_each (unreachable (.Error "no node reachable") healthy) counting
        (World.init 0)).2.log = [] :=
  for_each_refresh_failure (unreachable (.Error "no node reachable") healthy) counting 0 0
    (.Error "no node reachable") rfl

/-- C22: cut the log of a run of `for_each` at any point.  Up to the cut at most
one guard more was made than destroyed; at the end of the log every guard made
has been destroyed; a call of the callback is followed at once by the
destruction of the guard it was given, whether the callback returned or threw;
and a guard is made only when every guard made before has been destroyed.  (The
callback is taken not to keep a copy of the `Redis` object.) -/
theorem for_each_guard_scoped (env : Env σ) (cb : Callback σ) (s0 : σ) (l1 l2 : List Event)
    (hlog : (for_each env cb (World.init s0)).2.log = l1 ++ l2) :
    (guardsMade l1).length ≤ (guardsDropped l1).length + 1 ∧
      (l2 = [] → guardsMade l1 = guardsDropped l1) ∧
      (∀ p c rest, l2 = Event.callback p c :: rest →
        ∃ rest2, rest = Event.unguard p c :: rest2) ∧
      (∀ p c rest, l2 = Event.guard p c :: rest → guardsMade l1 = guardsDropped l1) := by
  have hw := for_each_guards env cb s0
  rw [hlog] at hw
  obtain ⟨st1, h1, h2⟩ := guardWalk_prefix .idle .idle l1 l2 hw
  have hm := guardWalk_made l1 .idle st1 h1
  simp only [GuardState.owed, List.nil_append] at hm
  refine ⟨?_, ?_, ?_, ?_⟩
  · rw [hm]
    cases st1 <;> simp [GuardState.owed]
  · intro hl2
    subst hl2
    simp only [guardWalk, Option.some.injEq] at h2
    subst h2
    simpa [GuardState.owed] using hm
  · intro p c rest hl2
    subst hl2
    simp only [guardWalk] at h2
    rcases hstep : guardStep st1 (Event.callback p c) with _ | st2
    · simp [hstep] at h2
    · simp only [hstep] at h2
      obtain ⟨_, hst2⟩ := guardStep_callback st1 st2 p c hstep
      subst hst2
      cases rest with
      | nil => simp [guardWalk] at h2
      | cons ev rest2 =>
        simp only [guardWalk] at h2
        rcases hstep2 : guardStep (.called p c) ev with _ | st3
        · simp [hstep2] at h2
        · obtain ⟨hev, _⟩ := guardStep_called p c ev st3 hstep2
          exact ⟨rest2, by rw [hev]⟩
  · intro p c rest hl2
    subst hl2
    simp only [guardWalk] at h2
    rcases hstep : guardStep st1 (Event.guard p c) with _ | st2
    · simp [hstep] at h2
    · have := guardStep_idle st1 st2 p c hstep
      subst this
      simpa [GuardState.owed] using hm

/-- C22 on the healthy cluster with a callback that throws at pool 7001, cut at the
call of the callback for pool 7001: one guard is outstanding and the next event
after the callback is its destruction. -/
theorem for_each_guard_scoped_witness :
    (guardsMade [Event.update, Event.pools, Event.guard 7000 (some 7000),
        Event.callback 7000 7000, Event.unguard 7000 7000,
        Event.guard 7001 (some 7001)]).length ≤
      (guardsDropped [Event.update, Event.pools, Event.guard 7000 (some 7000),
        Event.callback 7000 7000, Event.unguard 7000 7000,
        Event.guard 7001 (some 7001)]).length + 1 ∧
      ∃ rest2, [Event.unguard 7001 7001] = Event.unguard 7001 7001 :: rest2 :=
  have h := for_each_guard_scoped (cluster healthy)
    (raisingAt7001 (.IoError "Failed to get reply")) 0
    [Event.update, Event.pools, Event.guard 7000 (some 7000), Event.callback 7000 7000,
      Event.unguard 7000 7000, Event.guard 7001 (some 7001)]
    [Event.callback 7001 7001, Event.unguard 7001 7001] rfl
  ⟨h.1, h.2.2.1 7001 7001 _ rfl⟩

/-- C23: a range of fewer than two elements (empty, or a command name without a
key) makes `command(first, last)` throw the `Error` "command: invalid range" and
leaves the world as it was: no pool is resolved, no connection leased, nothing
sent and nothing refreshed. -/
theorem command_rejects_short_range (env : Env σ) (range : List StringView) (w : World σ)
    (hshort : range.length < 2) :
    command_first_last env range w = (.error (.Error "command: invalid range"), w) := by
  match range, hshort with
  | [], _ => rfl
  | [_], _ => rfl
  | _ :: _ :: _, h => exfalso; simp only [List.length_cons] at h; omega

/-- C23 on the range that holds the command name `PING` only. -/
theorem command_rejects_short_range_witness :
    command_first_last (cluster healthy) ["PING"] (World.init 0) =
      (.error (.Error "command: invalid range"), World.init 0) :=
  command_rejects_short_range (cluster healthy) ["PING"] (World.init 0) (by decide)

/-- C24: on a range of at least two elements, `command(first, last)` is the keyed
`_command` with the whole range as argument list (of every call: the callable
reads the range through iterators it copies) and the second element of the
range as routing key: every argument list sent in the run is the range itself,
its elements in their order, each once, the command name first; and every key
resolved is the second element. -/
theorem command_sends_whole_range (env : Env σ) (range : List StringView) (s0 : σ)
    (hlen : 2 ≤ range.length) :
    command_first_last env range (World.init s0) =
        _command env (reads range) range[1] (World.init s0) ∧
      (∀ a ∈ sent (command_first_last env range (World.init s0)).2.log, a = range) ∧
      (∀ k ∈ fetched (command_first_last env range (World.init s0)).2.log, k = range[1]) := by
  match range, hlen with
  | [], h => simp at h
  | [_], h => simp at h
  | name :: second :: rest, _ =>
    have hrun : command_first_last env (name :: second :: rest) (World.init s0) =
        _command env (reads (name :: second :: rest)) second (World.init s0) := by
      simp [command_first_last, command_strings, _range_command_true, generic_cmd,
        append_range_eq]
    have hr := command_routed env (reads (name :: second :: rest)) second s0
    refine ⟨hrun, ?_, ?_⟩
    · rw [hrun]
      intro a ha
      obtain ⟨i, hi⟩ := hr.2 a ha
      exact hi
    · rw [hrun]; exact hr.1

/-- C24 on the range `SET foo bar` on the healthy cluster: `SET foo bar` is sent once,
to the pool of the key `foo`. -/
theorem command_sends_whole_range_witness :
    command_first_last (cluster healthy) ["SET", "foo", "bar"] (World.init 0) =
        (.ok (.str "bar"),
          ⟨0, [Event.fetch "foo", Event.lease 0 (some 0), Event.send 0 ["SET", "foo", "bar"],
            Event.recv 0, Event.release 0 0]⟩) ∧
      (∀ a ∈ sent (command_first_last (cluster healthy) ["SET", "foo", "bar"]
        (World.init 0)).2.log, a = ["SET", "foo", "bar"]) ∧
      (∀ k ∈ fetched (command_first_last (cluster healthy) ["SET", "foo", "bar"]
        (World.init 0)).2.log, k = "foo") :=
  command_sends_whole_range (cluster healthy) ["SET", "foo", "bar"] 0 (by decide)

/-- C25: each of `eval`, `evalsha`, `fcall` and `fcall_ro`, in the result-returning
and in the output-iterator form, called with no key throws an `Error` ("DO NOT
support Lua script without key" for the first two, "DO NOT support function
without key" for the last two) and leaves the world as it was, nothing being
written: no pool is resolved and nothing is sent.  Called with the keys
`key :: more`, each of the eight is the keyed `_command` of its script command
with `key`, the first key, as routing key, followed by the parse of the reply or
by its conversion to the output; its run is routed by `key` (no other key is
resolved, and the run begins with the `fetch` of `key` and the lease on the pool
`key` resolves to); and when that pool leases a connection on which the command
is sent and a reply received, the calls made are that `fetch`, that lease, one
send of the script command with all the keys and arguments, one `recv` and the
release, and the outcome is that of the parse or of the conversion of that
reply. -/
theorem scripting_needs_a_key {ρ β : Type} (env : Env σ) (cmds : ScriptCmds)
    (parse : Reply → Except Exn ρ) (to_array : Reply → Except Exn Unit × List β)
    (name : StringView) (args : List StringView) (s0 : σ) :
    (eval env cmds parse name [] args (World.init s0) =
          (.error (.Error "DO NOT support Lua script without key"), World.init s0) ∧
        eval_output env cmds to_array name [] args (World.init s0) =
          ((.error (.Error "DO NOT support Lua script without key"), World.init s0), []) ∧
        evalsha env cmds parse name [] args (World.init s0) =
          (.error (.Error "DO NOT support Lua script without key"), World.init s0) ∧
        evalsha_output env cmds to_array name [] args (World.init s0) =
          ((.error (.Error "DO NOT support Lua script without key"), World.init s0), []) ∧
        fcall env cmds parse name [] args (World.init s0) =
          (.error (.Error "DO NOT support function without key"), World.init s0) ∧
        fcall_output env cmds to_array name [] args (World.init s0) =
          ((.error (.Error "DO NOT support function without key"), World.init s0), []) ∧
        fcall_ro env cmds parse name [] args (World.init s0) =
          (.error (.Error "DO NOT support function without key"), World.init s0) ∧
        fcall_ro_output env cmds to_array name [] args (World.init s0) =
          ((.error (.Error "DO NOT support function without key"), World.init s0), [])) ∧
      ∀ (key : StringView) (more : List StringView),
        (eval env cmds parse name (key :: more) args (World.init s0) =
            parsed parse
              (_command env (reads (cmds.eval name (key :: more) args)) key (World.init s0)) ∧
          eval_output env cmds to_array name (key :: more) args (World.init s0) =
            written to_array
              (_command env (reads (cmds.eval name (key :: more) args)) key (World.init s0)) ∧
          evalsha env cmds parse name (key :: more) args (World.init s0) =
            parsed parse
              (_command env (reads (cmds.evalsha name (key :: more) args)) key (World.init s0)) ∧
          evalsha_output env cmds to_array name (key :: more) args (World.init s0) =
            written to_array
              (_command env (reads (cmds.evalsha name (key :: more) args)) key (World.init s0)) ∧
          fcall env cmds parse name (key :: more) args (World.init s0) =
            parsed parse
              (_command env (reads (cmds.fcall name (key :: more) args)) key (World.init s0)) ∧
          fcall_output env cmds to_array name (key :: more) args (World.init s0) =
            written to_array
              (_command env (reads (cmds.fcall name (key :: more) args)) key (World.init s0)) ∧
          fcall_ro env cmds parse name (key :: more) args (World.init s0) =
            parsed parse
              (_command env (reads (cmds.fcall_ro name (key :: more) args)) key
                (World.init s0)) ∧
          fcall_ro_output env cmds to_array name (key :: more) args (World.init s0) =
            written to_array
              (_command env (reads (cmds.fcall_ro name (key :: more) args)) key
                (World.init s0))) ∧
        (RoutedBy env key s0
            (eval env cmds parse name (key :: more) args (World.init s0)).2.log ∧
          RoutedBy env key s0
            (eval_output env cmds to_array name (key :: more) args (World.init s0)).1.2.log ∧
          RoutedBy env key s0
            (evalsha env cmds parse name (key :: more) args (World.init s0)).2.log ∧
          RoutedBy env key s0
            (evalsha_output env cmds to_array name (key :: more) args (World.init s0)).1.2.log ∧
          RoutedBy env key s0
            (fcall env cmds parse name (key :: more) args (World.init s0)).2.log ∧
          RoutedBy env key s0
            (fcall_output env cmds to_array name (key :: more) args (World.init s0)).1.2.log ∧
          RoutedBy env key s0
            (fcall_ro env cmds parse name (key :: more) args (World.init s0)).2.log ∧
          RoutedBy env key s0
            (fcall_ro_output env cmds to_array name (key :: more) args
              (World.init s0)).1.2.log) ∧
        ∀ (p : Pool) (c : Conn) (r : Reply) (s1 s2 s3 s4 : σ),
          env.fetch key s0 = (.ok p, s1) →
          env.acquire p s1 = (.ok c, s2) →
          env.recv c s3 = (.ok r, s4) →
          (env.send c (cmds.eval name (key :: more) args) s2 = (.ok (), s3) →
            eval env cmds parse name (key :: more) args (World.init s0) =
                (parse r, ⟨env.release p c s4,
                  [Event.fetch key, Event.lease p (some c),
                    Event.send c (cmds.eval name (key :: more) args), Event.recv c,
                    Event.release p c]⟩) ∧
              eval_output env cmds to_array name (key :: more) args (World.init s0) =
                (((to_array r).1, ⟨env.release p c s4,
                  [Event.fetch key, Event.lease p (some c),
                    Event.send c (cmds.eval name (key :: more) args), Event.recv c,
                    Event.release p c]⟩), (to_array r).2)) ∧
          (env.send c (cmds.evalsha name (key :: more) args) s2 = (.ok (), s3) →
            evalsha env cmds parse name (key :: more) args (World.init s0) =
                (parse r, ⟨env.release p c s4,
                  [Event.fetch key, Event.lease p (some c),
                    Event.send c (cmds.evalsha name (key :: more) args), Event.recv c,
                    Event.release p c]⟩) ∧
              evalsha_output env cmds to_array name (key :: more) args (World.init s0) =
                (((to_array r).1, ⟨env.release p c s4,
                  [Event.fetch key, Event.lease p (some c),
                    Event.send c (cmds.evalsha name (key :: more) args), Event.recv c,
                    Event.release p c]⟩), (to_array r).2)) ∧
          (env.send c (cmds.fcall name (key :: more) args) s2 = (.ok (), s3) →
            fcall env cmds parse name (key :: more) args (World.init s0) =
                (parse r, ⟨env.release p c s4,
                  [Event.fetch key, Event.lease p (some c),
                    Event.send c (cmds.fcall name (key :: more) args), Event.recv c,
                    Event.release p c]⟩) ∧
              fcall_output env cmds to_array name (key :: more) args (World.init s0) =
                (((to_array r).1, ⟨env.release p c s4,
                  [Event.fetch key, Event.lease p (some c),
                    Event.send c (cmds.fcall name (key :: more) args), Event.recv c,
                    Event.release p c]⟩), (to_array r).2)) ∧
          (env.send c (cmds.fcall_ro name (key :: more) args) s2 = (.ok (), s3) →
            fcall_ro env cmds parse name (key :: more) args (World.init s0) =
                (parse r, ⟨env.release p c s4,
                  [Event.fetch key, Event.lease p (some c),
                    Event.send c (cmds.fcall_ro name (key :: more) args), Event.recv c,
                    Event.release p c]⟩) ∧
              fcall_ro_output env cmds to_array name (key :: more) args (World.init s0) =
                (((to_array r).1, ⟨env.release p c s4,
                  [Event.fetch key, Event.lease p (some c),
                    Event.send c (cmds.fcall_ro name (key :: more) args), Event.recv c,
                    Event.release p c]⟩), (to_array r).2)) := by
  refine ⟨⟨rfl, rfl, rfl, rfl, rfl, rfl, rfl, rfl⟩, ?_⟩
  intro key more
  refine ⟨⟨rfl, rfl, rfl, rfl, rfl, rfl, rfl, rfl⟩, ⟨?_, ?_, ?_, ?_, ?_, ?_, ?_, ?_⟩, ?_⟩
  · simp only [eval, parsed_world]
    exact command_routed_by env _ key s0
  · simp only [eval_output, written_world]
    exact command_routed_by env _ key s0
  · simp only [evalsha, parsed_world]
    exact command_routed_by env _ key s0
  · simp only [evalsha_output, written_world]
    exact command_routed_by env _ key s0
  · simp only [fcall, parsed_world]
    exact command_routed_by env _ key s0
  · simp only [fcall_output, written_world]
    exact command_routed_by env _ key s0
  · simp only [fcall_ro, parsed_world]
    exact command_routed_by env _ key s0
  · simp only [fcall_ro_output, written_world]
    exact command_routed_by env _ key s0
  · intro p c r s1 s2 s3 s4 hf hl hr
    refine ⟨?_, ?_, ?_, ?_⟩
    · intro hs
      have h := command_first_reply env (reads (cmds.eval name (key :: more) args)) key
        s0 s1 s2 s3 s4 p c r hf hl hs hr
      exact ⟨by simp only [eval, h, parsed, reads], by simp only [eval_output, h, written, reads]⟩
    · intro hs
      have h := command_first_reply env (reads (cmds.evalsha name (key :: more) args)) key
        s0 s1 s2 s3 s4 p c r hf hl hs hr
      exact ⟨by simp only [evalsha, h, parsed, reads],
        by simp only [evalsha_output, h, written, reads]⟩
    · intro hs
      have h := command_first_reply env (reads (cmds.fcall name (key :: more) args)) key
        s0 s1 s2 s3 s4 p c r hf hl hs hr
      exact ⟨by simp only [fcall, h, parsed, reads], by simp only [fcall_output, h, written, reads]⟩
    · intro hs
      have h := command_first_reply env (reads (cmds.fcall_ro name (key :: more) args)) key
        s0 s1 s2 s3 s4 p c r hf hl hs hr
      exact ⟨by simp only [fcall_ro, h, parsed, reads],
        by simp only [fcall_ro_output, h, written, reads]⟩

/-- C25 on the healthy cluster: `eval` with no key throws before anything is called;
`evalsha` with the keys `foo`, `baz` is sent once, with both keys, to the pool of
`foo`, and its reply parsed; `fcall` in the output-iterator form is routed by
`foo`. -/
theorem scripting_needs_a_key_witness :
    eval (cluster healthy) scriptCmds parseText "return 1" [] [] (World.init 0) =
        (.error (.Error "DO NOT support Lua script without key"), World.init 0) ∧
      evalsha (cluster healthy) scriptCmds parseText "e0e1f9fa" ["foo", "baz"] [] (World.init 0) =
        (.ok "bar",
          ⟨0, [Event.fetch "foo", Event.lease 0 (some 0),
            Event.send 0 ["EVALSHA", "e0e1f9fa", "foo", "baz"], Event.recv 0,
            Event.release 0 0]⟩) ∧
      RoutedBy (cluster healthy) "foo" 0
        (fcall_output (cluster healthy) scriptCmds toTexts "e0e1f9fa" ("foo" :: ["baz"]) []
          (World.init 0)).1.2.log :=
  ⟨(scripting_needs_a_key (cluster healthy) scriptCmds parseText toTexts "return 1" []
      0).1.1,
    ((((scripting_needs_a_key (cluster healthy) scriptCmds parseText toTexts "e0e1f9fa" []
      0).2 "foo" ["baz"]).2.2 0 0 (.str "bar") 0 0 0 0 rfl rfl rfl).2.1 rfl).1,
    ((scripting_needs_a_key (cluster healthy) scriptCmds parseText toTexts "e0e1f9fa" []
      0).2 "foo" ["baz"]).2.1.2.2.2.2.2.1⟩

/-- C26: a range command dispatched through `command(cmd, first, last, ...)` resolves
no key but the one of the first element of the range: the element itself when the
elements are strings, its first component when they are pairs; and when that
key resolves to a pool, the run begins with the `fetch` of that key and the lease
on that pool.  The other elements of the range are in the argument list sent and
nowhere else. -/
theorem range_command_routed_by_first {β : Type} (env : Env σ)
    (cmd : List StringView → Cmd) (cmdp : List (StringView × β) → Cmd)
    (first : StringView) (rest : List StringView)
    (pfirst : StringView × β) (prest : List (StringView × β)) (s0 : σ) :
    command_strings env cmd first rest (World.init s0) =
        _command env (cmd (first :: rest)) first (World.init s0) ∧
      (∀ k ∈ fetched (command_strings env cmd first rest (World.init s0)).2.log, k = first) ∧
      (∀ p s1, env.fetch first s0 = (.ok p, s1) →
        ∃ c more, (command_strings env cmd first rest (World.init s0)).2.log =
          Event.fetch first :: Event.lease p c :: more) ∧
      command_pairs env cmdp pfirst prest (World.init s0) =
        _command env (cmdp (pfirst :: prest)) pfirst.1 (World.init s0) ∧
      (∀ k ∈ fetched (command_pairs env cmdp pfirst prest (World.init s0)).2.log,
        k = pfirst.1) ∧
      (∀ p s1, env.fetch pfirst.1 s0 = (.ok p, s1) →
        ∃ c more, (command_pairs env cmdp pfirst prest (World.init s0)).2.log =
          Event.fetch pfirst.1 :: Event.lease p c :: more) := by
  refine ⟨rfl, ?_, ?_, rfl, ?_, ?_⟩
  · exact (command_routed env (cmd (first :: rest)) first s0).1
  · intro p s1 hf
    exact command_begins env (cmd (first :: rest)) first s0 s1 p hf
  · exact (command_routed env (cmdp (pfirst :: prest)) pfirst.1 s0).1
  · intro p s1 hf
    exact command_begins env (cmdp (pfirst :: prest)) pfirst.1 s0 s1 p hf

/-- C26 on the healthy cluster: `DEL foo baz qux` and `MSET foo 1 baz 2` are both sent
to pool 0, to which `foo` resolves. -/
theorem range_command_routed_by_first_witness :
    (∃ c more, (command_strings (cluster healthy) (fun keys => reads ("DEL" :: keys)) "foo"
        ["baz", "qux"] (World.init 0)).2.log =
        Event.fetch "foo" :: Event.lease 0 c :: more) ∧
      ∃ c more, (command_pairs (cluster healthy)
          (fun kvs => reads ("MSET" :: kvs.flatMap fun kv => [kv.1, kv.2])) ("foo", "1")
          [("baz", "2")] (World.init 0)).2.log =
        Event.fetch "foo" :: Event.lease 0 c :: more :=
  have h := range_command_routed_by_first (cluster healthy)
    (fun keys => reads ("DEL" :: keys))
    (fun kvs => reads ("MSET" :: kvs.flatMap fun kv => [kv.1, kv.2])) "foo" ["baz", "qux"]
    ("foo", "1") [("baz", "2")] 0
  ⟨h.2.2.1 0 0 rfl, h.2.2.2.2.2 0 0 rfl⟩

/-- C29: every overload of `xread` and `xreadgroup` treats the reply of its
dispatch alike: a nil reply makes it return normally with nothing written to the
output; any other reply is handed to `to_array`, and what `to_array` writes is
what is written. -/
theorem stream_reads_nil_safe {β : Type} (env : Env σ) (cmds : StreamCmds)
    (is_nil : Reply → Bool) (to_array : Reply → Except Exn Unit × List β)
    (group consumer key id : StringView) (first : StringView × StringView)
    (rest : List (StringView × StringView)) (timeout count : Int) (noack : Bool)
    (w : World σ) :
    NilSafe is_nil to_array (_command env (reads (cmds.xread key id count)) key w)
        (xread env cmds is_nil to_array key id count w) ∧
      NilSafe is_nil to_array
        (_command env (reads (cmds.xread_range (first :: rest) count)) first.1 w)
        (xread_range env cmds is_nil to_array first rest count w) ∧
      NilSafe is_nil to_array
        (_command env (reads (cmds.xread_block key id timeout count)) key w)
        (xread_block env cmds is_nil to_array key id timeout count w) ∧
      NilSafe is_nil to_array
        (_command env (reads (cmds.xread_block_range (first :: rest) timeout count)) first.1 w)
        (xread_block_range env cmds is_nil to_array first rest timeout count w) ∧
      NilSafe is_nil to_array
        (_command env (reads (cmds.xreadgroup group consumer key id count noack)) key w)
        (xreadgroup env cmds is_nil to_array group consumer key id count noack w) ∧
      NilSafe is_nil to_array
        (_command env (reads (cmds.xreadgroup_range group consumer (first :: rest) count noack))
          first.1 w)
        (xreadgroup_range env cmds is_nil to_array group consumer first rest count noack w) ∧
      NilSafe is_nil to_array
        (_command env (reads (cmds.xreadgroup_block group consumer key id timeout count noack))
          key w)
        (xreadgroup_block env cmds is_nil to_array group consumer key id timeout count noack
          w) ∧
      NilSafe is_nil to_array
        (_command env
          (reads (cmds.xreadgroup_block_range group consumer (first :: rest) timeout count noack))
          first.1 w)
        (xreadgroup_block_range env cmds is_nil to_array group consumer first rest timeout
          count noack w) :=
  ⟨written_unless_nil_safe is_nil to_array _, written_unless_nil_safe is_nil to_array _,
    written_unless_nil_safe is_nil to_array _, written_unless_nil_safe is_nil to_array _,
    written_unless_nil_safe is_nil to_array _, written_unless_nil_safe is_nil to_array _,
    written_unless_nil_safe is_nil to_array _, written_unless_nil_safe is_nil to_array _⟩

/-- C29 on a cluster that answers a blocking `XREAD` of the stream `foo` with a nil
reply: `xread` returns normally and writes nothing. -/
theorem stream_reads_nil_safe_witness :
    xread_block (cluster answersNil) streamCmds isNil toTexts "foo" "$" 100 1 (World.init 0) =
      ((.ok (),
        ⟨0, [Event.fetch "foo", Event.lease 0 (some 0),
          Event.send 0 ["XREAD", "BLOCK", "STREAMS", "foo", "$"], Event.recv 0,
          Event.release 0 0]⟩), []) :=
  ((stream_reads_nil_safe (cluster answersNil) streamCmds isNil toTexts "g" "c" "foo" "$"
    ("foo", "$") [] 100 1 false (World.init 0)).2.2.1 .nil
    ⟨0, [Event.fetch "foo", Event.lease 0 (some 0),
      Event.send 0 ["XREAD", "BLOCK", "STREAMS", "foo", "$"], Event.recv 0,
      Event.release 0 0]⟩ rfl).1 rfl

end Claims

end RedisCluster
